import Mathlib

/-!
# iter8-controller: routing engine and action adapter

A shallow embedding of the parts of the iter8 experiment controller that the
routing and adapter claims are about:

* `pkg/controller/experiment/adapter/experiment.go` (namespace `Adapter`),
* `pkg/controller/experiment/routing/processor/deployment.go` (namespace `Processor`),
* `pkg/controller/experiment/routing/router/istio/router.go` (namespace `Istio`),
* `pkg/controller/experiment/experiment_controller.go` (namespace `Controller`: the
  workload watches and `Reconcile` with `proceed`, `syncExperiment`, `syncMetrics`
  and the finalizer functions),
* the target cache of the specification (namespace `Cache`).

Go pointers to Kubernetes objects become values; where the Go code mutates an
object through an alias (the builders are pointer casts that mutate in place),
the embedding writes the mutated value back to every place that aliases it.
-/

set_option autoImplicit false

/-! ## Action adapter (`adapter/experiment.go`) -/

namespace Adapter

/-- The value of `targetActionDetected`. -/
def targetActionDetected : String := "detected"

/-- The value of `targetActionDeleted`. -/
def targetActionDeleted : String := "deleted"

/-- The adapter's abstract of one experiment; `targetAction` is a Go string type. -/
structure Experiment where
  ServiceKeys : List String
  DeploymentKeys : List String
  targetAction : String
  deriving DecidableEq, Repr

/-- The constructor `NewExperiment`: the pending action is the zero value. -/
def NewExperiment (services deployments : List String) : Experiment :=
  { ServiceKeys := services, DeploymentKeys := deployments, targetAction := "" }

/-- The method `Refresh`: the pending action is a deletion. -/
def Experiment.Refresh (e : Experiment) : Bool :=
  e.targetAction == targetActionDeleted

/-- The method `Resume`: the pending action is a detection. -/
def Experiment.Resume (e : Experiment) : Bool :=
  e.targetAction == targetActionDetected

/-- The method `clearAction`. -/
def Experiment.clearAction (e : Experiment) : Experiment :=
  { e with targetAction := "" }

/-- The method `MarkTargetDetected`; the two arguments are not used by the code. -/
def Experiment.MarkTargetDetected (e : Experiment) (_name _kind : String) : Experiment :=
  { e with targetAction := targetActionDetected }

/-- The method `MarkTargetDeleted`; the two arguments are not used by the code. -/
def Experiment.MarkTargetDeleted (e : Experiment) (_name _kind : String) : Experiment :=
  { e with targetAction := targetActionDeleted }

/-- The method `GetAction`: the first component is the returned copy `out`, the
second is the receiver after `clearAction`. -/
def Experiment.GetAction (e : Experiment) : Experiment × Experiment :=
  let out := e
  (out, e.clearAction)

/-- One call of the `Catcher` interface. -/
inductive Mark where
  | detected (name kind : String)
  | deleted (name kind : String)
  deriving DecidableEq, Repr

/-- Apply one mark call to the adapter experiment. -/
def Mark.apply (e : Experiment) : Mark → Experiment
  | .detected n k => e.MarkTargetDetected n k
  | .deleted n k => e.MarkTargetDeleted n k

/-- Whether a mark call is `MarkTargetDetected`. -/
def Mark.isDetected : Mark → Bool
  | .detected _ _ => true
  | .deleted _ _ => false

/-- Whether a mark call is `MarkTargetDeleted`. -/
def Mark.isDeleted : Mark → Bool
  | .detected _ _ => false
  | .deleted _ _ => true

/-- Apply a sequence of mark calls, oldest first. -/
def applyMarks (e : Experiment) (ms : List Mark) : Experiment :=
  ms.foldl Mark.apply e

end Adapter

/-! ## Kubernetes and Istio objects -/

/-- Object labels: a Go `map[string]string`, kept as an association list in which
the first binding of a key is the one that counts. -/
abbrev Labels := List (String × String)

/-- The Go map read `v, ok := m[key]`. -/
def Labels.get? (m : Labels) (key : String) : Option String :=
  m.lookup key

/-- The Go `delete(m, key)`. -/
def Labels.erase (m : Labels) (key : String) : Labels :=
  m.filter (fun p => p.1 != key)

/-- The Go map write `m[key] = val`. -/
def Labels.set (m : Labels) (key val : String) : Labels :=
  (key, val) :: Labels.erase m key

/-- A match clause of an HTTP route (`HTTPMatchRequest`); its content is never
inspected by the routing code. -/
structure HTTPMatchRequest where
  name : String
  uriPrefix : String
  deriving DecidableEq, Repr

/-- A weighted destination of an HTTP route (`HTTPRouteDestination`, with its
`Destination` flattened); `subset = ""` is the unset subset. -/
structure HTTPRouteDestination where
  host : String
  subset : String
  port : Option Nat
  weight : Int
  deriving DecidableEq, Repr

/-- An HTTP route of a virtual service (`HTTPRoute`); the field `route` is the
destination list, as in the Istio API. -/
structure HTTPRoute where
  name : String
  Match : List HTTPMatchRequest
  route : List HTTPRouteDestination
  deriving DecidableEq, Repr

/-- The Istio `VirtualService` object (the route table of a rule set). -/
structure VirtualService where
  name : String
  Namespace : String
  labels : Labels
  hosts : List String
  gateways : List String
  http : List HTTPRoute
  deriving DecidableEq, Repr

/-- A subset of a destination rule. -/
structure Subset where
  name : String
  labels : Labels
  deriving DecidableEq, Repr

/-- The Istio `DestinationRule` object (the traffic policy of a rule set). -/
structure DestinationRule where
  name : String
  Namespace : String
  labels : Labels
  host : String
  subsets : List Subset
  deriving DecidableEq, Repr

/-- A `runtime.Object` handed to the router: a deployment (with the labels of
its pod template) or a service. -/
inductive RuntimeObject where
  | Deployment (name : String) (templateLabels : Labels)
  | Service (name : String)
  deriving DecidableEq, Repr

/-! ## The experiment resource (`iter8v1alpha2.Experiment`) -/

/-- An entry of `Spec.Networking.Hosts`. -/
structure Host where
  name : String
  gateway : String
  deriving DecidableEq, Repr

/-- The optional `Spec.Networking` block. -/
structure Networking where
  id : Option String
  hosts : List Host
  deriving DecidableEq, Repr

/-- The target service of an experiment (`Spec.Service`); `name` and
`namespace` come from the embedded object reference, `""` when unset. -/
structure Service where
  name : String
  Namespace : String
  kind : String
  baseline : String
  candidates : List String
  port : Option Nat
  deriving DecidableEq, Repr

/-- One weighted entry of an assessment. -/
structure VersionAssessment where
  name : String
  weight : Int
  deriving DecidableEq, Repr

/-- The assessment stored in `Status.Assessment`. -/
structure Assessment where
  baseline : VersionAssessment
  candidates : List VersionAssessment
  deriving DecidableEq, Repr

/-- The experiment resource, restricted to the fields the routing code reads or
writes. `trafficMatch` is `Spec.TrafficControl.Match.HTTP` (empty when any
level is nil), `cleanup` is `Spec.Cleanup`. -/
structure Experiment where
  name : String
  Namespace : String
  service : Service
  networking : Option Networking
  trafficMatch : List HTTPMatchRequest
  cleanup : Option Bool
  assessment : Assessment
  deriving DecidableEq, Repr

/-- Modelled from the spec: `Experiment.ServiceNamespace` is not under src/; the
namespace of the target service, which is the service's own namespace when one
is given and the experiment's namespace otherwise (`util_test.go` passes the
service namespace to the host name). -/
def Experiment.ServiceNamespace (inst : Experiment) : String :=
  if inst.service.Namespace != "" then inst.service.Namespace
  else inst.Namespace

/-- Modelled from the spec: `Spec.GetCleanup` is not under src/; the cleanup
flag, false when not set. -/
def Experiment.GetCleanup (inst : Experiment) : Bool :=
  inst.cleanup.getD false

/-! ## Helpers of package `util` (known from `util_test.go`) -/

namespace Util

/-- Modelled from the spec: `ServiceToFullHostName` is not under src/;
`util_test.go` fixes `testName.testNamespace.svc.cluster.local`. -/
def ServiceToFullHostName (svcName ns : String) : String :=
  svcName ++ "." ++ ns ++ ".svc.cluster.local"

/-- Modelled from the spec: `FullExperimentName` is not under src/;
`util_test.go` fixes the experiment's name, a dot, then its namespace. -/
def FullExperimentName (inst : Experiment) : String :=
  inst.name ++ "." ++ inst.Namespace

/-- Modelled from the spec: `GetDefaultHost` is not under src/; by
`util_test.go` it is the full host name of the target service when a service
name is set, and otherwise the name of the first networking host. -/
def GetDefaultHost (inst : Experiment) : String :=
  if inst.service.name != "" then
    ServiceToFullHostName inst.service.name inst.ServiceNamespace
  else
    match inst.networking with
    | some nwk =>
      match nwk.hosts with
      | h :: _ => h.name
      | [] => ""
    | none => ""

/-- Modelled from the spec: `GetHost` (used by the processor) is not under
src/; the host of the experiment, taken to be the default host. -/
def GetHost (inst : Experiment) : String :=
  GetDefaultHost inst

end Util

/-! ## Istio router (`routing/router/istio/router.go`): constants

The label keys and role values are declared with the same values in
`routing/platform/istio/interface.go`, which the processor uses. -/

namespace Istio

/-- The name of the route receiving experimental traffic. -/
def routeNameExperiment : String := "iter8-experiment"

/-- The name of the route receiving non-experimental traffic. -/
def routeNameBase : String := "iter8-base"

/-- The key of the label that references the router id. -/
def routerID : String := "iter8-tools/router"

/-- The keyword that replaces the wildcard host `*` in a label value. -/
def wildcard : String := "iter8-wildcard-host"

/-- The suffix of the names of routing rules created by iter8. -/
def ruleNameSuffix : String := "iter8router"

/-- The label key `experimentInit`. -/
def experimentInit : String := "iter8-tools/init"

/-- The label key `experimentRole`. -/
def experimentRole : String := "iter8-tools/role"

/-- The label key `experimentLabel` (the ownership label). -/
def experimentLabel : String := "iter8-tools/experiment"

/-- The Kiali label key. -/
def kialiWizard : String := "kiali_wizard"

/-- The Kiali label value. -/
def kialiTrafficShifting : String := "traffic_shifting"

/-- The role value `roleInitializing`. -/
def roleInitializing : String := "initializing"

/-- The role value `roleStable`. -/
def roleStable : String := "stable"

/-- The role value `roleProgressing`. -/
def roleProgressing : String := "progressing"

/-- The name of the baseline subset. -/
def SubsetBaseline : String := "iter8-baseline"

/-- The name prefix of candidate subsets. -/
def SubsetCandidate : String := "iter8-candidate"

/-- Modelled from the spec: the constant `MeshGateway` of the builders is not
under src/; the Istio keyword of the mesh gateway. -/
def MeshGateway : String := "mesh"

/-- The function `CandidateSubsetName`: `strconv.Itoa` of a slice index is its
decimal rendering. -/
def CandidateSubsetName (idx : Nat) : String :=
  SubsetCandidate ++ "-" ++ toString idx

/-- The function `getRouterID`. -/
def getRouterID (inst : Experiment) : String :=
  match inst.networking.bind (fun nwk => nwk.id) with
  | some id => id
  | none =>
    let host := Util.GetDefaultHost inst
    if host == "*" then wildcard else host

/-- The function `GetRoutingRuleName`. -/
def GetRoutingRuleName (routerID : String) : String :=
  routerID ++ "." ++ ruleNameSuffix

end Istio

/-! ## Routing-rule processor (`routing/processor/deployment.go`)

The label keys and role values are those of
`routing/platform/istio/interface.go`. -/

namespace Processor

open Istio (experimentInit experimentRole experimentLabel roleInitializing roleStable
  roleProgressing)

/-- The label key `experimentHost`. -/
def experimentHost : String := "iter8-tools/host"

/-- Modelled from the spec: the constant `Stable` that `ValidateAndInit` compares
role labels with is not under src/; it is the role value `stable`. -/
def Stable : String := roleStable

/-- Modelled from the spec: the builder `NewDestinationRule(host, name, namespace)`
is not under src/; it makes a destination rule for `host` in `namespace` whose
ownership label is `name` and whose host label is `host`. -/
def NewDestinationRule (host name ns : String) : DestinationRule :=
  { name := name, Namespace := ns,
    labels := [(experimentLabel, name), (experimentHost, host)],
    host := host, subsets := [] }

/-- Modelled from the spec: the builder `NewVirtualService(host, name, namespace)`
is not under src/; it makes a virtual service in `namespace` whose ownership
label is `name` and whose host label is `host`, without routes. -/
def NewVirtualService (host name ns : String) : VirtualService :=
  { name := name, Namespace := ns,
    labels := [(experimentLabel, name), (experimentHost, host)],
    hosts := [], gateways := [], http := [] }

/-- Modelled from the spec: the builder method `WithInitLabel` on destination
rules is not under src/; it sets the init marker label `iter8-tools/init` (the
marker that `isInit` reads and that selects create over update) to `True`. -/
def DestinationRule.WithInitLabel (dr : DestinationRule) : DestinationRule :=
  { dr with labels := Labels.set dr.labels experimentInit "True" }

/-- Modelled from the spec: the builder method `WithInitLabel` on virtual
services is not under src/; it sets the init marker label to `True`. -/
def VirtualService.WithInitLabel (vs : VirtualService) : VirtualService :=
  { vs with labels := Labels.set vs.labels experimentInit "True" }

/-- The processor `Deployment`: the rule pair it holds, each pointer possibly nil. -/
structure Deployment where
  destinationRule : Option DestinationRule
  virtualService : Option VirtualService
  deriving DecidableEq, Repr

/-- The constructor `New`. -/
def New (dr : Option DestinationRule) (vs : Option VirtualService) : Deployment :=
  { destinationRule := dr, virtualService := vs }

/-- The method `ValidateAndInit`: the returned error (`none` is Go's `nil`) and the
processor after the call. `drl` and `vsl` are the `Items` of the two lists. -/
def Deployment.ValidateAndInit (p : Deployment) (drl : List DestinationRule)
    (vsl : List VirtualService) (inst : Experiment) : Option String × Deployment :=
  let svcNamespace := inst.ServiceNamespace
  let host := Util.GetHost inst
  let expFullName := Util.FullExperimentName inst
  match drl, vsl with
  | [], [] =>
    -- init rule
    (none,
      { destinationRule :=
          some (DestinationRule.WithInitLabel (NewDestinationRule host expFullName svcNamespace)),
        virtualService :=
          some (VirtualService.WithInitLabel (NewVirtualService host expFullName svcNamespace)) })
  | [dr], [vs] =>
    match dr.labels.get? experimentRole, vs.labels.get? experimentRole with
    | some drrole, some vsrole =>
      if drrole == Stable && vsrole == Stable then
        -- valid stable rules detected
        (none, { destinationRule := some dr, virtualService := some vs })
      else
        match dr.labels.get? experimentLabel, vs.labels.get? experimentLabel with
        | some drLabel, some vsLabel =>
          if drLabel == expFullName && vsLabel == expFullName then
            -- valid progressing rules found
            (none, { destinationRule := some dr, virtualService := some vs })
          else
            (some "Progressing rules being involved in other experiments", p)
        | _, _ => (some "Experiment label missing in dr or vs", p)
    | _, _ => (some "experiment role label missing in dr or vs", p)
  | [], [vs] =>
    match vs.labels.get? experimentRole with
    | some vsrole =>
      if vsrole == Stable then
        -- valid stable rules detected
        (none,
          { destinationRule :=
              some (DestinationRule.WithInitLabel
                (NewDestinationRule host expFullName svcNamespace)),
            virtualService := some vs })
      else
        (some "0 dr and 1 unstable vs found", p)
    | none => (some "0 dr and 1 unstable vs found", p)
  | _, _ =>
    (some (toString drl.length ++ " dr and " ++ toString vsl.length ++ " vs detected"), p)

/-- The shape "exactly one destination rule and one virtual service, both of
role stable". -/
def isStablePair (drl : List DestinationRule) (vsl : List VirtualService) : Bool :=
  match drl, vsl with
  | [dr], [vs] =>
    dr.labels.get? experimentRole == some Stable && vs.labels.get? experimentRole == some Stable
  | _, _ => false

/-- The shape "exactly one destination rule and one virtual service whose
ownership labels both equal `fullName`". -/
def isOwnedPair (fullName : String) (drl : List DestinationRule)
    (vsl : List VirtualService) : Bool :=
  match drl, vsl with
  | [dr], [vs] =>
    dr.labels.get? experimentLabel == some fullName &&
      vs.labels.get? experimentLabel == some fullName
  | _, _ => false

/-- The shape "no destination rule and exactly one virtual service, of role stable". -/
def isLoneStableVirtualService (drl : List DestinationRule)
    (vsl : List VirtualService) : Bool :=
  match drl, vsl with
  | [], [vs] => vs.labels.get? experimentRole == some Stable
  | _, _ => false

/-- Whether a label map carries an ownership label whose value is not `fullName`. -/
def foreignOwner (fullName : String) (m : Labels) : Bool :=
  match m.get? experimentLabel with
  | some v => v != fullName
  | none => false

/-- Some discovered routing object carries an ownership label whose value is not
`fullName`. -/
def hasForeignOwner (fullName : String) (drl : List DestinationRule)
    (vsl : List VirtualService) : Bool :=
  drl.any (fun dr => foreignOwner fullName dr.labels) ||
    vsl.any (fun vs => foreignOwner fullName vs.labels)

end Processor

/-! ## Istio router: builders (`routing/router/istio`) -/

/-! ### Builders

The builder types are pointer casts of the objects they build, so every method
updates the object it was made from; `Build` and `GetLabels` read it back. The
builder file is not under src/. -/

/-- Modelled from the spec: `NewEmptyHTTPRoute(name)` is not under src/; a route
with the given name, no match clause and no destination. -/
def NewEmptyHTTPRoute (name : String) : HTTPRoute :=
  { name := name, Match := [], route := [] }

/-- Modelled from the spec: `HTTPRouteBuilder.WithDestination` is not under src/;
it appends one destination to the route. -/
def HTTPRoute.WithDestination (rb : HTTPRoute) (d : HTTPRouteDestination) : HTTPRoute :=
  { rb with route := rb.route ++ [d] }

/-- Modelled from the spec: `HTTPRouteBuilder.WithHTTPMatch` is not under src/; it
sets the match clauses of the route to the experiment's. -/
def HTTPRoute.WithHTTPMatch (rb : HTTPRoute) (ms : List HTTPMatchRequest) : HTTPRoute :=
  { rb with Match := ms }

/-- Modelled from the spec: `HTTPRouteBuilder.ClearRoute` is not under src/; it
empties the destination list of the route. -/
def HTTPRoute.ClearRoute (rb : HTTPRoute) : HTTPRoute :=
  { rb with route := [] }

/-- Modelled from the spec: `WithExperimentRegistered` is not under src/; it sets
the ownership label to the experiment's full name. -/
def VirtualService.WithExperimentRegistered (b : VirtualService) (name : String) :
    VirtualService :=
  { b with labels := Labels.set b.labels Istio.experimentLabel name }

/-- Modelled from the spec: `WithRouterRegistered` is not under src/; it sets the
router-identifier label. -/
def VirtualService.WithRouterRegistered (b : VirtualService) (id : String) : VirtualService :=
  { b with labels := Labels.set b.labels Istio.routerID id }

/-- Modelled from the spec: `WithInitializingLabel` is not under src/; it sets the
role label to `initializing`. -/
def VirtualService.WithInitializingLabel (b : VirtualService) : VirtualService :=
  { b with labels := Labels.set b.labels Istio.experimentRole Istio.roleInitializing }

/-- Modelled from the spec: `WithProgressingLabel` is not under src/; it sets the
role label to `progressing`. -/
def VirtualService.WithProgressingLabel (b : VirtualService) : VirtualService :=
  { b with labels := Labels.set b.labels Istio.experimentRole Istio.roleProgressing }

/-- Modelled from the spec: `WithStableLabel` is not under src/; it sets the role
label to `stable`. -/
def VirtualService.WithStableLabel (b : VirtualService) : VirtualService :=
  { b with labels := Labels.set b.labels Istio.experimentRole Istio.roleStable }

/-- Modelled from the spec: `WithKialiLabel` is not under src/; it sets the Kiali
wizard label. -/
def VirtualService.WithKialiLabel (b : VirtualService) : VirtualService :=
  { b with labels := Labels.set b.labels Istio.kialiWizard Istio.kialiTrafficShifting }

/-- Modelled from the spec: `RemoveKialiLabel` is not under src/; it deletes the
Kiali wizard label. -/
def VirtualService.RemoveKialiLabel (b : VirtualService) : VirtualService :=
  { b with labels := Labels.erase b.labels Istio.kialiWizard }

/-- Modelled from the spec: `RemoveExperimentLabel` is not under src/; it deletes
the ownership label. -/
def VirtualService.RemoveExperimentLabel (b : VirtualService) : VirtualService :=
  { b with labels := Labels.erase b.labels Istio.experimentLabel }

/-- Modelled from the spec: `InitGateways` is not under src/; it empties the
gateway list. -/
def VirtualService.InitGateways (b : VirtualService) : VirtualService :=
  { b with gateways := [] }

/-- Modelled from the spec: `InitHosts` is not under src/; it empties the host list. -/
def VirtualService.InitHosts (b : VirtualService) : VirtualService :=
  { b with hosts := [] }

/-- Modelled from the spec: `InitHTTPRoutes` is not under src/; it empties the list
of HTTP routes. -/
def VirtualService.InitHTTPRoutes (b : VirtualService) : VirtualService :=
  { b with http := [] }

/-- Modelled from the spec: `WithHosts` is not under src/; it appends host names. -/
def VirtualService.WithHosts (b : VirtualService) (hosts : List String) : VirtualService :=
  { b with hosts := b.hosts ++ hosts }

/-- Modelled from the spec: `WithGateways` is not under src/; it appends gateway
names. -/
def VirtualService.WithGateways (b : VirtualService) (gws : List String) : VirtualService :=
  { b with gateways := b.gateways ++ gws }

/-- Modelled from the spec: `WithMeshGateway` is not under src/; it appends the mesh
gateway. -/
def VirtualService.WithMeshGateway (b : VirtualService) : VirtualService :=
  { b with gateways := b.gateways ++ [Istio.MeshGateway] }

/-- Modelled from the spec: `WithHTTPRoute` is not under src/; it appends one route
to the virtual service. -/
def VirtualService.WithHTTPRoute (b : VirtualService) (route : HTTPRoute) : VirtualService :=
  { b with http := b.http ++ [route] }

/-- Modelled from the spec: `WithExperimentRegistered` on destination rules is not
under src/; it sets the ownership label. -/
def DestinationRule.WithExperimentRegistered (b : DestinationRule) (name : String) :
    DestinationRule :=
  { b with labels := Labels.set b.labels Istio.experimentLabel name }

/-- Modelled from the spec: `WithRouterRegistered` on destination rules is not under
src/; it sets the router-identifier label. -/
def DestinationRule.WithRouterRegistered (b : DestinationRule) (id : String) :
    DestinationRule :=
  { b with labels := Labels.set b.labels Istio.routerID id }

/-- Modelled from the spec: `WithInitializingLabel` on destination rules is not
under src/; it sets the role label to `initializing`. -/
def DestinationRule.WithInitializingLabel (b : DestinationRule) : DestinationRule :=
  { b with labels := Labels.set b.labels Istio.experimentRole Istio.roleInitializing }

/-- Modelled from the spec: `WithProgressingLabel` on destination rules is not under
src/; it sets the role label to `progressing`. -/
def DestinationRule.WithProgressingLabel (b : DestinationRule) : DestinationRule :=
  { b with labels := Labels.set b.labels Istio.experimentRole Istio.roleProgressing }

/-- Modelled from the spec: `WithStableLabel` on destination rules is not under
src/; it sets the role label to `stable`. -/
def DestinationRule.WithStableLabel (b : DestinationRule) : DestinationRule :=
  { b with labels := Labels.set b.labels Istio.experimentRole Istio.roleStable }

/-- Modelled from the spec: `WithKialiLabel` on destination rules is not under src/;
it sets the Kiali wizard label. -/
def DestinationRule.WithKialiLabel (b : DestinationRule) : DestinationRule :=
  { b with labels := Labels.set b.labels Istio.kialiWizard Istio.kialiTrafficShifting }

/-- Modelled from the spec: `RemoveKialiLabel` on destination rules is not under
src/; it deletes the Kiali wizard label. -/
def DestinationRule.RemoveKialiLabel (b : DestinationRule) : DestinationRule :=
  { b with labels := Labels.erase b.labels Istio.kialiWizard }

/-- Modelled from the spec: `RemoveExperimentLabel` on destination rules is not
under src/; it deletes the ownership label. -/
def DestinationRule.RemoveExperimentLabel (b : DestinationRule) : DestinationRule :=
  { b with labels := Labels.erase b.labels Istio.experimentLabel }

/-- Modelled from the spec: `InitSubsets` is not under src/; it empties the subset
list. -/
def DestinationRule.InitSubsets (b : DestinationRule) : DestinationRule :=
  { b with subsets := [] }

/-- Modelled from the spec: `WithSubset(deployment, name)` is not under src/; it
appends a subset of the given name that selects the pods of the deployment by
the labels of its pod template. -/
def DestinationRule.WithSubset (b : DestinationRule) (templateLabels : Labels)
    (name : String) : DestinationRule :=
  { b with subsets := b.subsets ++ [{ name := name, labels := templateLabels }] }

namespace Istio

/-! ### Destination handlers -/

/-- The struct `destinationOptions` handed to `buildDestination`. -/
structure destinationOptions where
  name : String
  weight : Int
  subset : String
  port : Option Nat
  deriving DecidableEq, Repr

/-- The two implementations of the interface `destinationHandler`, selected by
`GetRouter` from the kind of the target service. -/
inductive destinationHandler where
  | serviceHandler
  | deploymentHandler
  deriving DecidableEq, Repr

/-- The handler selection of `GetRouter`. -/
def GetRouter (inst : Experiment) : destinationHandler :=
  if inst.service.kind == "Service" then .serviceHandler else .deploymentHandler

/-- Modelled from the spec: the handlers' `buildDestination` is not under src/. For
services `service_test.go` expects the full host name of the version itself, the
port and the weight, and no subset; for deployments the end-to-end test expects
the host of the target service, the subset and the weight. -/
def destinationHandler.buildDestination (h : destinationHandler) (inst : Experiment)
    (opts : destinationOptions) : HTTPRouteDestination :=
  match h with
  | .serviceHandler =>
    { host := Util.ServiceToFullHostName opts.name inst.ServiceNamespace,
      subset := "", port := opts.port, weight := opts.weight }
  | .deploymentHandler =>
    { host := Util.ServiceToFullHostName inst.service.name inst.ServiceNamespace,
      subset := opts.subset, port := opts.port, weight := opts.weight }

/-- Modelled from the spec: the handlers' `requireDestinationRule` is not under
src/; subsets, and with them the destination rule, are needed for deployments
only. -/
def destinationHandler.requireDestinationRule : destinationHandler → Bool
  | .serviceHandler => false
  | .deploymentHandler => true

/-! ### Rule sets -/

/-- The struct `istioRoutingRules`; each pointer may be nil. -/
structure istioRoutingRules where
  destinationRule : Option DestinationRule
  virtualService : Option VirtualService
  deriving DecidableEq, Repr

/-- The method `haveLabels`: every listed label is carried, with the listed value,
by each object that is present. -/
def istioRoutingRules.haveLabels (r : istioRoutingRules) (labels : Labels) : Bool :=
  labels.all fun kv =>
    (match r.destinationRule with
      | some dr => dr.labels.get? kv.1 == some kv.2
      | none => true) &&
    (match r.virtualService with
      | some vs => vs.labels.get? kv.1 == some kv.2
      | none => true)

/-- The method `isProgressing`. -/
def istioRoutingRules.isProgressing (r : istioRoutingRules) : Bool :=
  r.haveLabels [(experimentRole, roleProgressing)]

/-- The method `isInit`. -/
def istioRoutingRules.isInit (r : istioRoutingRules) : Bool :=
  r.haveLabels [(experimentInit, "True")]

/-- The method `isInitializing`. -/
def istioRoutingRules.isInitializing (r : istioRoutingRules) : Bool :=
  r.haveLabels [(experimentRole, roleInitializing)]

/-- The function `getExperimentRoute`: the first route named `iter8-experiment`. -/
def getExperimentRoute (vs : VirtualService) : Option HTTPRoute :=
  vs.http.find? (fun route => route.name == routeNameExperiment)

/-- Write through the pointer that `getExperimentRoute` returns: the first route
named `iter8-experiment` is replaced by `f` of it, the other routes stay. -/
def updateExperimentRoute (f : HTTPRoute → HTTPRoute) : List HTTPRoute → List HTTPRoute
  | [] => []
  | route :: rest =>
    if route.name == routeNameExperiment then f route :: rest
    else route :: updateExperimentRoute f rest

/-! ### The mesh client -/

/-- A call on the Istio client. -/
inductive ClientCall where
  | createVirtualService (ns : String) (vs : VirtualService)
  | updateVirtualService (ns : String) (vs : VirtualService)
  | deleteVirtualService (ns name : String)
  | createDestinationRule (ns : String) (dr : DestinationRule)
  | updateDestinationRule (ns : String) (dr : DestinationRule)
  | deleteDestinationRule (ns name : String)
  | listDestinationRules (ns selector : String)
  | listVirtualServices (ns selector : String)
  deriving DecidableEq, Repr

/-- The Istio client as the router sees it: `calls` records the calls issued so
far, oldest first; `script` holds the error of each coming call (`none` for
success), and a call beyond the script succeeds. A create or update that
succeeds returns the object it was given. -/
structure Client where
  calls : List ClientCall
  script : List (Option String)
  deriving DecidableEq, Repr

/-- Issue one call: its error, if any, and the client afterwards. -/
def Client.invoke (c : Client) (call : ClientCall) : Option String × Client :=
  match c.script with
  | [] => (none, { calls := c.calls ++ [call], script := [] })
  | e :: rest => (e, { calls := c.calls ++ [call], script := rest })

/-- A client with no call issued and every call succeeding. -/
def Client.succeeding : Client :=
  { calls := [], script := [] }

/-! ### The router -/

/-- How a router operation ends: it returns `nil`, it returns an error, or it
dereferences a nil pointer (or fails a type assertion) and panics. -/
inductive Outcome where
  | ok
  | error (msg : String)
  | panic
  deriving DecidableEq, Repr

/-- The struct `Router` without its client and logger: the rule set (possibly
nil) and the destination handler. -/
structure Router where
  rules : Option istioRoutingRules
  handler : destinationHandler
  deriving DecidableEq, Repr

/-- The result of one router operation: how it ended, and the router, the client
and the experiment object afterwards. After a panic the three states are those
at the point of the panic. -/
structure Step where
  out : Outcome
  router : Router
  client : Client
  inst : Experiment
  deriving DecidableEq, Repr

/-- The state of the de-duplication loop of `UpdateRouteWithBaseline`: the two
sets `mHosts`, `mGateways` and the two result slices. -/
structure HostLoop where
  mHosts : List String
  mGateways : List String
  hosts : List String
  gateways : List String
  deriving DecidableEq, Repr

/-- One iteration of the loop over `nwk.Hosts`; both membership tests read
`mHosts`, as in the source. -/
def HostLoop.step (st : HostLoop) (host : Host) : HostLoop :=
  let st1 :=
    if st.mHosts.contains host.name then st
    else { st with hosts := st.hosts ++ [host.name], mHosts := host.name :: st.mHosts }
  if st1.mHosts.contains host.gateway then st1
  else { st1 with gateways := st1.gateways ++ [host.gateway],
                  mGateways := host.gateway :: st1.mGateways }

/-- The whole loop over `nwk.Hosts`. -/
def externalHosts (hosts : List Host) : HostLoop :=
  hosts.foldl HostLoop.step { mHosts := [], mGateways := [], hosts := [], gateways := [] }

/-- The destination options of the candidates of `UpdateRouteWithCandidates`,
from index `i` on: weight 0 and the positional subset name. -/
def candidateOptions (port : Option Nat) : Nat → List String → List destinationOptions
  | _, [] => []
  | i, candidate :: rest =>
    { name := candidate, weight := 0, subset := CandidateSubsetName i, port := port } ::
      candidateOptions port (i + 1) rest

/-- The destination options of the candidates of an assessment, from index `i`
on: the assessed weight and the positional subset name. -/
def assessmentOptions (port : Option Nat) :
    Nat → List VersionAssessment → List destinationOptions
  | _, [] => []
  | i, candidate :: rest =>
    { name := candidate.name, weight := candidate.weight, subset := CandidateSubsetName i,
      port := port } :: assessmentOptions port (i + 1) rest

/-- The method `updateRouteFromExperiment`, as a function of the route it is
handed: the destinations are cleared, then the baseline and each candidate of
the assessment are appended in order. -/
def updateRouteFromExperiment (h : destinationHandler) (route : HTTPRoute)
    (inst : Experiment) : HTTPRoute :=
  let rb := route.ClearRoute
  let assessment := inst.assessment
  let baselineDestination := h.buildDestination inst
    { name := assessment.baseline.name, weight := assessment.baseline.weight,
      subset := SubsetBaseline, port := inst.service.port }
  let rb := rb.WithDestination baselineDestination
  (assessmentOptions inst.service.port 0 assessment.candidates).foldl
    (fun rb opts => rb.WithDestination (h.buildDestination inst opts)) rb

/-- The loop of `UpdateRouteWithCandidates` that adds one subset per candidate
object, from index `i` on; `none` when an object is not a deployment (the type
assertion panics). -/
def withCandidateSubsets (drb : DestinationRule) :
    Nat → List RuntimeObject → Option DestinationRule
  | _, [] => some drb
  | i, .Deployment _ templateLabels :: rest =>
    withCandidateSubsets (drb.WithSubset templateLabels (CandidateSubsetName i)) (i + 1) rest
  | _, .Service _ :: _ => none

/-- The destination rule where the subset loop of `UpdateRouteWithCandidates`
stops: the builder appends in place, so the subsets of the candidates before
the first object that is not a deployment are on the object when the type
assertion panics (and all of them when every object is a deployment). -/
def candidateSubsetsAppended (drb : DestinationRule) :
    Nat → List RuntimeObject → DestinationRule
  | _, [] => drb
  | i, .Deployment _ templateLabels :: rest =>
    candidateSubsetsAppended (drb.WithSubset templateLabels (CandidateSubsetName i)) (i + 1)
      rest
  | _, .Service _ :: _ => drb

/-- The virtual service that `UpdateRouteWithBaseline` builds from the one the
rule set holds (the statements from `NewVirtualServiceBuilder` up to the last
`WithHTTPRoute`). -/
def baselineVirtualService (h : destinationHandler) (inst : Experiment)
    (vs0 : VirtualService) : VirtualService :=
  let service := inst.service
  let vsb := vs0.WithExperimentRegistered (Util.FullExperimentName inst)
  let vsb := vsb.WithRouterRegistered (getRouterID inst)
  let vsb := vsb.WithInitializingLabel
  let vsb := vsb.RemoveKialiLabel
  let vsb := vsb.InitGateways
  let vsb := vsb.InitHosts
  let vsb := vsb.InitHTTPRoutes
  -- inject internal host
  let vsb :=
    if service.name != "" then
      (vsb.WithHosts
        [Util.ServiceToFullHostName service.name inst.ServiceNamespace]).WithMeshGateway
    else vsb
  -- inject external hosts
  let vsb :=
    match inst.networking with
    | some nwk =>
      (vsb.WithHosts (externalHosts nwk.hosts).hosts).WithGateways
        (externalHosts nwk.hosts).gateways
    | none => vsb
  let experimentRoute := NewEmptyHTTPRoute routeNameExperiment
  -- inject baseline destination to route
  let baselineDestination := h.buildDestination inst
    { name := service.baseline, weight := 100, subset := SubsetBaseline,
      port := service.port }
  let experimentRoute := experimentRoute.WithDestination baselineDestination
  -- inject match clauses to route
  let experimentRoute :=
    if inst.trafficMatch.length > 0 then experimentRoute.WithHTTPMatch inst.trafficMatch
    else experimentRoute
  -- update virtualservice with experiment route
  let vsb := vsb.WithHTTPRoute experimentRoute
  -- inject base-route if matching clauses exist
  if inst.trafficMatch.length > 0 then
    vsb.WithHTTPRoute ((NewEmptyHTTPRoute routeNameBase).WithDestination baselineDestination)
  else vsb

/-- The destination rule that `UpdateRouteWithBaseline` builds from the one the
rule set holds and the pod-template labels of the baseline deployment. -/
def baselineDestinationRule (inst : Experiment) (dr0 : DestinationRule)
    (templateLabels : Labels) : DestinationRule :=
  let drb := dr0.InitSubsets
  let drb := drb.WithSubset templateLabels SubsetBaseline
  let drb := drb.WithInitializingLabel
  let drb := drb.RemoveKialiLabel
  let drb := drb.WithRouterRegistered (getRouterID inst)
  drb.WithExperimentRegistered (Util.FullExperimentName inst)

/-- The assignment `instance.Status.Assessment.Baseline.Weight = w`. -/
def setBaselineWeight (inst : Experiment) (w : Int) : Experiment :=
  { inst with assessment :=
      { baseline := { name := inst.assessment.baseline.name, weight := w },
        candidates := inst.assessment.candidates } }

/-- The create-or-update call on a virtual service, keyed by the init marker. -/
def persistVirtualService (vsb : VirtualService) : ClientCall :=
  if (vsb.labels.get? experimentInit).isSome then
    ClientCall.createVirtualService vsb.Namespace vsb
  else ClientCall.updateVirtualService vsb.Namespace vsb

/-- The create-or-update call on a destination rule, keyed by the init marker. -/
def persistDestinationRule (drb : DestinationRule) : ClientCall :=
  if (drb.labels.get? experimentInit).isSome then
    ClientCall.createDestinationRule drb.Namespace drb
  else ClientCall.updateDestinationRule drb.Namespace drb

/-- The second half of `UpdateRouteWithBaseline` ("Update destinationrule" and
the assignment of the baseline weight), entered after the virtual service was
persisted; `rules1` is the rule set at that point. -/
def Router.baselineDestinationRuleStep (r : Router) (rules1 : istioRoutingRules)
    (c1 : Client) (inst : Experiment) (baseline : RuntimeObject) : Step :=
  if r.handler.requireDestinationRule then
    match rules1.destinationRule, baseline with
    | some dr0, .Deployment _ templateLabels =>
      let drb := baselineDestinationRule inst dr0 templateLabels
      -- the builder has updated the object that `r.rules.destinationRule` points to
      let rules2 : istioRoutingRules :=
        { destinationRule := some drb, virtualService := rules1.virtualService }
      match c1.invoke (persistDestinationRule drb) with
      | (some err, c2) =>
        { out := .error err, router := { rules := some rules2, handler := r.handler },
          client := c2, inst := inst }
      | (none, c2) =>
        { out := .ok, router := { rules := some rules2, handler := r.handler },
          client := c2, inst := setBaselineWeight inst 100 }
    | _, _ =>
      { out := .panic, router := { rules := some rules1, handler := r.handler },
        client := c1, inst := inst }
  else
    { out := .ok, router := { rules := some rules1, handler := r.handler }, client := c1,
      inst := setBaselineWeight inst 100 }

/-- The method `UpdateRouteWithBaseline`. -/
def Router.UpdateRouteWithBaseline (r : Router) (c : Client) (inst : Experiment)
    (baseline : RuntimeObject) : Step :=
  match r.rules with
  | none => { out := .panic, router := r, client := c, inst := inst }
  | some rules =>
    if rules.isProgressing || rules.isInitializing then
      { out := .ok, router := r, client := c, inst := inst }
    else
      match rules.virtualService with
      | none => { out := .panic, router := r, client := c, inst := inst }
      | some vs0 =>
        let vsb := baselineVirtualService r.handler inst vs0
        -- the builder has updated the object that `r.rules.virtualService` points to
        let rules1 : istioRoutingRules :=
          { destinationRule := rules.destinationRule, virtualService := some vsb }
        match c.invoke (persistVirtualService vsb) with
        | (some err, c1) =>
          { out := .error err, router := { rules := some rules1, handler := r.handler },
            client := c1, inst := inst }
        | (none, c1) => r.baselineDestinationRuleStep rules1 c1 inst baseline

/-- The loop of `UpdateRouteWithCandidates` that appends one destination of
weight 0 per candidate of the experiment to the experiment route. -/
def withCandidateDestinations (h : destinationHandler) (inst : Experiment)
    (route : HTTPRoute) : HTTPRoute :=
  (candidateOptions inst.service.port 0 inst.service.candidates).foldl
    (fun rb opts => rb.WithDestination (h.buildDestination inst opts)) route

/-- The second half of `UpdateRouteWithCandidates` ("Update destination rule to
progressing"), entered after the virtual service was persisted. -/
def Router.candidatesDestinationRuleStep (r : Router) (rules1 : istioRoutingRules)
    (c1 : Client) (inst : Experiment) (candidates : List RuntimeObject) : Step :=
  if r.handler.requireDestinationRule then
    match rules1.destinationRule.bind (fun dr0 => withCandidateSubsets dr0 0 candidates) with
    | some drb =>
      let dr := drb.WithProgressingLabel
      -- the builder has updated the object that `r.rules.destinationRule` points to
      let rules2 : istioRoutingRules :=
        { destinationRule := some dr, virtualService := rules1.virtualService }
      match c1.invoke (ClientCall.updateDestinationRule dr.Namespace dr) with
      | (some err, c2) =>
        { out := .error err, router := { rules := some rules2, handler := r.handler },
          client := c2, inst := inst }
      | (none, c2) =>
        { out := .ok, router := { rules := some rules2, handler := r.handler },
          client := c2, inst := inst }
    | none =>
      -- the subsets appended before the panic are on the object the rule set points to
      let rules2 : istioRoutingRules :=
        { destinationRule :=
            rules1.destinationRule.map (fun dr0 => candidateSubsetsAppended dr0 0 candidates),
          virtualService := rules1.virtualService }
      { out := .panic, router := { rules := some rules2, handler := r.handler },
        client := c1, inst := inst }
  else
    { out := .ok, router := { rules := some rules1, handler := r.handler }, client := c1,
      inst := inst }

/-- The method `UpdateRouteWithCandidates`. -/
def Router.UpdateRouteWithCandidates (r : Router) (c : Client) (inst : Experiment)
    (candidates : List RuntimeObject) : Step :=
  match r.rules with
  | none => { out := .panic, router := r, client := c, inst := inst }
  | some rules =>
    if rules.isProgressing then
      { out := .ok, router := r, client := c, inst := inst }
    else
      match rules.virtualService with
      | none => { out := .panic, router := r, client := c, inst := inst }
      | some vs =>
        match getExperimentRoute vs with
        | none =>
          { out := .error
              "Fail to update route with candidates: experiment route missing in vs",
            router := r, client := c, inst := inst }
        | some _ =>
          -- update candidates: the destinations are appended through the route pointer
          let vs1 : VirtualService :=
            { vs with http :=
                updateExperimentRoute (withCandidateDestinations r.handler inst) vs.http }
          -- update vs to progressing
          let vs2 := vs1.WithProgressingLabel
          let rules1 : istioRoutingRules :=
            { destinationRule := rules.destinationRule, virtualService := some vs2 }
          match c.invoke (ClientCall.updateVirtualService vs2.Namespace vs2) with
          | (some err, c1) =>
            { out := .error err, router := { rules := some rules1, handler := r.handler },
              client := c1, inst := inst }
          | (none, c1) => r.candidatesDestinationRuleStep rules1 c1 inst candidates

/-- The method `UpdateRouteWithTrafficUpdate`. -/
def Router.UpdateRouteWithTrafficUpdate (r : Router) (c : Client) (inst : Experiment) :
    Step :=
  match r.rules with
  | none => { out := .panic, router := r, client := c, inst := inst }
  | some rules =>
    match rules.virtualService with
    | none => { out := .panic, router := r, client := c, inst := inst }
    | some vs =>
      -- the experiment route, when there is one, is rewritten through its pointer
      let rewrite := fun route => updateRouteFromExperiment r.handler route inst
      let vs1 : VirtualService := { vs with http := updateExperimentRoute rewrite vs.http }
      let rules1 : istioRoutingRules :=
        { destinationRule := rules.destinationRule, virtualService := some vs1 }
      match c.invoke (ClientCall.updateVirtualService vs1.Namespace vs1) with
      | (some err, c1) =>
        { out := .error err, router := { rules := some rules1, handler := r.handler },
          client := c1, inst := inst }
      | (none, c1) =>
        { out := .ok, router := { rules := some rules1, handler := r.handler },
          client := c1, inst := inst }

/-- The cleanup branch of `UpdateRouteToStable`: delete routing rules. -/
def Router.deleteRules (r : Router) (rules : istioRoutingRules) (c : Client)
    (inst : Experiment) : Step :=
  match rules.virtualService with
  | none => { out := .panic, router := r, client := c, inst := inst }
  | some vs =>
    match c.invoke (ClientCall.deleteVirtualService vs.Namespace vs.name) with
    | (some err, c1) => { out := .error err, router := r, client := c1, inst := inst }
    | (none, c1) =>
      if r.handler.requireDestinationRule then
        match rules.destinationRule with
        | none => { out := .panic, router := r, client := c1, inst := inst }
        | some dr =>
          match c1.invoke (ClientCall.deleteDestinationRule dr.Namespace dr.name) with
          | (some err, c2) => { out := .error err, router := r, client := c2, inst := inst }
          | (none, c2) => { out := .ok, router := r, client := c2, inst := inst }
      else { out := .ok, router := r, client := c1, inst := inst }

/-- The virtual service that the non-cleanup branch of `UpdateRouteToStable`
persists: for a progressing rule set with an experiment route, that route alone,
rewritten from the assessment, with its name and match clauses cleared; then
the stable and Kiali labels are set and the ownership label is removed. -/
def stableVirtualService (h : destinationHandler) (progressing : Bool) (inst : Experiment)
    (vs : VirtualService) : VirtualService :=
  let vs1 :=
    if progressing then
      -- retain experiment route only, and rename it to base route
      match getExperimentRoute vs with
      | some route =>
        let route := updateRouteFromExperiment h route inst
        let route : HTTPRoute := { route with name := "", Match := [] }
        (vs.InitHTTPRoutes).WithHTTPRoute route
      | none => vs
    else vs
  -- update vs
  ((vs1.WithStableLabel).WithKialiLabel).RemoveExperimentLabel

/-- The destination rule that the non-cleanup branch of `UpdateRouteToStable`
persists: the stable and Kiali labels are set and the ownership label is removed. -/
def stableDestinationRule (dr0 : DestinationRule) : DestinationRule :=
  ((dr0.WithStableLabel).WithKialiLabel).RemoveExperimentLabel

/-- The non-cleanup branch of `UpdateRouteToStable`. -/
def Router.stabilizeRules (r : Router) (rules : istioRoutingRules) (c : Client)
    (inst : Experiment) : Step :=
  match rules.virtualService with
  | none => { out := .panic, router := r, client := c, inst := inst }
  | some vs0 =>
    let vs := stableVirtualService r.handler rules.isProgressing inst vs0
    -- the builder has updated the object that `r.rules.virtualService` points to
    let rules1 : istioRoutingRules :=
      { destinationRule := rules.destinationRule, virtualService := some vs }
    match c.invoke (ClientCall.updateVirtualService vs.Namespace vs) with
    | (some err, c1) =>
      { out := .error err, router := { rules := some rules1, handler := r.handler },
        client := c1, inst := inst }
    | (none, c1) =>
      -- update dr if required
      if r.handler.requireDestinationRule then
        match rules1.destinationRule with
        | none =>
          { out := .panic, router := { rules := some rules1, handler := r.handler },
            client := c1, inst := inst }
        | some dr0 =>
          let dr := stableDestinationRule dr0
          let rules2 : istioRoutingRules :=
            { destinationRule := some dr, virtualService := rules1.virtualService }
          match c1.invoke (ClientCall.updateDestinationRule dr.Namespace dr) with
          | (some err, c2) =>
            { out := .error err, router := { rules := some rules2, handler := r.handler },
              client := c2, inst := inst }
          | (none, c2) =>
            { out := .ok, router := { rules := some rules2, handler := r.handler },
              client := c2, inst := inst }
      else
        { out := .ok, router := { rules := some rules1, handler := r.handler },
          client := c1, inst := inst }

/-- The method `UpdateRouteToStable`. -/
def Router.UpdateRouteToStable (r : Router) (c : Client) (inst : Experiment) : Step :=
  match r.rules with
  | none => { out := .ok, router := r, client := c, inst := inst }
  | some rules =>
    if !(rules.isProgressing || rules.isInitializing) then
      { out := .ok, router := r, client := c, inst := inst }
    else if inst.GetCleanup && rules.isInit then
      r.deleteRules rules c inst
    else
      r.stabilizeRules rules c inst

/-- The weights of the destinations of a route, in order. -/
def routeWeights (route : HTTPRoute) : List Int :=
  route.route.map (fun d => d.weight)

/-- The sum of the destination weights of a route. -/
def routeWeightSum (route : HTTPRoute) : Int :=
  (routeWeights route).sum

/-- The sum of the weights of an assessment: baseline plus candidates. -/
def assessmentWeightSum (a : Assessment) : Int :=
  a.baseline.weight + (a.candidates.map (fun cand => cand.weight)).sum

/-- The virtual service that the last update call of a client was given. -/
def lastUpdatedVirtualService (c : Client) : Option VirtualService :=
  c.calls.foldl
    (fun acc call =>
      match call with
      | .updateVirtualService _ vs => some vs
      | _ => acc) none

/-- The destinations that `updateRouteFromExperiment` writes: one for the baseline
of the assessment, then one per candidate of the assessment, in list order. -/
def assessmentDestinations (h : destinationHandler) (inst : Experiment) :
    List HTTPRouteDestination :=
  h.buildDestination inst
      { name := inst.assessment.baseline.name, weight := inst.assessment.baseline.weight,
        subset := SubsetBaseline, port := inst.service.port } ::
    (assessmentOptions inst.service.port 0 inst.assessment.candidates).map
      (h.buildDestination inst)

/-- The destinations that `UpdateRouteWithCandidates` appends: one of weight 0 per
candidate of the experiment, in list order. -/
def candidateDestinations (h : destinationHandler) (inst : Experiment) :
    List HTTPRouteDestination :=
  (candidateOptions inst.service.port 0 inst.service.candidates).map (h.buildDestination inst)

/-- The destination that `UpdateRouteWithBaseline` builds for the baseline. -/
def baselineDestination (h : destinationHandler) (inst : Experiment) : HTTPRouteDestination :=
  h.buildDestination inst
    { name := inst.service.baseline, weight := 100, subset := SubsetBaseline,
      port := inst.service.port }

/-- Whether a runtime object is a deployment (the type assertion
`.(*appsv1.Deployment)` succeeds). -/
def isDeployment : RuntimeObject → Bool
  | .Deployment _ _ => true
  | .Service _ => false

/-- The rule set that a successful `Fetch` stores: the pair the validation left
in the processor. -/
def rulesOf (p : Processor.Deployment) : istioRoutingRules :=
  { destinationRule := p.destinationRule, virtualService := p.virtualService }

/-- `UpdateRouteWithBaseline` followed by `UpdateRouteWithCandidates` on the
router, client and experiment that the first call left. -/
def baselineThenCandidates (r : Router) (c : Client) (inst : Experiment)
    (baseline : RuntimeObject) (candidates : List RuntimeObject) : Step :=
  let s1 := r.UpdateRouteWithBaseline c inst baseline
  s1.router.UpdateRouteWithCandidates s1.client s1.inst candidates

/-! ### Fetch -/

/-- The label selector of `Fetch`, `labels.Set(selector).String()` for the single
pair router id: key, `=`, value. -/
def fetchSelector (inst : Experiment) : String :=
  routerID ++ "=" ++ getRouterID inst

/-- The method `Fetch`. The handler's `validateAndInit` is not under src/ and is
the parameter `validateAndInit` (its error and the rule set it returns); `drl`
and `vsl` are the items that a successful list call answers. -/
def Router.Fetch (r : Router)
    (validateAndInit : List DestinationRule → List VirtualService → Experiment →
      Option String × Option istioRoutingRules)
    (drl : List DestinationRule) (vsl : List VirtualService) (c : Client)
    (inst : Experiment) : Step :=
  match c.invoke (ClientCall.listDestinationRules inst.ServiceNamespace (fetchSelector inst))
    with
  | (some err, c1) => { out := .error err, router := r, client := c1, inst := inst }
  | (none, c1) =>
    match c1.invoke (ClientCall.listVirtualServices inst.ServiceNamespace (fetchSelector inst))
      with
    | (some err, c2) => { out := .error err, router := r, client := c2, inst := inst }
    | (none, c2) =>
      match validateAndInit drl vsl inst with
      | (some err, _) => { out := .error err, router := r, client := c2, inst := inst }
      | (none, rules) =>
        { out := .ok, router := { rules := rules, handler := r.handler }, client := c2,
          inst := inst }

/-- The validation of `routing/processor/deployment.go` in the shape that `Fetch`
expects: it starts from a processor without rules. -/
def processorValidateAndInit (drl : List DestinationRule) (vsl : List VirtualService)
    (inst : Experiment) : Option String × Option istioRoutingRules :=
  match (Processor.New none none).ValidateAndInit drl vsl inst with
  | (some err, _) => (some err, none)
  | (none, p) => (none, some (rulesOf p))

/-! ### Sequences of routing operations -/

/-- One routing operation of the interface `router.Interface` (without `Fetch`),
with its arguments. -/
inductive RoutingOp where
  | baseline (b : RuntimeObject)
  | candidates (cs : List RuntimeObject)
  | trafficUpdate
  | toStable
  deriving DecidableEq, Repr

/-- Run one routing operation. -/
def RoutingOp.apply (op : RoutingOp) (r : Router) (c : Client) (inst : Experiment) : Step :=
  match op with
  | .baseline b => r.UpdateRouteWithBaseline c inst b
  | .candidates cs => r.UpdateRouteWithCandidates c inst cs
  | .trafficUpdate => r.UpdateRouteWithTrafficUpdate c inst
  | .toStable => r.UpdateRouteToStable c inst

/-- The role label of the virtual service of the router's rule set. -/
def vsRole (r : Router) : Option String :=
  (r.rules.bind (fun rules => rules.virtualService)).bind
    (fun vs => vs.labels.get? experimentRole)

/-- The role label of the destination rule of the router's rule set. -/
def drRole (r : Router) : Option String :=
  (r.rules.bind (fun rules => rules.destinationRule)).bind
    (fun dr => dr.labels.get? experimentRole)

/-- The place of a role label in the order initializing < progressing < stable;
no role label, or another value, is below all three. -/
def roleRank : Option String → Nat
  | none => 0
  | some role =>
    if role == roleInitializing then 1
    else if role == roleProgressing then 2
    else if role == roleStable then 3
    else 0

/-- An operation does not restart a pair: `UpdateRouteWithBaseline` meets a pair
that it leaves alone (progressing or initializing) or whose objects are not
beyond initializing, `UpdateRouteWithCandidates` meets a pair whose objects are
not stable. -/
def RoutingOp.keepsOrder (op : RoutingOp) (r : Router) : Bool :=
  match op with
  | .baseline _ =>
    (match r.rules with
      | some rules => rules.isProgressing || rules.isInitializing
      | none => true) ||
    (decide (roleRank (vsRole r) ≤ 1) && decide (roleRank (drRole r) ≤ 1))
  | .candidates _ =>
    (match r.rules with
      | some rules => rules.isProgressing
      | none => true) ||
    (decide (roleRank (vsRole r) ≤ 2) && decide (roleRank (drRole r) ≤ 2))
  | .trafficUpdate => true
  | .toStable => true

/-- The routers met while a sequence of operations runs, the first one
included; each operation starts from the router, client and experiment the
previous one left. -/
def routersAlong : List RoutingOp → Router → Client → Experiment → List Router
  | [], r, _, _ => [r]
  | op :: ops, r, c, inst =>
    r :: routersAlong ops (op.apply r c inst).router (op.apply r c inst).client
      (op.apply r c inst).inst

/-- Every operation of the sequence keeps the order at the router it meets. -/
def keepOrderAlong : List RoutingOp → Router → Client → Experiment → Bool
  | [], _, _, _ => true
  | op :: ops, r, c, inst =>
    op.keepsOrder r &&
      keepOrderAlong ops (op.apply r c inst).router (op.apply r c inst).client
        (op.apply r c inst).inst

/-- Both role labels of the second router are at least as high as those of the
first. -/
def rolesNotBackwards (r1 r2 : Router) : Prop :=
  roleRank (vsRole r1) ≤ roleRank (vsRole r2) ∧ roleRank (drRole r1) ≤ roleRank (drRole r2)

/-- Whether a client call is a delete call. -/
def ClientCall.isDelete : ClientCall → Bool
  | .deleteVirtualService _ _ => true
  | .deleteDestinationRule _ _ => true
  | _ => false

/-- The number that a list of decimal digit characters renders, most significant
digit first. -/
def digitsValue (ds : List Char) : Nat :=
  ds.foldl (fun acc ch => 10 * acc + (ch.toNat - 48)) 0

end Istio

/-! ## Experiment controller (`experiment_controller.go`): workload watches -/

namespace Controller

/-- The metadata of the object of a watch event (`e.Meta`), as far as the
predicates read it. -/
structure ObjectMeta where
  name : String
  Namespace : String
  deriving DecidableEq, Repr

/-- A reconciliation request (`reconcile.Request` with its `NamespacedName`). -/
structure Request where
  Name : String
  Namespace : String
  deriving DecidableEq, Repr

/-- The interface `iter8cache.Interface` as far as `add` uses it; the cache
package is not under src/, so its methods are parameters over a cache state
`σ`. A mark method answers whether the state of the target changed and leaves
the cache in a new state; a resolve method answers the name and the namespace
of the owning experiment and whether there is one. -/
structure CacheInterface (σ : Type) where
  MarkTargetDeploymentFound : σ → String → String → Bool × σ
  MarkTargetDeploymentMissing : σ → String → String → Bool × σ
  MarkTargetServiceFound : σ → String → String → Bool × σ
  MarkTargetServiceMissing : σ → String → String → Bool × σ
  DeploymentToExperiment : σ → String → String → String × String × Bool
  ServiceToExperiment : σ → String → String → String × String × Bool

/-- The `CreateFunc` of `deploymentPredicate`: its answer and the cache afterwards. -/
def deploymentCreateFunc {σ : Type} (cache : CacheInterface σ) (st : σ) (e : ObjectMeta) :
    Bool × σ :=
  let (ok, st1) := cache.MarkTargetDeploymentFound st e.name e.Namespace
  if !ok then (false, st1) else (true, st1)

/-- The `UpdateFunc` of `deploymentPredicate`. -/
def deploymentUpdateFunc (_old _new : ObjectMeta) : Bool :=
  false

/-- The `DeleteFunc` of `deploymentPredicate`. -/
def deploymentDeleteFunc {σ : Type} (cache : CacheInterface σ) (st : σ) (e : ObjectMeta) :
    Bool × σ :=
  let (ok, st1) := cache.MarkTargetDeploymentMissing st e.name e.Namespace
  if !ok then (false, st1) else (true, st1)

/-- The map function `deploymentToExperiment`. -/
def deploymentToExperiment {σ : Type} (cache : CacheInterface σ) (st : σ) (a : ObjectMeta) :
    List Request :=
  match cache.DeploymentToExperiment st a.name a.Namespace with
  | (experimentName, experimentNamespace, ok) =>
    if !ok then [] else [{ Name := experimentName, Namespace := experimentNamespace }]

/-- The `CreateFunc` of `servicePredicate`. -/
def serviceCreateFunc {σ : Type} (cache : CacheInterface σ) (st : σ) (e : ObjectMeta) :
    Bool × σ :=
  let (ok, st1) := cache.MarkTargetServiceFound st e.name e.Namespace
  if !ok then (false, st1) else (true, st1)

/-- The `UpdateFunc` of `servicePredicate`. -/
def serviceUpdateFunc (_old _new : ObjectMeta) : Bool :=
  false

/-- The `DeleteFunc` of `servicePredicate`. -/
def serviceDeleteFunc {σ : Type} (cache : CacheInterface σ) (st : σ) (e : ObjectMeta) :
    Bool × σ :=
  let (ok, st1) := cache.MarkTargetServiceMissing st e.name e.Namespace
  if !ok then (false, st1) else (true, st1)

/-- The map function `serviceToExperiment`. -/
def serviceToExperiment {σ : Type} (cache : CacheInterface σ) (st : σ) (a : ObjectMeta) :
    List Request :=
  match cache.ServiceToExperiment st a.name a.Namespace with
  | (experimentName, experimentNamespace, ok) =>
    if !ok then [] else [{ Name := experimentName, Namespace := experimentNamespace }]

/-- A watch event on a workload. -/
inductive WatchEvent where
  | create (e : ObjectMeta)
  | update (old new : ObjectMeta)
  | delete (e : ObjectMeta)
  deriving DecidableEq, Repr

/-- The watch on deployments that `add` registers (`c.Watch` with
`EnqueueRequestsFromMapFunc` and `deploymentPredicate`): the predicate of the
event kind is asked first and the map function is applied to the object of an
event that passed; the requests enqueued and the cache afterwards. -/
def watchDeployment {σ : Type} (cache : CacheInterface σ) (st : σ) :
    WatchEvent → List Request × σ
  | .create e =>
    let (pass, st1) := deploymentCreateFunc cache st e
    if pass then (deploymentToExperiment cache st1 e, st1) else ([], st1)
  | .update old new =>
    if deploymentUpdateFunc old new then (deploymentToExperiment cache st new, st)
    else ([], st)
  | .delete e =>
    let (pass, st1) := deploymentDeleteFunc cache st e
    if pass then (deploymentToExperiment cache st1 e, st1) else ([], st1)

/-- The watch on services that `add` registers, as `watchDeployment`. -/
def watchService {σ : Type} (cache : CacheInterface σ) (st : σ) :
    WatchEvent → List Request × σ
  | .create e =>
    let (pass, st1) := serviceCreateFunc cache st e
    if pass then (serviceToExperiment cache st1 e, st1) else ([], st1)
  | .update old new =>
    if serviceUpdateFunc old new then (serviceToExperiment cache st new, st) else ([], st)
  | .delete e =>
    let (pass, st1) := serviceDeleteFunc cache st e
    if pass then (serviceToExperiment cache st1 e, st1) else ([], st1)

end Controller

/-! ## Target cache (`iter8cache`, known from the specification only) -/

namespace Cache

/-- Modelled from the spec: 'CacheEntry — target (namespace, name, kind) →
experiment key, with a found/missing boolean'. The package `iter8cache` is not
under src/; an entry is written when an experiment registers the target. -/
structure CacheEntry where
  kind : String
  Namespace : String
  name : String
  experimentName : String
  experimentNamespace : String
  found : Bool
  deriving DecidableEq, Repr

/-- Modelled from the spec: the cache is the collection of the entries of the
registered targets (the package `iter8cache` is not under src/). -/
abbrev State := List CacheEntry

/-- Modelled from the spec: an entry belongs to the target named by kind, name
and namespace (the package `iter8cache` is not under src/). -/
def CacheEntry.isTarget (e : CacheEntry) (kind name ns : String) : Bool :=
  e.kind == kind && e.name == name && e.Namespace == ns

/-- Modelled from the spec: a target is registered when some experiment has
written an entry for it (the package `iter8cache` is not under src/). -/
def registered (st : State) (kind name ns : String) : Bool :=
  st.any (fun e => e.isTarget kind name ns)

/-- Modelled from the spec: 'MarkFound(kind, name, namespace) → changed: bool'
with 'mark operations return changed=false when the state did not actually
flip (already found→found, or the target is unregistered)'. The package
`iter8cache` is not under src/. -/
def MarkFound : State → String → String → String → Bool × State
  | [], _, _, _ => (false, [])
  | e :: rest, kind, name, ns =>
    if e.isTarget kind name ns then
      if e.found then (false, e :: rest) else (true, { e with found := true } :: rest)
    else
      let (changed, rest1) := MarkFound rest kind name ns
      (changed, e :: rest1)

/-- Modelled from the spec: 'MarkMissing(kind, name, namespace) → changed:
bool', the mirror image of `MarkFound` (the package `iter8cache` is not under
src/). -/
def MarkMissing : State → String → String → String → Bool × State
  | [], _, _, _ => (false, [])
  | e :: rest, kind, name, ns =>
    if e.isTarget kind name ns then
      if e.found then (true, { e with found := false } :: rest) else (false, e :: rest)
    else
      let (changed, rest1) := MarkMissing rest kind name ns
      (changed, e :: rest1)

/-- Modelled from the spec: 'ResolveOwner(kind, name, namespace) →
experimentKey | none', in the shape the controller reads it (name, namespace,
ok). The package `iter8cache` is not under src/. -/
def ResolveOwner (st : State) (kind name ns : String) : String × String × Bool :=
  match st.find? (fun e => e.isTarget kind name ns) with
  | some e => (e.experimentName, e.experimentNamespace, true)
  | none => ("", "", false)

/-- The kind under which the targets of the deployment watch are registered. -/
def kindDeployment : String := "Deployment"

/-- The kind under which the targets of the service watch are registered. -/
def kindService : String := "Service"

/-- Modelled from the spec: the cache of the specification behind the interface
the controller uses (`iter8cache.Interface`, not under src/). -/
def interface : Controller.CacheInterface State where
  MarkTargetDeploymentFound := fun st name ns => MarkFound st kindDeployment name ns
  MarkTargetDeploymentMissing := fun st name ns => MarkMissing st kindDeployment name ns
  MarkTargetServiceFound := fun st name ns => MarkFound st kindService name ns
  MarkTargetServiceMissing := fun st name ns => MarkMissing st kindService name ns
  DeploymentToExperiment := fun st name ns => ResolveOwner st kindDeployment name ns
  ServiceToExperiment := fun st name ns => ResolveOwner st kindService name ns

/-- One call of a mark operation. -/
inductive MarkCall where
  | found
  | missing
  deriving DecidableEq, Repr

/-- The mark operation a call stands for, on one target. -/
def MarkCall.apply (st : State) (kind name ns : String) : MarkCall → Bool × State
  | .found => MarkFound st kind name ns
  | .missing => MarkMissing st kind name ns

/-- A sequence of mark calls on one target: the answers in order and the cache
afterwards. -/
def runMarks (st : State) (kind name ns : String) : List MarkCall → List Bool × State
  | [] => ([], st)
  | c :: rest =>
    let (changed, st1) := c.apply st kind name ns
    let (answers, st2) := runMarks st1 kind name ns rest
    (changed :: answers, st2)

end Cache

/-! ## Experiment controller (`experiment_controller.go`): reconciliation -/

namespace Controller

/-- The constant `Finalizer`. -/
def Finalizer : String := "finalizer.iter8-tools"

/-- An error value; `notFound` is the answer of `errors.IsNotFound` for it. -/
structure Error where
  message : String
  notFound : Bool
  deriving DecidableEq, Repr

/-- Modelled from the spec: 'Phase ∈ {Initializing, Progressing, Pause,
Completed}'; the constants of package `iter8v1alpha2` are not under src/. -/
def PhaseProgressing : String := "Progressing"

/-- Modelled from the spec: the phase `Pause` (package `iter8v1alpha2` is not
under src/). -/
def PhasePause : String := "Pause"

/-- Modelled from the spec: the phase `Completed` (package `iter8v1alpha2` is
not under src/). -/
def PhaseCompleted : String := "Completed"

/-- Modelled from the spec: 'an optional manual-override action
(pause/resume/terminate)'; the constants of package `iter8v1alpha2` are not
under src/. -/
def ActionPause : String := "pause"

/-- Modelled from the spec: the manual-override action resume. -/
def ActionResume : String := "resume"

/-- Modelled from the spec: the manual-override action terminate. -/
def ActionTerminate : String := "terminate"

/-- The spec of the experiment as far as reconciliation reads it:
`ManualOverride` (nil, or its `Action`) and whether `Criteria` is set. -/
structure ExperimentSpec where
  manualOverride : Option String
  criteria : Bool
  deriving DecidableEq, Repr

/-- The status of the experiment as far as reconciliation reads it:
`InitTimestamp`, `Phase`, the answer of `MetricsSynced()` and the message of
the last condition marked. -/
structure ExperimentStatus where
  initTimestamp : Option Nat
  phase : String
  metricsSynced : Bool
  message : String
  deriving DecidableEq, Repr

/-- The experiment object that `Reconcile` works on (`instance`): its metadata
with the finalizers and the deletion timestamp, its spec and its status. -/
structure Instance where
  name : String
  Namespace : String
  finalizers : List String
  deletionTimestamp : Option Nat
  spec : ExperimentSpec
  status : ExperimentStatus
  deriving DecidableEq, Repr

/-- Modelled from the spec: `Spec.Pause()`, the manual override asks for a
pause (the method is not under src/). -/
def Instance.Pause (inst : Instance) : Bool :=
  inst.spec.manualOverride == some ActionPause

/-- Modelled from the spec: `Spec.Resume()`, the manual override asks to resume
(the method is not under src/). -/
def Instance.Resume (inst : Instance) : Bool :=
  inst.spec.manualOverride == some ActionResume

/-- Modelled from the spec: `Spec.Terminate()`, the manual override asks for
termination (the method is not under src/). -/
def Instance.Terminate (inst : Instance) : Bool :=
  inst.spec.manualOverride == some ActionTerminate

/-- Modelled from the spec: `Spec.GetAction()`, the action of the manual
override, empty without one (the method is not under src/). -/
def Instance.GetAction (inst : Instance) : String :=
  inst.spec.manualOverride.getD ""

/-- Modelled from the spec: `Status.ExperimentCompleted()`, the phase is
`Completed` (the method is not under src/). -/
def Instance.ExperimentCompleted (inst : Instance) : Bool :=
  inst.status.phase == PhaseCompleted

/-- A call on the client of the experiment object. -/
inductive ApiCall where
  | get (name ns : String)
  | statusUpdate (inst : Instance)
  | update (inst : Instance)
  deriving DecidableEq, Repr

/-- The client of the experiment object (`r.Client`): the calls issued so far
and, for the calls to come, the error each one answers (`none` for success; a
call beyond the script succeeds). -/
structure Api where
  calls : List ApiCall
  script : List (Option Error)
  deriving DecidableEq, Repr

/-- Issue one call: its error, if any, and the client afterwards. -/
def Api.invoke (api : Api) (call : ApiCall) : Option Error × Api :=
  match api.script with
  | [] => (none, { calls := api.calls ++ [call], script := [] })
  | e :: rest => (e, { calls := api.calls ++ [call], script := rest })

/-- The value `reconcile.Result`. -/
structure Result where
  Requeue : Bool
  RequeueAfter : Nat
  deriving DecidableEq, Repr

/-- The value `reconcile.Result{}`. -/
def Result.empty : Result :=
  { Requeue := false, RequeueAfter := 0 }

/-- The answers of the methods of the value that `experimentAbstract(context)`
returns (`Terminate()`, `GetDeletedRole()`, `GetTerminateStatus()`,
`Resume()`); its package is not under src/. -/
structure ExperimentAbstract where
  terminate : Bool
  deletedRole : String
  terminateStatus : String
  resume : Bool
  deriving DecidableEq, Repr

/-- The code that `Reconcile` calls and that is not under src/, as parameters.
The helpers that initialise the status, mark a condition or override the
assessment are handed the instance and answer its new status;
`needStatusUpdate` and `needRefresh` are the answers of `r.needStatusUpdate()`
and `r.needRefresh()` inside `proceed`; `registerExperiment` answers the error of
`r.iter8Cache.RegisterExperiment` and the abstract experiment it leaves in the
context; `finalizeIstio`, `endRequest` and `syncKubernetes` answer what they
return. -/
structure Helpers where
  validUpdateErr : Error → Bool
  InitStatus : Instance → ExperimentStatus
  markActionPause : Instance → ExperimentStatus
  markActionResume : Instance → ExperimentStatus
  needStatusUpdate : Bool
  needRefresh : Bool
  overrideAssessment : Instance → ExperimentStatus
  onDeletedTarget : Instance → String → ExperimentStatus
  markTargetsError : Instance → String → ExperimentStatus
  markSyncMetricsError : Instance → String → ExperimentStatus
  markSyncMetrics : Instance → ExperimentStatus
  metricsRead : Instance → Option Error × Instance
  registerExperiment : Instance → Option Error × ExperimentAbstract
  finalizeIstio : Instance → Result × Option Error
  endRequest : Instance → Result × Option Error
  syncKubernetes : Instance → Result × Option Error

/-- The function `addFinalizerIfAbsent`: the error it returns, the instance and
the client afterwards. -/
def addFinalizerIfAbsent (api : Api) (inst : Instance) (fName : String) :
    Option Error × Instance × Api :=
  if inst.finalizers.contains fName then (none, inst, api)
  else
    let inst1 := { inst with finalizers := inst.finalizers ++ [Finalizer] }
    match api.invoke (.update inst1) with
    | (err, api1) => (err, inst1, api1)

/-- The function `removeFinalizer`. -/
def removeFinalizer (api : Api) (inst : Instance) (fName : String) :
    Option Error × Instance × Api :=
  let inst1 := { inst with finalizers := inst.finalizers.filter (fun f => f != fName) }
  match api.invoke (.update inst1) with
  | (err, api1) => (err, inst1, api1)

/-- The method `syncExperiment`, as far as it writes the instance (the state of
the reconciler that it resets is read through `Helpers`). -/
def syncExperiment (k : Helpers) (eas : ExperimentAbstract) (inst : Instance) : Instance :=
  if inst.Terminate then { inst with status := k.overrideAssessment inst }
  else if eas.terminate then
    if eas.deletedRole != "" then
      let inst1 := { inst with status := k.onDeletedTarget inst eas.deletedRole }
      let inst2 := { inst1 with status := k.overrideAssessment inst1 }
      { inst2 with status := k.markTargetsError inst2 eas.terminateStatus }
    else inst
  else if eas.resume then
    { inst with status := { inst.status with phase := PhaseProgressing } }
  else inst

/-- The error that `proceed` builds with `fmt.Errorf("phase: %v, action: %s", ..)`. -/
def notToProceed (inst : Instance) : Error :=
  { message := "phase: " ++ inst.status.phase ++ ", action: " ++ inst.GetAction,
    notFound := false }

/-- The method `proceed`: the error it returns, the instance and the client
afterwards. -/
def proceed (k : Helpers) (api : Api) (inst : Instance) : Option Error × Instance × Api :=
  if inst.Pause then
    let inst1 := { inst with status := k.markActionPause inst }
    if k.needStatusUpdate then
      match api.invoke (.statusUpdate inst1) with
      | (some err, api1) =>
        if !k.validUpdateErr err then (some err, inst1, api1)
        else (some (notToProceed inst1), inst1, api1)
      | (none, api1) => (some (notToProceed inst1), inst1, api1)
    else (some (notToProceed inst1), inst1, api)
  else if k.needRefresh then (none, inst, api)
  else if inst.status.phase == PhasePause then
    let inst1 := { inst with status := k.markActionResume inst }
    if inst1.Terminate then (none, inst1, api)
    else if inst1.Resume then
      let inst2 := { inst1 with spec := { inst1.spec with manualOverride := none } }
      match api.invoke (.update inst2) with
      | (some err, api1) =>
        if !k.validUpdateErr err then (some err, inst2, api1) else (none, inst2, api1)
      | (none, api1) => (none, inst2, api1)
    else (some (notToProceed inst1), inst1, api)
  else (none, inst, api)

/-- The tail of `syncMetrics` after the metrics were read: the instance is
updated and the metrics are marked as synced. -/
def syncMetricsUpdate (k : Helpers) (api : Api) (inst : Instance) :
    Option Error × Instance × Api :=
  match api.invoke (.update inst) with
  | (some err, api1) =>
    if !k.validUpdateErr err then (some err, inst, api1)
    else (none, { inst with status := k.markSyncMetrics inst }, api1)
  | (none, api1) => (none, { inst with status := k.markSyncMetrics inst }, api1)

/-- The method `syncMetrics`. -/
def syncMetrics (k : Helpers) (api : Api) (inst : Instance) : Option Error × Instance × Api :=
  if !inst.spec.criteria then (none, inst, api)
  else if !inst.status.metricsSynced then
    match k.metricsRead inst with
    | (some err, inst1) =>
      if !k.validUpdateErr err then
        let inst2 := { inst1 with status := k.markSyncMetricsError inst1 err.message }
        match api.invoke (.statusUpdate inst2) with
        | (some err2, api1) =>
          if !k.validUpdateErr err2 then (some err2, inst2, api1) else (some err, inst2, api1)
        | (none, api1) => (some err, inst2, api1)
      else syncMetricsUpdate k api inst1
    | (none, inst1) => syncMetricsUpdate k api inst1
  else (none, inst, api)

/-- A step of `Reconcile` whose code is not under src/ or that works on other
objects than the experiment. -/
inductive Stage where
  | finalize
  | registerExperiment
  | endRequest
  | syncMetrics
  | syncKubernetes
  deriving DecidableEq, Repr

/-- What a run of `Reconcile` leaves: the result and the error it returns, the
stages it went through, in order, and the client afterwards. -/
structure ReconcileOutcome where
  result : Result
  err : Option Error
  invoked : List Stage
  api : Api
  deriving DecidableEq, Repr

/-- The part of `Reconcile` after a successful registration: `syncExperiment`,
`proceed`, `syncMetrics` and `syncKubernetes`. -/
def reconcileRegistered (k : Helpers) (eas : ExperimentAbstract) (api : Api) (inst : Instance) :
    ReconcileOutcome :=
  let inst1 := syncExperiment k eas inst
  match proceed k api inst1 with
  | (some _, _, api1) =>
    { result := Result.empty, err := none, invoked := [.registerExperiment], api := api1 }
  | (none, inst2, api1) =>
    match syncMetrics k api1 inst2 with
    | (some _, inst3, api2) =>
      let (res, err) := k.endRequest inst3
      { result := res, err := err,
        invoked := [.registerExperiment, .syncMetrics, .endRequest], api := api2 }
    | (none, inst3, api2) =>
      let (res, err) := k.syncKubernetes inst3
      { result := res, err := err,
        invoked := [.registerExperiment, .syncMetrics, .syncKubernetes], api := api2 }

/-- The part of `Reconcile` after the finalizer was attached: deletion,
completion and registration. -/
def reconcileAttached (k : Helpers) (api : Api) (inst : Instance) : ReconcileOutcome :=
  if inst.deletionTimestamp != none then
    let (res, err) := k.finalizeIstio inst
    { result := res, err := err, invoked := [.finalize], api := api }
  else if inst.ExperimentCompleted then
    { result := Result.empty, err := none, invoked := [], api := api }
  else
    match k.registerExperiment inst with
    | (some err, _) =>
      let inst1 := { inst with status := k.markTargetsError inst err.message }
      let (res, err1) := k.endRequest inst1
      { result := res, err := err1, invoked := [.registerExperiment, .endRequest], api := api }
    | (none, eas) => reconcileRegistered k eas api inst

/-- The part of `Reconcile` after the status was initialised:
`addFinalizerIfAbsent` and what follows. -/
def reconcileInitialised (k : Helpers) (api : Api) (inst : Instance) : ReconcileOutcome :=
  match addFinalizerIfAbsent api inst Finalizer with
  | (some err, inst1, api1) =>
    if !k.validUpdateErr err then
      { result := Result.empty, err := some err, invoked := [], api := api1 }
    else reconcileAttached k api1 inst1
  | (none, inst1, api1) => reconcileAttached k api1 inst1

/-- The part of `Reconcile` after the experiment was read: the initialisation
of the status and what follows. -/
def reconcileFetched (k : Helpers) (api : Api) (inst : Instance) : ReconcileOutcome :=
  if inst.status.initTimestamp == none then
    let inst1 := { inst with status := k.InitStatus inst }
    match api.invoke (.statusUpdate inst1) with
    | (some err, api1) =>
      if !k.validUpdateErr err then
        { result := Result.empty, err := none, invoked := [], api := api1 }
      else reconcileInitialised k api1 inst1
    | (none, api1) => reconcileInitialised k api1 inst1
  else reconcileInitialised k api inst

/-- The method `Reconcile`; `fetched` is the experiment that `r.Get` reads when
it succeeds. -/
def Reconcile (k : Helpers) (api : Api) (request : Request) (fetched : Instance) :
    ReconcileOutcome :=
  match api.invoke (.get request.Name request.Namespace) with
  | (some err, api1) =>
    if err.notFound then { result := Result.empty, err := none, invoked := [], api := api1 }
    else { result := Result.empty, err := some err, invoked := [], api := api1 }
  | (none, api1) => reconcileFetched k api1 fetched

end Controller

/-! ## Istio router: presence of the rule pair, de-duplication -/

namespace Istio

/-- Both pointers of the router's rule set are set (`r.rules`, its
`destinationRule` and its `virtualService` are not nil). -/
def Router.rulesPresent (r : Router) : Bool :=
  match r.rules with
  | some rules => rules.destinationRule.isSome && rules.virtualService.isSome
  | none => false

/-- The runtime objects handed to an operation are deployments (the type
assertions `.(*appsv1.Deployment)` succeed). -/
def RoutingOp.onDeployments : RoutingOp → Bool
  | .baseline b => isDeployment b
  | .candidates cs => cs.all isDeployment
  | .trafficUpdate => true
  | .toStable => true

/-- The distinct elements of a list, each once, in order of first occurrence
(the de-duplication in the words of the specification). -/
def firstOccurrences (xs : List String) : List String :=
  xs.foldl (fun acc x => if acc.contains x then acc else acc ++ [x]) []

end Istio

/-! ## Example objects -/

namespace Examples

/-- The experiment of the unit tests: `test-name` in `test-namespace`, target
service `reviews` with baseline `v1` and candidates `v2`, `v3`. -/
def exp : Experiment :=
  { name := "test-name", Namespace := "test-namespace",
    service :=
      { name := "reviews", Namespace := "", kind := "Deployment", baseline := "v1",
        candidates := ["v2", "v3"], port := none },
    networking := none, trafficMatch := [], cleanup := none,
    assessment :=
      { baseline := { name := "v1", weight := 0 },
        candidates := [{ name := "v2", weight := 0 }, { name := "v3", weight := 0 }] } }

/-- A stable destination rule that still carries the ownership label of another
experiment and a label of its own. -/
def foreignStableDR : DestinationRule :=
  { name := "reviews", Namespace := "test-namespace",
    labels :=
      [("iter8-tools/role", "stable"), ("iter8-tools/experiment", "other.test-namespace"),
        ("team", "a")],
    host := "reviews.test-namespace.svc.cluster.local", subsets := [] }

/-- A stable virtual service that still carries the ownership label of another
experiment. -/
def foreignStableVS : VirtualService :=
  { name := "reviews", Namespace := "test-namespace",
    labels :=
      [("iter8-tools/role", "stable"), ("iter8-tools/experiment", "other.test-namespace")],
    hosts := ["reviews.test-namespace.svc.cluster.local"], gateways := ["mesh"], http := [] }

/-- A stable virtual service without an ownership label. -/
def stableVS : VirtualService :=
  { name := "reviews", Namespace := "test-namespace",
    labels := [("iter8-tools/role", "stable")],
    hosts := ["reviews.test-namespace.svc.cluster.local"], gateways := ["mesh"], http := [] }

/-- A progressing destination rule owned by another experiment. -/
def foreignProgressingDR : DestinationRule :=
  { name := "reviews", Namespace := "test-namespace",
    labels :=
      [("iter8-tools/role", "progressing"),
        ("iter8-tools/experiment", "other.test-namespace")],
    host := "reviews.test-namespace.svc.cluster.local", subsets := [] }

/-- A progressing virtual service owned by the experiment `exp`. -/
def ownedProgressingVS : VirtualService :=
  { name := "reviews", Namespace := "test-namespace",
    labels :=
      [("iter8-tools/role", "progressing"),
        ("iter8-tools/experiment", "test-name.test-namespace")],
    hosts := ["reviews.test-namespace.svc.cluster.local"], gateways := ["mesh"], http := [] }

/-- A processor that holds no rules yet. -/
def emptyProcessor : Processor.Deployment :=
  Processor.New none none

/-- The experiment `exp` with the assessment baseline 40, candidates [60]. -/
def trafficExp : Experiment :=
  { exp with
    service := { exp.service with candidates := ["v2"] },
    assessment :=
      { baseline := { name := "v1", weight := 40 },
        candidates := [{ name := "v2", weight := 60 }] } }

/-- The experiment `trafficExp` for a target of kind `Service`. -/
def trafficExpService : Experiment :=
  { trafficExp with service := { trafficExp.service with kind := "Service" } }

/-- A match clause on a URI prefix. -/
def matchClause : HTTPMatchRequest :=
  { name := "testers", uriPrefix := "/test" }

/-- A progressing virtual service owned by `exp`: the experiment route, with a
match clause and the destinations 100 and 0, followed by the base route. -/
def progressingVS : VirtualService :=
  { name := "reviews.iter8router", Namespace := "test-namespace",
    labels :=
      [("iter8-tools/role", "progressing"),
        ("iter8-tools/experiment", "test-name.test-namespace"),
        ("iter8-tools/router", "reviews.test-namespace.svc.cluster.local")],
    hosts := ["reviews.test-namespace.svc.cluster.local"], gateways := ["mesh"],
    http :=
      [{ name := "iter8-experiment", Match := [matchClause],
         route :=
           [{ host := "reviews.test-namespace.svc.cluster.local", subset := "iter8-baseline",
              port := none, weight := 100 },
            { host := "reviews.test-namespace.svc.cluster.local",
              subset := "iter8-candidate-0", port := none, weight := 0 }] },
       { name := "iter8-base", Match := [],
         route :=
           [{ host := "reviews.test-namespace.svc.cluster.local", subset := "iter8-baseline",
              port := none, weight := 100 }] }] }

/-- A progressing destination rule owned by `exp`. -/
def progressingDR : DestinationRule :=
  { name := "reviews.iter8router", Namespace := "test-namespace",
    labels :=
      [("iter8-tools/role", "progressing"),
        ("iter8-tools/experiment", "test-name.test-namespace"),
        ("iter8-tools/router", "reviews.test-namespace.svc.cluster.local")],
    host := "reviews.test-namespace.svc.cluster.local",
    subsets :=
      [{ name := "iter8-baseline", labels := [("version", "v1")] },
       { name := "iter8-candidate-0", labels := [("version", "v2")] }] }

/-- The progressing rule set of a deployment-kind experiment. -/
def progressingRules : Istio.istioRoutingRules :=
  { destinationRule := some progressingDR, virtualService := some progressingVS }

/-- The progressing rule set of a service-kind experiment: no destination rule. -/
def progressingServiceRules : Istio.istioRoutingRules :=
  { destinationRule := none, virtualService := some progressingVS }

/-- The rule set that validation builds for `exp` from two empty lists. -/
def freshRules : Istio.istioRoutingRules :=
  Istio.rulesOf (emptyProcessor.ValidateAndInit [] [] exp).2

/-- The virtual service of `freshRules`, written out. -/
def freshVS : VirtualService :=
  { name := "test-name.test-namespace", Namespace := "test-namespace",
    labels :=
      [("iter8-tools/init", "True"), ("iter8-tools/experiment", "test-name.test-namespace"),
        ("iter8-tools/host", "reviews.test-namespace.svc.cluster.local")],
    hosts := [], gateways := [], http := [] }

/-- The deployment of the baseline `v1`. -/
def v1 : RuntimeObject :=
  .Deployment "v1" [("app", "reviews"), ("version", "v1")]

/-- The deployment of the candidate `v2`. -/
def v2 : RuntimeObject :=
  .Deployment "v2" [("app", "reviews"), ("version", "v2")]

/-- The deployment of the candidate `v3`. -/
def v3 : RuntimeObject :=
  .Deployment "v3" [("app", "reviews"), ("version", "v3")]

/-- The experiment `exp` with the last assessment 100, 0, 0. -/
def stableExp : Experiment :=
  { exp with
    assessment :=
      { baseline := { name := "v1", weight := 100 },
        candidates := [{ name := "v2", weight := 0 }, { name := "v3", weight := 0 }] } }

/-- The experiment `exp` with cleanup requested. -/
def cleanupExp : Experiment :=
  { exp with cleanup := some true }

/-- An initializing virtual service created for `exp` (it carries the init
marker): the experiment route with the baseline at weight 100. -/
def initializingVS : VirtualService :=
  { name := "reviews.iter8router", Namespace := "test-namespace",
    labels :=
      [("iter8-tools/role", "initializing"), ("iter8-tools/init", "True"),
        ("iter8-tools/experiment", "test-name.test-namespace"),
        ("iter8-tools/router", "reviews.test-namespace.svc.cluster.local")],
    hosts := ["reviews.test-namespace.svc.cluster.local"], gateways := ["mesh"],
    http :=
      [{ name := "iter8-experiment", Match := [],
         route :=
           [{ host := "reviews.test-namespace.svc.cluster.local", subset := "iter8-baseline",
              port := none, weight := 100 }] }] }

/-- An initializing destination rule created for `exp` (it carries the init
marker). -/
def initializingDR : DestinationRule :=
  { name := "reviews.iter8router", Namespace := "test-namespace",
    labels :=
      [("iter8-tools/role", "initializing"), ("iter8-tools/init", "True"),
        ("iter8-tools/experiment", "test-name.test-namespace"),
        ("iter8-tools/router", "reviews.test-namespace.svc.cluster.local")],
    host := "reviews.test-namespace.svc.cluster.local",
    subsets := [{ name := "iter8-baseline", labels := [("version", "v1")] }] }

/-- The initializing rule set of a deployment-kind experiment. -/
def initializingRules : Istio.istioRoutingRules :=
  { destinationRule := some initializingDR, virtualService := some initializingVS }

/-- A stable destination rule without an ownership label. -/
def stableDR : DestinationRule :=
  { name := "reviews", Namespace := "test-namespace",
    labels := [("iter8-tools/role", "stable")],
    host := "reviews.test-namespace.svc.cluster.local", subsets := [] }

/-- A stable rule set, as adopted from an earlier experiment. -/
def stableRules : Istio.istioRoutingRules :=
  { destinationRule := some stableDR, virtualService := some stableVS }

/-- A later experiment on the same service, `next-name` in `test-namespace`. -/
def laterExp : Experiment :=
  { exp with name := "next-name" }

/-- The first experiment of `TestGetDefaultHost`: the target service
`test-service` in `test-service-namespace`. -/
def serviceOnlyExp : Experiment :=
  { exp with
    service := { exp.service with name := "test-service", Namespace := "test-service-namespace" } }

/-- The second experiment of `TestGetDefaultHost`: no service name, the host
`test-host` behind `test-gateway`. -/
def hostOnlyExp : Experiment :=
  { exp with
    service := { exp.service with name := "" },
    networking :=
      some { id := none, hosts := [{ name := "test-host", gateway := "test-gateway" }] } }

/-- The third experiment of `TestGetDefaultHost`: the service and the host. -/
def serviceAndHostExp : Experiment :=
  { serviceOnlyExp with
    networking :=
      some { id := none, hosts := [{ name := "test-host", gateway := "test-gateway" }] } }

/-- An experiment on the wildcard host. -/
def wildcardExp : Experiment :=
  { hostOnlyExp with
    networking := some { id := none, hosts := [{ name := "*", gateway := "test-gateway" }] } }

/-- An experiment on the wildcard host with an explicit networking id. -/
def explicitIdExp : Experiment :=
  { hostOnlyExp with
    networking :=
      some { id := some "my-router", hosts := [{ name := "*", gateway := "test-gateway" }] } }

/-- A target cache with the single registered deployment `reviews-v2` of the
experiment `test-name`; the state says whether the deployment is found, and no
service is registered. -/
def oneTargetCache : Controller.CacheInterface Bool :=
  { MarkTargetDeploymentFound := fun found name ns =>
      if name == "reviews-v2" && ns == "test-namespace" then (!found, true) else (false, found),
    MarkTargetDeploymentMissing := fun found name ns =>
      if name == "reviews-v2" && ns == "test-namespace" then (found, false) else (false, found),
    MarkTargetServiceFound := fun found _ _ => (false, found),
    MarkTargetServiceMissing := fun found _ _ => (false, found),
    DeploymentToExperiment := fun _ name ns =>
      if name == "reviews-v2" && ns == "test-namespace" then
        ("test-name", "test-namespace", true)
      else ("", "", false),
    ServiceToExperiment := fun _ _ _ => ("", "", false) }

/-- The metadata of the deployment `reviews-v2`. -/
def reviewsV2Meta : Controller.ObjectMeta :=
  { name := "reviews-v2", Namespace := "test-namespace" }

/-- A destination rule that carries the init marker and the ownership label of
`exp`, and no role label. -/
def initMarkedDR : DestinationRule :=
  { name := "test-name.test-namespace", Namespace := "test-namespace",
    labels :=
      [("iter8-tools/init", "True"), ("iter8-tools/experiment", "test-name.test-namespace"),
        ("iter8-tools/host", "reviews.test-namespace.svc.cluster.local")],
    host := "reviews.test-namespace.svc.cluster.local", subsets := [] }

/-- A rule pair that carries the init marker and no role label. -/
def initMarkedRules : Istio.istioRoutingRules :=
  { destinationRule := some initMarkedDR, virtualService := some freshVS }

/-- A stable rule pair that still carries the init marker of its creation. -/
def stableInitMarkedRules : Istio.istioRoutingRules :=
  { destinationRule :=
      some { stableDR with
             labels := [("iter8-tools/role", "stable"), ("iter8-tools/init", "True")] },
    virtualService :=
      some { stableVS with
             labels := [("iter8-tools/role", "stable"), ("iter8-tools/init", "True")] } }

/-- A cache in which the experiment `exp` has registered the deployment
`reviews-v2`, not yet found. -/
def reviewsCache : Cache.State :=
  [{ kind := "Deployment", Namespace := "test-namespace", name := "reviews-v2",
     experimentName := "test-name", experimentNamespace := "test-namespace", found := false }]

/-- An error of the API server that is neither a not-found answer nor a
conflict. -/
def serverError : Controller.Error :=
  { message := "internal error", notFound := false }

/-- Helpers for the examples: `validUpdateErr` accepts the message `conflict`
only, the status is to be updated after a mark, no refresh is asked for, the
registration succeeds with an abstract experiment that reports nothing, and the
stages outside the file end with an empty result and no error. -/
def helpers : Controller.Helpers :=
  { validUpdateErr := fun e => e.message == "conflict",
    InitStatus := fun i => { i.status with initTimestamp := some 1 },
    markActionPause := fun i => { i.status with message := "ActionPause" },
    markActionResume := fun i => { i.status with message := "ActionResume" },
    needStatusUpdate := true,
    needRefresh := false,
    overrideAssessment := fun i => i.status,
    onDeletedTarget := fun i _ => i.status,
    markTargetsError := fun i msg => { i.status with message := msg },
    markSyncMetricsError := fun i msg => { i.status with message := msg },
    markSyncMetrics := fun i => { i.status with metricsSynced := true },
    metricsRead := fun i => (none, i),
    registerExperiment := fun _ =>
      (none, { terminate := false, deletedRole := "", terminateStatus := "", resume := false }),
    finalizeIstio := fun _ => (Controller.Result.empty, none),
    endRequest := fun _ => (Controller.Result.empty, none),
    syncKubernetes := fun _ => (Controller.Result.empty, none) }

/-- The request for the experiment `test-name` of `test-namespace`. -/
def request : Controller.Request :=
  { Name := "test-name", Namespace := "test-namespace" }

/-- An experiment that was never reconciled: no init timestamp, no finalizer. -/
def newInstance : Controller.Instance :=
  { name := "test-name", Namespace := "test-namespace", finalizers := [],
    deletionTimestamp := none, spec := { manualOverride := none, criteria := false },
    status := { initTimestamp := none, phase := "", metricsSynced := false, message := "" } }

/-- A progressing experiment with the finalizer attached and the manual
override pause. -/
def pausedInstance : Controller.Instance :=
  { name := "test-name", Namespace := "test-namespace",
    finalizers := ["finalizer.iter8-tools"], deletionTimestamp := none,
    spec := { manualOverride := some "pause", criteria := false },
    status := { initTimestamp := some 1, phase := "Progressing", metricsSynced := false,
                message := "" } }

/-- An experiment in phase Pause with the manual override terminate. -/
def terminatedInstance : Controller.Instance :=
  { name := "test-name", Namespace := "test-namespace",
    finalizers := ["finalizer.iter8-tools"], deletionTimestamp := none,
    spec := { manualOverride := some "terminate", criteria := false },
    status := { initTimestamp := some 1, phase := "Pause", metricsSynced := false,
                message := "" } }

/-- An experiment in phase Pause without a manual override. -/
def stalledInstance : Controller.Instance :=
  { name := "test-name", Namespace := "test-namespace",
    finalizers := ["finalizer.iter8-tools"], deletionTimestamp := none,
    spec := { manualOverride := none, criteria := false },
    status := { initTimestamp := some 1, phase := "Pause", metricsSynced := false,
                message := "" } }

/-- An abstract experiment that reports a detected target and no termination. -/
def detectedAbstract : Controller.ExperimentAbstract :=
  { terminate := false, deletedRole := "", terminateStatus := "", resume := true }

/-- A client on which the read succeeds and the call after it fails with
`serverError`. -/
def failingSecondCall : Controller.Api :=
  { calls := [], script := [none, some serverError] }

/-- A client on which the first call fails with `serverError`. -/
def failingFirstCall : Controller.Api :=
  { calls := [], script := [some serverError] }

/-- A client with no call issued and every call succeeding. -/
def succeedingApi : Controller.Api :=
  { calls := [], script := [] }

/-- A virtual service labeled progressing that holds no route named
`iter8-experiment`: the base route and one other route. -/
def routelessVS : VirtualService :=
  { progressingVS with
    http :=
      [{ name := "iter8-base", Match := [],
         route :=
           [{ host := "reviews.test-namespace.svc.cluster.local", subset := "iter8-baseline",
              port := none, weight := 100 }] },
       { name := "other", Match := [matchClause],
         route :=
           [{ host := "reviews.test-namespace.svc.cluster.local", subset := "iter8-baseline",
              port := none, weight := 100 }] }] }

/-- A rule pair labeled progressing whose virtual service holds no experiment
route. -/
def routelessRules : Istio.istioRoutingRules :=
  { destinationRule := some progressingDR, virtualService := some routelessVS }

end Examples

/-! ## Theorems -/

namespace Adapter

theorem applyMarks_append_singleton (e : Experiment) (ms : List Mark) (m : Mark) :
    applyMarks e (ms ++ [m]) = m.apply (applyMarks e ms) := by
  simp [applyMarks, List.foldl_append]

/-- C1: `GetAction` returns a snapshot whose `Refresh`/`Resume` are those the
experiment held just before the call and clears the pending action on the
experiment, so a second `GetAction` without an intervening mark reports
`Refresh = false` and `Resume = false`; the first snapshot is a value of its
own, and the service and deployment keys of the experiment are unchanged. -/
theorem C1_getAction_snapshot_and_clear (e : Experiment) :
    (e.GetAction.1.Refresh = e.Refresh ∧ e.GetAction.1.Resume = e.Resume) ∧
    (e.GetAction.2.GetAction.1.Refresh = false ∧
      e.GetAction.2.GetAction.1.Resume = false) ∧
    e.GetAction.1 = e ∧
    (e.GetAction.2.ServiceKeys = e.ServiceKeys ∧
      e.GetAction.2.DeploymentKeys = e.DeploymentKeys) ∧
    (e.GetAction.2.GetAction.2.ServiceKeys = e.ServiceKeys ∧
      e.GetAction.2.GetAction.2.DeploymentKeys = e.DeploymentKeys) := by
  refine ⟨⟨rfl, rfl⟩, ⟨?_, ?_⟩, rfl, ⟨rfl, rfl⟩, ⟨rfl, rfl⟩⟩
  · simp [Experiment.GetAction, Experiment.clearAction, Experiment.Refresh,
      targetActionDeleted]
  · simp [Experiment.GetAction, Experiment.clearAction, Experiment.Resume,
      targetActionDetected]

/-- C2: after any sequence of mark calls ending in the call `m` (whatever the
names and kinds), the next snapshot has `Resume = true` exactly when `m` is
`MarkTargetDetected` and `Refresh = true` exactly when `m` is
`MarkTargetDeleted`; and in every state of the adapter experiment `Refresh`
and `Resume` are not both true. -/
theorem C2_last_mark_wins (e : Experiment) (ms : List Mark) (m : Mark) :
    ((applyMarks e (ms ++ [m])).GetAction.1.Resume = m.isDetected ∧
      (applyMarks e (ms ++ [m])).GetAction.1.Refresh = m.isDeleted) ∧
    (∀ s : Experiment, ¬ (s.Refresh = true ∧ s.Resume = true)) := by
  refine ⟨?_, ?_⟩
  · rw [applyMarks_append_singleton]
    cases m <;>
      simp [Mark.apply, Mark.isDetected, Mark.isDeleted, Experiment.GetAction,
        Experiment.MarkTargetDetected, Experiment.MarkTargetDeleted, Experiment.Resume,
        Experiment.Refresh, targetActionDetected, targetActionDeleted]
  · intro s h
    have h1 : s.targetAction = targetActionDeleted := by
      simpa [Experiment.Refresh] using h.1
    have h2 : s.targetAction = targetActionDetected := by
      simpa [Experiment.Resume] using h.2
    rw [h1] at h2
    exact absurd h2 (by decide)

end Adapter

namespace Processor

open Istio (experimentInit experimentRole experimentLabel roleInitializing roleStable
  roleProgressing)

theorem validateAndInit_stable_pair (p : Deployment) (dr : DestinationRule)
    (vs : VirtualService) (inst : Experiment)
    (hdr : dr.labels.get? experimentRole = some Stable)
    (hvs : vs.labels.get? experimentRole = some Stable) :
    p.ValidateAndInit [dr] [vs] inst =
      (none, { destinationRule := some dr, virtualService := some vs }) := by
  simp [Deployment.ValidateAndInit, hdr, hvs]

/-- C3: given exactly one destination rule and exactly one virtual service that
both carry the role label with value `stable`, `ValidateAndInit` returns no
error and the processor holds exactly the two listed objects, for every
experiment, every prior processor state and whatever other labels the objects
carry. -/
theorem C3_stable_pair_adopted (p : Deployment) (dr : DestinationRule)
    (vs : VirtualService) (inst : Experiment)
    (hdr : dr.labels.get? experimentRole = some roleStable)
    (hvs : vs.labels.get? experimentRole = some roleStable) :
    (p.ValidateAndInit [dr] [vs] inst).1 = none ∧
    (p.ValidateAndInit [dr] [vs] inst).2.destinationRule = some dr ∧
    (p.ValidateAndInit [dr] [vs] inst).2.virtualService = some vs := by
  rw [validateAndInit_stable_pair p dr vs inst hdr hvs]
  exact ⟨rfl, rfl, rfl⟩

/-- Witness of C3 at a stable pair that carries further labels. -/
theorem C3_stable_pair_adopted_witness :
    (Examples.foreignStableDR.labels.get? experimentRole = some roleStable ∧
      Examples.foreignStableVS.labels.get? experimentRole = some roleStable) ∧
    ((Examples.emptyProcessor.ValidateAndInit [Examples.foreignStableDR]
        [Examples.foreignStableVS] Examples.exp).1 = none ∧
      (Examples.emptyProcessor.ValidateAndInit [Examples.foreignStableDR]
        [Examples.foreignStableVS] Examples.exp).2.destinationRule =
          some Examples.foreignStableDR ∧
      (Examples.emptyProcessor.ValidateAndInit [Examples.foreignStableDR]
        [Examples.foreignStableVS] Examples.exp).2.virtualService =
          some Examples.foreignStableVS) :=
  ⟨⟨by decide, by decide⟩,
    C3_stable_pair_adopted Examples.emptyProcessor Examples.foreignStableDR
      Examples.foreignStableVS Examples.exp (by decide) (by decide)⟩

/-- C4 (counterexample): for the experiment `test-name.test-namespace` and two
empty lists, `ValidateAndInit` succeeds but the destination rule and the virtual
service it produces carry no role label at all, so they are not labeled with
the role `initializing`. -/
theorem C4_counterexample :
    (Examples.emptyProcessor.ValidateAndInit [] [] Examples.exp).1 = none ∧
    ((Examples.emptyProcessor.ValidateAndInit [] [] Examples.exp).2.destinationRule.map
        (fun d => d.labels.get? experimentRole) = some none ∧
      (Examples.emptyProcessor.ValidateAndInit [] [] Examples.exp).2.virtualService.map
        (fun v => v.labels.get? experimentRole) = some none) ∧
    ¬ ((Examples.emptyProcessor.ValidateAndInit [] [] Examples.exp).2.destinationRule.map
        (fun d => d.labels.get? experimentRole) = some (some roleInitializing) ∧
      (Examples.emptyProcessor.ValidateAndInit [] [] Examples.exp).2.virtualService.map
        (fun v => v.labels.get? experimentRole) = some (some roleInitializing)) := by
  decide

/-- C4 (amended): given two empty lists, `ValidateAndInit` succeeds and produces a
destination rule and a virtual service that both carry the init marker label
`iter8-tools/init` with value `True` and the ownership label set to the
experiment's full name; neither carries a role label. -/
theorem C4_empty_lists_init_pair (p : Deployment) (inst : Experiment) :
    (p.ValidateAndInit [] [] inst).1 = none ∧
    ∃ d v, (p.ValidateAndInit [] [] inst).2.destinationRule = some d ∧
      (p.ValidateAndInit [] [] inst).2.virtualService = some v ∧
      (d.labels.get? experimentInit = some "True" ∧
        d.labels.get? experimentLabel = some (Util.FullExperimentName inst) ∧
        d.labels.get? experimentRole = none) ∧
      (v.labels.get? experimentInit = some "True" ∧
        v.labels.get? experimentLabel = some (Util.FullExperimentName inst) ∧
        v.labels.get? experimentRole = none) := by
  refine ⟨rfl, _, _, rfl, rfl, ?_, ?_⟩ <;>
    simp [DestinationRule.WithInitLabel, VirtualService.WithInitLabel, NewDestinationRule,
      NewVirtualService, Labels.get?, Labels.set, Labels.erase, experimentInit,
      experimentLabel, experimentRole, experimentHost, List.lookup, List.filter]

/-- C5 (counterexample): a destination rule and a virtual service that both have
role `stable` and both carry the ownership label of another experiment are
adopted without error. -/
theorem C5_counterexample :
    hasForeignOwner (Util.FullExperimentName Examples.exp) [Examples.foreignStableDR]
      [Examples.foreignStableVS] = true ∧
    Examples.emptyProcessor.ValidateAndInit [Examples.foreignStableDR]
      [Examples.foreignStableVS] Examples.exp =
      (none, { destinationRule := some Examples.foreignStableDR,
               virtualService := some Examples.foreignStableVS }) := by
  decide

/-- C5 (amended): when a discovered routing object carries an ownership label whose
value differs from the experiment's full name, and the lists are neither a
single destination rule plus a single virtual service both of role `stable` nor
no destination rule plus a single virtual service of role `stable`, then
`ValidateAndInit` returns an error and the processor is left as it was. -/
theorem C5_foreign_owner_rejected (p : Deployment) (drl : List DestinationRule)
    (vsl : List VirtualService) (inst : Experiment)
    (hforeign : hasForeignOwner (Util.FullExperimentName inst) drl vsl = true)
    (hstable : isStablePair drl vsl = false)
    (hlone : isLoneStableVirtualService drl vsl = false) :
    (p.ValidateAndInit drl vsl inst).1.isSome = true ∧
    (p.ValidateAndInit drl vsl inst).2 = p := by
  rcases drl with _ | ⟨dr, _ | ⟨dr2, drl⟩⟩ <;> rcases vsl with _ | ⟨vs, _ | ⟨vs2, vsl⟩⟩
  · simp [hasForeignOwner] at hforeign
  · simp only [isLoneStableVirtualService] at hlone
    simp only [Deployment.ValidateAndInit]
    cases hr : vs.labels.get? experimentRole with
    | none => simp
    | some role =>
      have hne : (role == Stable) = false := by simpa [hr] using hlone
      simp [hne]
  · simp [Deployment.ValidateAndInit]
  · simp [Deployment.ValidateAndInit]
  · simp only [isStablePair] at hstable
    simp only [hasForeignOwner, foreignOwner, List.any_cons, List.any_nil, Bool.or_false]
      at hforeign
    simp only [Deployment.ValidateAndInit]
    cases hdr : dr.labels.get? experimentRole with
    | none => simp
    | some drrole =>
      cases hvs : vs.labels.get? experimentRole with
      | none => simp
      | some vsrole =>
        have hne : (drrole == Stable && vsrole == Stable) = false := by
          simpa [hdr, hvs] using hstable
        simp only [hne]
        cases hdl : dr.labels.get? experimentLabel with
        | none => simp
        | some drLabel =>
          cases hvl : vs.labels.get? experimentLabel with
          | none => simp
          | some vsLabel =>
            have hown : (drLabel == Util.FullExperimentName inst &&
                vsLabel == Util.FullExperimentName inst) = false := by
              rw [hdl, hvl] at hforeign
              simp only [Bool.or_eq_true, bne_iff_ne, ne_eq] at hforeign
              rcases hforeign with h | h
              · simp [h]
              · simp [h]
            simp [hown]
  · simp [Deployment.ValidateAndInit]
  · simp [Deployment.ValidateAndInit]
  · simp [Deployment.ValidateAndInit]
  · simp [Deployment.ValidateAndInit]

/-- Witness of C5 (amended): a progressing pair of which the destination rule is
owned by another experiment is rejected. -/
theorem C5_foreign_owner_rejected_witness :
    (hasForeignOwner (Util.FullExperimentName Examples.exp) [Examples.foreignProgressingDR]
        [Examples.ownedProgressingVS] = true ∧
      isStablePair [Examples.foreignProgressingDR] [Examples.ownedProgressingVS] = false ∧
      isLoneStableVirtualService [Examples.foreignProgressingDR]
        [Examples.ownedProgressingVS] = false) ∧
    ((Examples.emptyProcessor.ValidateAndInit [Examples.foreignProgressingDR]
        [Examples.ownedProgressingVS] Examples.exp).1.isSome = true ∧
      (Examples.emptyProcessor.ValidateAndInit [Examples.foreignProgressingDR]
        [Examples.ownedProgressingVS] Examples.exp).2 = Examples.emptyProcessor) :=
  ⟨⟨by decide, by decide, by decide⟩,
    C5_foreign_owner_rejected Examples.emptyProcessor [Examples.foreignProgressingDR]
      [Examples.ownedProgressingVS] Examples.exp (by decide) (by decide) (by decide)⟩

/-- C6 (counterexample): an empty destination-rule list together with one virtual
service of role `stable` is a partial pair and none of the three shapes, yet
`ValidateAndInit` returns no error and adopts the virtual service. -/
theorem C6_counterexample :
    (¬ (([] : List DestinationRule) = [] ∧ [Examples.stableVS] = []) ∧
      isStablePair [] [Examples.stableVS] = false ∧
      isOwnedPair (Util.FullExperimentName Examples.exp) [] [Examples.stableVS] = false) ∧
    (Examples.emptyProcessor.ValidateAndInit [] [Examples.stableVS] Examples.exp).1 = none ∧
    (Examples.emptyProcessor.ValidateAndInit [] [Examples.stableVS]
      Examples.exp).2.virtualService = some Examples.stableVS := by
  decide

/-- C6 (amended): `ValidateAndInit` returns an error, and leaves the processor as it
was, for every input that is neither two empty lists, nor one destination rule
plus one virtual service both of role `stable`, nor one destination rule plus
one virtual service whose ownership labels both equal the experiment's full
name, nor no destination rule plus one virtual service of role `stable`. -/
theorem C6_other_shapes_rejected (p : Deployment) (drl : List DestinationRule)
    (vsl : List VirtualService) (inst : Experiment)
    (hempty : ¬ (drl = [] ∧ vsl = []))
    (hstable : isStablePair drl vsl = false)
    (howned : isOwnedPair (Util.FullExperimentName inst) drl vsl = false)
    (hlone : isLoneStableVirtualService drl vsl = false) :
    (p.ValidateAndInit drl vsl inst).1.isSome = true ∧
    (p.ValidateAndInit drl vsl inst).2 = p := by
  rcases drl with _ | ⟨dr, _ | ⟨dr2, drl⟩⟩ <;> rcases vsl with _ | ⟨vs, _ | ⟨vs2, vsl⟩⟩
  · simp at hempty
  · simp only [isLoneStableVirtualService] at hlone
    simp only [Deployment.ValidateAndInit]
    cases hr : vs.labels.get? experimentRole with
    | none => simp
    | some role =>
      have hne : (role == Stable) = false := by simpa [hr] using hlone
      simp [hne]
  · simp [Deployment.ValidateAndInit]
  · simp [Deployment.ValidateAndInit]
  · simp only [isStablePair] at hstable
    simp only [isOwnedPair] at howned
    simp only [Deployment.ValidateAndInit]
    cases hdr : dr.labels.get? experimentRole with
    | none => simp
    | some drrole =>
      cases hvs : vs.labels.get? experimentRole with
      | none => simp
      | some vsrole =>
        have hne : (drrole == Stable && vsrole == Stable) = false := by
          simpa [hdr, hvs] using hstable
        simp only [hne]
        cases hdl : dr.labels.get? experimentLabel with
        | none => simp
        | some drLabel =>
          cases hvl : vs.labels.get? experimentLabel with
          | none => simp
          | some vsLabel =>
            have hown : (drLabel == Util.FullExperimentName inst &&
                vsLabel == Util.FullExperimentName inst) = false := by
              simpa [hdl, hvl] using howned
            simp [hown]
  · simp [Deployment.ValidateAndInit]
  · simp [Deployment.ValidateAndInit]
  · simp [Deployment.ValidateAndInit]
  · simp [Deployment.ValidateAndInit]

/-- Witness of C6 (amended): the partial pair of one destination rule and no
virtual service is rejected. -/
theorem C6_other_shapes_rejected_witness :
    (¬ ([Examples.foreignProgressingDR] = [] ∧ ([] : List VirtualService) = []) ∧
      isStablePair [Examples.foreignProgressingDR] [] = false ∧
      isOwnedPair (Util.FullExperimentName Examples.exp) [Examples.foreignProgressingDR]
        [] = false ∧
      isLoneStableVirtualService [Examples.foreignProgressingDR] [] = false) ∧
    ((Examples.emptyProcessor.ValidateAndInit [Examples.foreignProgressingDR] []
        Examples.exp).1.isSome = true ∧
      (Examples.emptyProcessor.ValidateAndInit [Examples.foreignProgressingDR] []
        Examples.exp).2 = Examples.emptyProcessor) :=
  ⟨⟨by decide, by decide, by decide, by decide⟩,
    C6_other_shapes_rejected Examples.emptyProcessor [Examples.foreignProgressingDR] []
      Examples.exp (by decide) (by decide) (by decide) (by decide)⟩

end Processor

/-! ### Label maps -/

theorem Labels.get?_set_self (m : Labels) (k v : String) :
    (Labels.set m k v).get? k = some v := by
  simp [Labels.set, Labels.get?, List.lookup]

theorem Labels.get?_erase_ne (m : Labels) (k k' : String) (h : k' ≠ k) :
    (Labels.erase m k).get? k' = m.get? k' := by
  induction m with
  | nil => rfl
  | cons p m ih =>
    obtain ⟨a, b⟩ := p
    simp only [Labels.erase, Labels.get?] at ih ⊢
    simp only [List.filter_cons]
    by_cases hp : a = k
    · subst hp
      have hk : (k' == a) = false := by simp [h]
      simp [List.lookup, hk, ih]
    · have h1 : (a != k) = true := by simp [hp]
      simp only [h1, if_true, List.lookup]
      cases hk : k' == a <;> simp [ih]

theorem Labels.get?_erase_self (m : Labels) (k : String) :
    (Labels.erase m k).get? k = none := by
  induction m with
  | nil => rfl
  | cons p m ih =>
    obtain ⟨a, b⟩ := p
    simp only [Labels.erase, Labels.get?] at ih ⊢
    simp only [List.filter_cons]
    by_cases hp : a = k
    · simp [hp, ih]
    · have h1 : (a != k) = true := by simp [hp]
      have hk : (k == a) = false := by
        simp only [beq_eq_false_iff_ne, ne_eq]
        exact fun h => hp h.symm
      simp [h1, List.lookup, hk, ih]

theorem Labels.get?_set_ne (m : Labels) (k k' v : String) (h : k' ≠ k) :
    (Labels.set m k v).get? k' = m.get? k' := by
  have hk : (k' == k) = false := by simp [h]
  have := Labels.get?_erase_ne m k k' h
  simp only [Labels.get?] at this
  simp [Labels.set, Labels.get?, List.lookup, hk, this]

namespace Istio

/-! ### Routes and destinations -/

theorem buildDestination_weight (h : destinationHandler) (inst : Experiment)
    (opts : destinationOptions) : (h.buildDestination inst opts).weight = opts.weight := by
  cases h <;> rfl

theorem foldl_withDestination (f : destinationOptions → HTTPRouteDestination)
    (opts : List destinationOptions) (route : HTTPRoute) :
    opts.foldl (fun rb o => rb.WithDestination (f o)) route =
      { name := route.name, Match := route.Match, route := route.route ++ opts.map f } := by
  induction opts generalizing route with
  | nil => simp
  | cons o rest ih =>
    rw [List.foldl_cons, ih]
    simp [HTTPRoute.WithDestination]

theorem updateRouteFromExperiment_eq (h : destinationHandler) (route : HTTPRoute)
    (inst : Experiment) :
    updateRouteFromExperiment h route inst =
      { name := route.name, Match := route.Match, route := assessmentDestinations h inst } := by
  unfold updateRouteFromExperiment
  simp only [foldl_withDestination]
  simp [HTTPRoute.ClearRoute, HTTPRoute.WithDestination, assessmentDestinations]

theorem assessmentOptions_weights (port : Option Nat) (i : Nat)
    (cs : List VersionAssessment) :
    (assessmentOptions port i cs).map (fun o => o.weight) = cs.map (fun cand => cand.weight) := by
  induction cs generalizing i with
  | nil => rfl
  | cons cand rest ih => simp [assessmentOptions, ih]

theorem assessmentOptions_subsets (port : Option Nat) (i : Nat)
    (cs : List VersionAssessment) :
    (assessmentOptions port i cs).map (fun o => o.subset) =
      (List.range' i cs.length).map CandidateSubsetName := by
  induction cs generalizing i with
  | nil => rfl
  | cons cand rest ih => simp [assessmentOptions, ih, List.range']

theorem assessmentDestinations_weights (h : destinationHandler) (inst : Experiment) :
    (assessmentDestinations h inst).map (fun d => d.weight) =
      inst.assessment.baseline.weight ::
        inst.assessment.candidates.map (fun cand => cand.weight) := by
  simp only [assessmentDestinations, List.map_cons, List.map_map, buildDestination_weight]
  congr 1
  have := assessmentOptions_weights inst.service.port 0 inst.assessment.candidates
  simpa [Function.comp_def, buildDestination_weight] using this

theorem assessmentDestinations_subsets_deployment (inst : Experiment) :
    (assessmentDestinations .deploymentHandler inst).map (fun d => d.subset) =
      SubsetBaseline ::
        (List.range' 0 inst.assessment.candidates.length).map CandidateSubsetName := by
  simp only [assessmentDestinations, List.map_cons, List.map_map]
  congr 1
  have := assessmentOptions_subsets inst.service.port 0 inst.assessment.candidates
  simpa [Function.comp_def, destinationHandler.buildDestination] using this

theorem assessmentDestinations_subsets_service (inst : Experiment) :
    ∀ d ∈ assessmentDestinations .serviceHandler inst, d.subset = "" := by
  intro d hd
  simp only [assessmentDestinations, List.mem_cons, List.mem_map] at hd
  rcases hd with rfl | ⟨o, _, rfl⟩ <;> rfl

theorem updateExperimentRoute_split (f : HTTPRoute → HTTPRoute) (routes : List HTTPRoute)
    (route : HTTPRoute)
    (hroute : routes.find? (fun x => x.name == routeNameExperiment) = some route) :
    ∃ pre post, routes = pre ++ route :: post ∧
      updateExperimentRoute f routes = pre ++ f route :: post ∧
      ∀ x ∈ pre, x.name ≠ routeNameExperiment := by
  induction routes with
  | nil => simp at hroute
  | cons x rest ih =>
    by_cases hx : x.name = routeNameExperiment
    · have hbeq : (x.name == routeNameExperiment) = true := by simp [hx]
      simp only [List.find?, hbeq, Option.some.injEq] at hroute
      subst hroute
      exact ⟨[], rest, rfl, by simp [updateExperimentRoute, hbeq], by simp⟩
    · have hbeq : (x.name == routeNameExperiment) = false := by simp [hx]
      simp only [List.find?, hbeq] at hroute
      obtain ⟨pre, post, h1, h2, h3⟩ := ih hroute
      refine ⟨x :: pre, post, by simp [h1], by simp [updateExperimentRoute, hbeq, h2], ?_⟩
      intro y hy
      rcases List.mem_cons.mp hy with rfl | hy
      · exact hx
      · exact h3 y hy

theorem updateExperimentRoute_none (f : HTTPRoute → HTTPRoute) (routes : List HTTPRoute)
    (hroute : routes.find? (fun x => x.name == routeNameExperiment) = none) :
    updateExperimentRoute f routes = routes := by
  induction routes with
  | nil => rfl
  | cons x rest ih =>
    by_cases hx : x.name = routeNameExperiment
    · have hbeq : (x.name == routeNameExperiment) = true := by simp [hx]
      simp [List.find?, hbeq] at hroute
    · have hbeq : (x.name == routeNameExperiment) = false := by simp [hx]
      simp only [List.find?, hbeq] at hroute
      simp [updateExperimentRoute, hbeq, ih hroute]

theorem find?_experimentRoute_split (f : HTTPRoute → HTTPRoute) (pre post : List HTTPRoute)
    (route : HTTPRoute) (hname : (f route).name = routeNameExperiment)
    (hpre : ∀ x ∈ pre, x.name ≠ routeNameExperiment) :
    (pre ++ f route :: post).find? (fun x => x.name == routeNameExperiment) =
      some (f route) := by
  induction pre with
  | nil => simp [List.find?, hname]
  | cons x rest ih =>
    have hx : (x.name == routeNameExperiment) = false := by
      simpa using hpre x (List.mem_cons_self _ _)
    simp only [List.cons_append, List.find?, hx]
    exact ih (fun y hy => hpre y (List.mem_cons_of_mem _ hy))

/-! ### Traffic update -/

/-- C8 (counterexample): for a target of kind `Service` and the assessment
baseline 40, candidates [60], the traffic update writes the weights 40 and 60,
but the two destinations carry the empty subset, not `iter8-baseline` and
`iter8-candidate-0`. -/
theorem C8_counterexample :
    GetRouter Examples.trafficExpService = .serviceHandler ∧
    ((Router.UpdateRouteWithTrafficUpdate
        { rules := some Examples.progressingServiceRules, handler := .serviceHandler }
        Client.succeeding Examples.trafficExpService).router.rules.bind
          (fun rules => rules.virtualService)).bind getExperimentRoute =
      some { name := "iter8-experiment", Match := [Examples.matchClause],
             route :=
               [{ host := "v1.test-namespace.svc.cluster.local", subset := "", port := none,
                  weight := 40 },
                { host := "v2.test-namespace.svc.cluster.local", subset := "", port := none,
                  weight := 60 }] } ∧
    ¬ ((((Router.UpdateRouteWithTrafficUpdate
        { rules := some Examples.progressingServiceRules, handler := .serviceHandler }
        Client.succeeding Examples.trafficExpService).router.rules.bind
          (fun rules => rules.virtualService)).bind getExperimentRoute).map
            (fun route => route.route.map (fun d => d.subset)) =
      some [SubsetBaseline, CandidateSubsetName 0]) := by
  decide

/-- C8 (amended): for every assessment (also one whose weights do not sum to 100),
every handler and every client behaviour, `UpdateRouteWithTrafficUpdate`
replaces the destinations of the experiment route by one destination for the
baseline followed by one per assessment candidate in list order, each carrying
the assessment's weight verbatim; the name and the match clauses of the
experiment route, every other route and every other field of the virtual
service are unchanged, and that virtual service is handed to one update call.
For a deployment target the destinations carry the subsets `iter8-baseline`,
`iter8-candidate-0`, ...; for a service target they carry no subset. -/
theorem C8_traffic_update_rewrites_route (h : destinationHandler)
    (rules : istioRoutingRules) (vs : VirtualService) (route : HTTPRoute) (c : Client)
    (inst : Experiment)
    (hvs : rules.virtualService = some vs)
    (hroute : getExperimentRoute vs = some route) :
    ∃ pre post route',
      vs.http = pre ++ route :: post ∧
      (∀ x ∈ pre, x.name ≠ routeNameExperiment) ∧
      (Router.UpdateRouteWithTrafficUpdate { rules := some rules, handler := h } c
          inst).router.rules =
        some { destinationRule := rules.destinationRule,
               virtualService := some { vs with http := pre ++ route' :: post } } ∧
      (Router.UpdateRouteWithTrafficUpdate { rules := some rules, handler := h } c
          inst).client.calls =
        c.calls ++
          [ClientCall.updateVirtualService vs.Namespace
            { vs with http := pre ++ route' :: post }] ∧
      (route'.name = route.name ∧ route'.Match = route.Match) ∧
      route'.route = assessmentDestinations h inst ∧
      routeWeights route' =
        inst.assessment.baseline.weight ::
          inst.assessment.candidates.map (fun cand => cand.weight) ∧
      (h = .deploymentHandler →
        route'.route.map (fun d => d.subset) =
          SubsetBaseline ::
            (List.range' 0 inst.assessment.candidates.length).map CandidateSubsetName) ∧
      (h = .serviceHandler → ∀ d ∈ route'.route, d.subset = "") := by
  obtain ⟨pre, post, h1, h2, h3⟩ :=
    updateExperimentRoute_split (fun x => updateRouteFromExperiment h x inst) vs.http route
      hroute
  refine ⟨pre, post, updateRouteFromExperiment h route inst, h1, h3, ?_, ?_, ?_, ?_, ?_, ?_, ?_⟩
  · simp only [Router.UpdateRouteWithTrafficUpdate, hvs, Option.bind, Client.invoke, h2]
    cases c.script with
    | nil => rfl
    | cons e rest => cases e <;> rfl
  · simp only [Router.UpdateRouteWithTrafficUpdate, hvs, Option.bind, Client.invoke, h2]
    cases c.script with
    | nil => rfl
    | cons e rest => cases e <;> rfl
  · rw [updateRouteFromExperiment_eq]
    exact ⟨rfl, rfl⟩
  · rw [updateRouteFromExperiment_eq]
  · rw [updateRouteFromExperiment_eq]
    exact assessmentDestinations_weights h inst
  · intro hh
    subst hh
    rw [updateRouteFromExperiment_eq]
    exact assessmentDestinations_subsets_deployment inst
  · intro hh
    subst hh
    rw [updateRouteFromExperiment_eq]
    exact assessmentDestinations_subsets_service inst

/-- Witness of C8 (amended): the assessment baseline 40, candidates [60] on a
deployment target gives the weights 40, 60. -/
theorem C8_traffic_update_rewrites_route_witness :
    (Examples.progressingRules.virtualService = some Examples.progressingVS ∧
      getExperimentRoute Examples.progressingVS = Examples.progressingVS.http.head?) ∧
    ∃ pre post route',
      Examples.progressingVS.http = pre ++
        { name := "iter8-experiment", Match := [Examples.matchClause],
          route :=
            [{ host := "reviews.test-namespace.svc.cluster.local",
               subset := "iter8-baseline", port := none, weight := 100 },
             { host := "reviews.test-namespace.svc.cluster.local",
               subset := "iter8-candidate-0", port := none, weight := 0 }] } :: post ∧
      (Router.UpdateRouteWithTrafficUpdate
          { rules := some Examples.progressingRules, handler := .deploymentHandler }
          Client.succeeding Examples.trafficExp).router.rules =
        some { destinationRule := Examples.progressingRules.destinationRule,
               virtualService :=
                 some { Examples.progressingVS with http := pre ++ route' :: post } } ∧
      routeWeights route' = [40, 60] := by
  obtain ⟨pre, post, route', h1, _, h3, _, _, _, h7, _, _⟩ :=
    C8_traffic_update_rewrites_route .deploymentHandler Examples.progressingRules
      Examples.progressingVS _ Client.succeeding Examples.trafficExp rfl rfl
  exact ⟨⟨rfl, rfl⟩, pre, post, route', h1, h3, h7⟩

/-! ### Baseline and candidates -/

theorem baselineVirtualService_http (h : destinationHandler) (inst : Experiment)
    (vs0 : VirtualService) :
    (baselineVirtualService h inst vs0).http =
      { name := routeNameExperiment, Match := inst.trafficMatch,
        route := [baselineDestination h inst] } ::
        (if inst.trafficMatch.length > 0 then
          [{ name := routeNameBase, Match := [], route := [baselineDestination h inst] }]
         else []) := by
  unfold baselineVirtualService
  cases hm : inst.trafficMatch with
  | nil =>
    cases inst.networking <;>
      by_cases hn : inst.service.name = "" <;>
      simp [hn, VirtualService.WithHTTPRoute, VirtualService.WithGateways,
        VirtualService.WithHosts, VirtualService.WithMeshGateway,
        VirtualService.InitHTTPRoutes, NewEmptyHTTPRoute, HTTPRoute.WithDestination,
        baselineDestination]
  | cons m ms =>
    cases inst.networking <;>
      by_cases hn : inst.service.name = "" <;>
      simp [hn, VirtualService.WithHTTPRoute, VirtualService.WithGateways,
        VirtualService.WithHosts, VirtualService.WithMeshGateway,
        VirtualService.InitHTTPRoutes, NewEmptyHTTPRoute, HTTPRoute.WithDestination,
        HTTPRoute.WithHTTPMatch, baselineDestination]

theorem baselineVirtualService_labels (h : destinationHandler) (inst : Experiment)
    (vs0 : VirtualService) :
    (baselineVirtualService h inst vs0).labels =
      Labels.erase
        (Labels.set
          (Labels.set (Labels.set vs0.labels experimentLabel (Util.FullExperimentName inst))
            routerID (getRouterID inst))
          experimentRole roleInitializing)
        kialiWizard := by
  unfold baselineVirtualService
  cases inst.networking <;>
    by_cases hn : inst.service.name = "" <;>
    by_cases hm : inst.trafficMatch.length > 0 <;>
    simp [hn, hm, VirtualService.WithHTTPRoute, VirtualService.WithGateways,
      VirtualService.WithHosts, VirtualService.WithMeshGateway,
      VirtualService.InitHTTPRoutes, VirtualService.InitHosts, VirtualService.InitGateways,
      VirtualService.RemoveKialiLabel, VirtualService.WithInitializingLabel,
      VirtualService.WithRouterRegistered, VirtualService.WithExperimentRegistered]

theorem baselineVirtualService_role (h : destinationHandler) (inst : Experiment)
    (vs0 : VirtualService) :
    (baselineVirtualService h inst vs0).labels.get? experimentRole =
      some roleInitializing := by
  rw [baselineVirtualService_labels, Labels.get?_erase_ne _ _ _ (by decide),
    Labels.get?_set_self]

theorem baselineVirtualService_experimentRoute (h : destinationHandler) (inst : Experiment)
    (vs0 : VirtualService) :
    getExperimentRoute (baselineVirtualService h inst vs0) =
      some { name := routeNameExperiment, Match := inst.trafficMatch,
             route := [baselineDestination h inst] } := by
  simp [getExperimentRoute, baselineVirtualService_http, List.find?]

theorem baselineDestinationRule_role (inst : Experiment) (dr0 : DestinationRule)
    (templateLabels : Labels) :
    (baselineDestinationRule inst dr0 templateLabels).labels.get? experimentRole =
      some roleInitializing := by
  simp only [baselineDestinationRule, DestinationRule.WithExperimentRegistered,
    DestinationRule.WithRouterRegistered, DestinationRule.RemoveKialiLabel,
    DestinationRule.WithInitializingLabel, DestinationRule.WithSubset,
    DestinationRule.InitSubsets]
  rw [Labels.get?_set_ne _ _ _ _ (by decide), Labels.get?_set_ne _ _ _ _ (by decide),
    Labels.get?_erase_ne _ _ _ (by decide), Labels.get?_set_self]

theorem withCandidateSubsets_labels (candidates : List RuntimeObject) (i : Nat)
    (drb : DestinationRule) (hall : candidates.all isDeployment = true) :
    ∃ dr, withCandidateSubsets drb i candidates = some dr ∧ dr.labels = drb.labels ∧
      dr.Namespace = drb.Namespace ∧ dr.name = drb.name := by
  induction candidates generalizing i drb with
  | nil => exact ⟨drb, rfl, rfl, rfl, rfl⟩
  | cons o rest ih =>
    cases o with
    | Service n => simp [isDeployment] at hall
    | Deployment n tl =>
      have hrest : rest.all isDeployment = true := by
        simpa [isDeployment] using hall
      obtain ⟨dr, h1, h2, h3, h4⟩ :=
        ih (i + 1) (drb.WithSubset tl (CandidateSubsetName i)) hrest
      exact ⟨dr, by simpa [withCandidateSubsets] using h1, h2, h3, h4⟩

theorem candidateOptions_weights (port : Option Nat) (i : Nat) (cs : List String) :
    (candidateOptions port i cs).map (fun o => o.weight) = List.replicate cs.length 0 := by
  induction cs generalizing i with
  | nil => rfl
  | cons cand rest ih => simp [candidateOptions, ih, List.replicate]

theorem candidateOptions_length (port : Option Nat) (i : Nat) (cs : List String) :
    (candidateOptions port i cs).length = cs.length := by
  induction cs generalizing i with
  | nil => rfl
  | cons cand rest ih => simp [candidateOptions, ih]

theorem candidateDestinations_weights (h : destinationHandler) (inst : Experiment) :
    (candidateDestinations h inst).map (fun d => d.weight) =
      List.replicate inst.service.candidates.length 0 := by
  simp only [candidateDestinations, List.map_map]
  have := candidateOptions_weights inst.service.port 0 inst.service.candidates
  simpa [Function.comp_def, buildDestination_weight] using this

theorem withCandidateDestinations_eq (h : destinationHandler) (inst : Experiment)
    (route : HTTPRoute) :
    withCandidateDestinations h inst route =
      { name := route.name, Match := route.Match,
        route := route.route ++ candidateDestinations h inst } := by
  unfold withCandidateDestinations
  rw [foldl_withDestination]
  rfl

theorem candidateDestinations_setBaselineWeight (h : destinationHandler) (inst : Experiment)
    (w : Int) :
    candidateDestinations h (setBaselineWeight inst w) = candidateDestinations h inst := by
  cases h <;> rfl

theorem updateExperimentRoute_baseline (h : destinationHandler) (inst inst' : Experiment)
    (vs0 : VirtualService) :
    updateExperimentRoute (withCandidateDestinations h inst')
        (baselineVirtualService h inst vs0).http =
      { name := routeNameExperiment, Match := inst.trafficMatch,
        route := baselineDestination h inst :: candidateDestinations h inst' } ::
        (if inst.trafficMatch.length > 0 then
          [{ name := routeNameBase, Match := [], route := [baselineDestination h inst] }]
         else []) := by
  rw [baselineVirtualService_http]
  simp [updateExperimentRoute, withCandidateDestinations_eq]

theorem candidatesVirtualService_route (h : destinationHandler) (inst inst' : Experiment)
    (vs0 : VirtualService) :
    getExperimentRoute
        (VirtualService.WithProgressingLabel
          { baselineVirtualService h inst vs0 with
            http := updateExperimentRoute (withCandidateDestinations h inst')
              (baselineVirtualService h inst vs0).http }) =
      some { name := routeNameExperiment, Match := inst.trafficMatch,
             route := baselineDestination h inst :: candidateDestinations h inst' } := by
  simp [getExperimentRoute, VirtualService.WithProgressingLabel,
    updateExperimentRoute_baseline, List.find?]

theorem routeWeights_baseline_candidates (h : destinationHandler) (inst : Experiment)
    (name : String) (ms : List HTTPMatchRequest) :
    routeWeights { name := name, Match := ms,
                   route := baselineDestination h inst :: candidateDestinations h inst } =
      100 :: List.replicate inst.service.candidates.length 0 := by
  simp only [routeWeights, List.map_cons, candidateDestinations_weights, baselineDestination,
    buildDestination_weight]

theorem candidateDestinations_length (h : destinationHandler) (inst : Experiment) :
    (candidateDestinations h inst).length = inst.service.candidates.length := by
  simp [candidateDestinations, candidateOptions_length]

/-- C7: on a rule pair that is neither progressing nor initializing (as the pair
built for two empty lists is), that holds a virtual service and holds a
destination rule exactly when the handler requires one, and with every
persistence call succeeding, `UpdateRouteWithBaseline` followed by
`UpdateRouteWithCandidates` both return `nil` and leave, in the rule set and in
the last update call, a virtual service whose experiment route has the `n + 1`
destinations baseline, candidate 0, ..., candidate `n - 1` in this order with the
weights 100, 0, ..., 0; every object of the pair carries the role
`progressing`. -/
theorem C7_baseline_then_candidates (h : destinationHandler) (rules : istioRoutingRules)
    (vs0 : VirtualService) (inst : Experiment) (baseline : RuntimeObject)
    (candidates : List RuntimeObject)
    (hvs : rules.virtualService = some vs0)
    (hfresh : rules.isProgressing = false ∧ rules.isInitializing = false)
    (hshape : rules.destinationRule.isSome = h.requireDestinationRule)
    (hobjs : h.requireDestinationRule = true →
      isDeployment baseline = true ∧ candidates.all isDeployment = true) :
    (Router.UpdateRouteWithBaseline { rules := some rules, handler := h } Client.succeeding
        inst baseline).out = .ok ∧
    (baselineThenCandidates { rules := some rules, handler := h } Client.succeeding inst
        baseline candidates).out = .ok ∧
    ∃ rules2 vs route,
      (baselineThenCandidates { rules := some rules, handler := h } Client.succeeding inst
        baseline candidates).router.rules = some rules2 ∧
      rules2.virtualService = some vs ∧
      lastUpdatedVirtualService (baselineThenCandidates { rules := some rules, handler := h }
        Client.succeeding inst baseline candidates).client = some vs ∧
      getExperimentRoute vs = some route ∧
      route.route = baselineDestination h inst :: candidateDestinations h inst ∧
      route.route.length = inst.service.candidates.length + 1 ∧
      routeWeights route = 100 :: List.replicate inst.service.candidates.length 0 ∧
      vs.labels.get? experimentRole = some roleProgressing ∧
      rules2.destinationRule.isSome = h.requireDestinationRule ∧
      (∀ dr, rules2.destinationRule = some dr →
        dr.labels.get? experimentRole = some roleProgressing) ∧
      rules2.isProgressing = true := by
  obtain ⟨hprog, hinit⟩ := hfresh
  have hnp : ∀ (d : Option DestinationRule),
      istioRoutingRules.isProgressing
        { destinationRule := d,
          virtualService := some (baselineVirtualService h inst vs0) } = false := by
    intro d
    simp [istioRoutingRules.isProgressing, istioRoutingRules.haveLabels,
      baselineVirtualService_role]
    intro _
    decide
  cases h with
  | serviceHandler =>
    have hdr : rules.destinationRule = none := by
      simpa [destinationHandler.requireDestinationRule] using hshape
    simp only [baselineThenCandidates, Router.UpdateRouteWithBaseline, hprog, hinit, hvs,
      Client.invoke, Client.succeeding, Router.baselineDestinationRuleStep,
      destinationHandler.requireDestinationRule, hdr, Bool.or_self, Bool.false_eq_true,
      if_false, Router.UpdateRouteWithCandidates, hnp, baselineVirtualService_experimentRoute,
      Router.candidatesDestinationRuleStep, true_and]
    refine ⟨_, _, ⟨routeNameExperiment, inst.trafficMatch,
        baselineDestination .serviceHandler inst ::
          candidateDestinations .serviceHandler inst⟩, rfl, rfl, ?_, ?_, rfl, ?_, ?_, ?_, rfl,
        ?_, ?_⟩
    · simp [lastUpdatedVirtualService, persistVirtualService]
    · rw [candidatesVirtualService_route, candidateDestinations_setBaselineWeight]
    · simp [candidateDestinations_length]
    · exact routeWeights_baseline_candidates _ _ _ _
    · simp [VirtualService.WithProgressingLabel, Labels.get?_set_self]
    · intro dr hdr'
      cases hdr'
    · simp [istioRoutingRules.isProgressing, istioRoutingRules.haveLabels,
        VirtualService.WithProgressingLabel, Labels.get?_set_self]
  | deploymentHandler =>
    obtain ⟨hb, hall⟩ := hobjs rfl
    obtain ⟨dr0, hdr⟩ : ∃ dr0, rules.destinationRule = some dr0 := by
      cases hd : rules.destinationRule with
      | none => simp [hd, destinationHandler.requireDestinationRule] at hshape
      | some dr0 => exact ⟨dr0, rfl⟩
    cases baseline with
    | Service n => simp [isDeployment] at hb
    | Deployment n tl =>
      obtain ⟨drc, hdrc, hlab, _, _⟩ :=
        withCandidateSubsets_labels candidates 0 (baselineDestinationRule inst dr0 tl) hall
      simp only [baselineThenCandidates, Router.UpdateRouteWithBaseline, hprog, hinit, hvs,
        Client.invoke, Client.succeeding, Router.baselineDestinationRuleStep,
        destinationHandler.requireDestinationRule, hdr, Bool.or_self, Bool.false_eq_true,
        if_false, if_true, Router.UpdateRouteWithCandidates, hnp,
        baselineVirtualService_experimentRoute, Router.candidatesDestinationRuleStep, true_and,
        Option.bind, hdrc]
      refine ⟨_, _, ⟨routeNameExperiment, inst.trafficMatch,
          baselineDestination .deploymentHandler inst ::
            candidateDestinations .deploymentHandler inst⟩, rfl, rfl, ?_, ?_, rfl, ?_, ?_, ?_,
          rfl, ?_, ?_⟩
      · simp [lastUpdatedVirtualService, persistVirtualService, persistDestinationRule]
      · rw [candidatesVirtualService_route, candidateDestinations_setBaselineWeight]
      · simp [candidateDestinations_length]
      · exact routeWeights_baseline_candidates _ _ _ _
      · simp [VirtualService.WithProgressingLabel, Labels.get?_set_self]
      · intro dr hdr'
        cases hdr'
        simp [DestinationRule.WithProgressingLabel, Labels.get?_set_self]
      · simp [istioRoutingRules.isProgressing, istioRoutingRules.haveLabels,
          VirtualService.WithProgressingLabel, DestinationRule.WithProgressingLabel,
          Labels.get?_set_self]

/-- Witness of C7: baseline `v1`, candidates `[v2, v3]` on the pair built for two
empty lists gives the weights 100, 0, 0 and a progressing pair. -/
theorem C7_baseline_then_candidates_witness :
    (Examples.freshRules.virtualService = some Examples.freshVS ∧
      (Examples.freshRules.isProgressing = false ∧
        Examples.freshRules.isInitializing = false) ∧
      Examples.freshRules.destinationRule.isSome =
        destinationHandler.deploymentHandler.requireDestinationRule ∧
      isDeployment Examples.v1 = true ∧
      [Examples.v2, Examples.v3].all isDeployment = true) ∧
    ∃ rules2 vs route,
      (baselineThenCandidates
          { rules := some Examples.freshRules, handler := .deploymentHandler }
          Client.succeeding Examples.exp Examples.v1
          [Examples.v2, Examples.v3]).router.rules = some rules2 ∧
      rules2.virtualService = some vs ∧
      getExperimentRoute vs = some route ∧
      routeWeights route = [100, 0, 0] ∧
      rules2.isProgressing = true := by
  obtain ⟨_, _, rules2, vs, route, h1, h2, _, h4, _, _, h7, _, _, _, h11⟩ :=
    C7_baseline_then_candidates .deploymentHandler Examples.freshRules Examples.freshVS
      Examples.exp Examples.v1 [Examples.v2, Examples.v3] (by decide)
      ⟨by decide, by decide⟩ (by decide) (fun _ => ⟨by decide, by decide⟩)
  exact ⟨⟨by decide, ⟨by decide, by decide⟩, by decide, by decide, by decide⟩,
    rules2, vs, route, h1, h2, h4, h7, h11⟩

/-! ### Convergence to stable -/

theorem stableVirtualService_http (h : destinationHandler) (inst : Experiment)
    (vs : VirtualService) (route : HTTPRoute) (hroute : getExperimentRoute vs = some route) :
    (stableVirtualService h true inst vs).http =
      [{ name := "", Match := [], route := assessmentDestinations h inst }] := by
  simp [stableVirtualService, hroute, updateRouteFromExperiment_eq,
    VirtualService.RemoveExperimentLabel, VirtualService.WithKialiLabel,
    VirtualService.WithStableLabel, VirtualService.WithHTTPRoute,
    VirtualService.InitHTTPRoutes]

theorem stableVirtualService_http_of_not_progressing (h : destinationHandler)
    (inst : Experiment) (vs : VirtualService) :
    (stableVirtualService h false inst vs).http = vs.http := by
  simp [stableVirtualService, VirtualService.RemoveExperimentLabel,
    VirtualService.WithKialiLabel, VirtualService.WithStableLabel]

theorem stableVirtualService_labels (h : destinationHandler) (progressing : Bool)
    (inst : Experiment) (vs : VirtualService) :
    (stableVirtualService h progressing inst vs).labels =
      Labels.erase
        (Labels.set (Labels.set vs.labels experimentRole roleStable) kialiWizard
          kialiTrafficShifting)
        experimentLabel := by
  cases progressing
  · simp [stableVirtualService, VirtualService.RemoveExperimentLabel,
      VirtualService.WithKialiLabel, VirtualService.WithStableLabel]
  · cases hr : getExperimentRoute vs <;>
      simp [stableVirtualService, hr, VirtualService.RemoveExperimentLabel,
        VirtualService.WithKialiLabel, VirtualService.WithStableLabel,
        VirtualService.WithHTTPRoute, VirtualService.InitHTTPRoutes]

theorem stableVirtualService_namespace (h : destinationHandler) (progressing : Bool)
    (inst : Experiment) (vs : VirtualService) :
    (stableVirtualService h progressing inst vs).Namespace = vs.Namespace := by
  cases progressing
  · simp [stableVirtualService, VirtualService.RemoveExperimentLabel,
      VirtualService.WithKialiLabel, VirtualService.WithStableLabel]
  · cases hr : getExperimentRoute vs <;>
      simp [stableVirtualService, hr, VirtualService.RemoveExperimentLabel,
        VirtualService.WithKialiLabel, VirtualService.WithStableLabel,
        VirtualService.WithHTTPRoute, VirtualService.InitHTTPRoutes]

theorem stableVirtualService_role (h : destinationHandler) (progressing : Bool)
    (inst : Experiment) (vs : VirtualService) :
    (stableVirtualService h progressing inst vs).labels.get? experimentRole =
        some roleStable ∧
      (stableVirtualService h progressing inst vs).labels.get? experimentLabel = none := by
  rw [stableVirtualService_labels]
  refine ⟨?_, Labels.get?_erase_self _ _⟩
  rw [Labels.get?_erase_ne _ _ _ (by decide), Labels.get?_set_ne _ _ _ _ (by decide),
    Labels.get?_set_self]

theorem stableDestinationRule_role (dr : DestinationRule) :
    (stableDestinationRule dr).labels.get? experimentRole = some roleStable ∧
      (stableDestinationRule dr).labels.get? experimentLabel = none := by
  simp only [stableDestinationRule, DestinationRule.RemoveExperimentLabel,
    DestinationRule.WithKialiLabel, DestinationRule.WithStableLabel]
  refine ⟨?_, Labels.get?_erase_self _ _⟩
  rw [Labels.get?_erase_ne _ _ _ (by decide), Labels.get?_set_ne _ _ _ _ (by decide),
    Labels.get?_set_self]

/-- C10 (amended): for a rule pair labeled progressing whose virtual service has an
experiment route, with cleanup not applicable, a destination rule held exactly
when the handler requires one and every persistence call succeeding,
`UpdateRouteToStable` returns `nil` and hands to the update call a virtual
service whose HTTP routes are exactly one route, with empty name and no match
clause, whose destinations are the baseline and the candidates of the
assessment in order with their weights (the `iter8-base` route is gone); the
virtual service and the destination rule, when there is one, are updated with
the role `stable` and without the ownership label. -/
theorem C10_progressing_to_stable (h : destinationHandler) (rules : istioRoutingRules)
    (vs : VirtualService) (route : HTTPRoute) (c : Client) (inst : Experiment)
    (hvs : rules.virtualService = some vs)
    (hprog : rules.isProgressing = true)
    (hclean : (inst.GetCleanup && rules.isInit) = false)
    (hroute : getExperimentRoute vs = some route)
    (hshape : rules.destinationRule.isSome = h.requireDestinationRule)
    (hsucc : c.script = []) :
    (Router.UpdateRouteToStable { rules := some rules, handler := h } c inst).out = .ok ∧
    (Router.UpdateRouteToStable { rules := some rules, handler := h } c inst).client.calls =
      c.calls ++
        ClientCall.updateVirtualService vs.Namespace (stableVirtualService h true inst vs) ::
          (rules.destinationRule.map fun dr =>
            ClientCall.updateDestinationRule dr.Namespace (stableDestinationRule dr)).toList ∧
    (Router.UpdateRouteToStable { rules := some rules, handler := h } c inst).router.rules =
      some { destinationRule := rules.destinationRule.map stableDestinationRule,
             virtualService := some (stableVirtualService h true inst vs) } ∧
    (stableVirtualService h true inst vs).http =
      [{ name := "", Match := [], route := assessmentDestinations h inst }] ∧
    (assessmentDestinations h inst).map (fun d => d.weight) =
      inst.assessment.baseline.weight ::
        inst.assessment.candidates.map (fun cand => cand.weight) ∧
    ((stableVirtualService h true inst vs).labels.get? experimentRole = some roleStable ∧
      (stableVirtualService h true inst vs).labels.get? experimentLabel = none) ∧
    (∀ dr, rules.destinationRule = some dr →
      (stableDestinationRule dr).labels.get? experimentRole = some roleStable ∧
      (stableDestinationRule dr).labels.get? experimentLabel = none) := by
  refine ⟨?_, ?_, ?_, stableVirtualService_http h inst vs route hroute,
    assessmentDestinations_weights h inst, stableVirtualService_role h true inst vs,
    fun dr _ => stableDestinationRule_role dr⟩
  all_goals
    cases h with
    | serviceHandler =>
      have hdr : rules.destinationRule = none := by
        simpa [destinationHandler.requireDestinationRule] using hshape
      simp [Router.UpdateRouteToStable, hprog, hclean, Router.stabilizeRules, hvs,
        Client.invoke, hsucc, destinationHandler.requireDestinationRule, hdr,
        stableVirtualService_namespace]
    | deploymentHandler =>
      obtain ⟨dr0, hdr⟩ : ∃ dr0, rules.destinationRule = some dr0 := by
        cases hd : rules.destinationRule with
        | none => simp [hd, destinationHandler.requireDestinationRule] at hshape
        | some dr0 => exact ⟨dr0, rfl⟩
      simp [Router.UpdateRouteToStable, hprog, hclean, Router.stabilizeRules, hvs,
        Client.invoke, hsucc, destinationHandler.requireDestinationRule, hdr,
        stableVirtualService_namespace, stableDestinationRule,
        DestinationRule.RemoveExperimentLabel, DestinationRule.WithKialiLabel,
        DestinationRule.WithStableLabel]


/-- Witness of C10 (amended): a progressing pair and the last weights 100, 0, 0. -/
theorem C10_progressing_to_stable_witness :
    (Examples.progressingRules.virtualService = some Examples.progressingVS ∧
      Examples.progressingRules.isProgressing = true ∧
      (Examples.stableExp.GetCleanup && Examples.progressingRules.isInit) = false ∧
      getExperimentRoute Examples.progressingVS = Examples.progressingVS.http.head? ∧
      Examples.progressingRules.destinationRule.isSome =
        destinationHandler.deploymentHandler.requireDestinationRule ∧
      Client.succeeding.script = []) ∧
    (Router.UpdateRouteToStable
        { rules := some Examples.progressingRules, handler := .deploymentHandler }
        Client.succeeding Examples.stableExp).out = .ok ∧
    (stableVirtualService .deploymentHandler true Examples.stableExp
        Examples.progressingVS).http.map routeWeights = [[100, 0, 0]] ∧
    (stableVirtualService .deploymentHandler true Examples.stableExp
        Examples.progressingVS).labels.get? experimentRole = some roleStable ∧
    (stableVirtualService .deploymentHandler true Examples.stableExp
        Examples.progressingVS).labels.get? experimentLabel = none := by
  obtain ⟨h1, _, _, h4, h5, h6, _⟩ :=
    C10_progressing_to_stable .deploymentHandler Examples.progressingRules
      Examples.progressingVS _ Client.succeeding Examples.stableExp (by decide) (by decide)
      (by decide) rfl (by decide) rfl
  refine ⟨⟨by decide, by decide, by decide, rfl, by decide, rfl⟩, h1, ?_, h6.1, h6.2⟩
  rw [h4]
  simp only [List.map_cons, List.map_nil, routeWeights, h5]
  rfl

/-! ### Weight sums -/

theorem baselineDestinationRuleStep_virtualService (r : Router) (rules1 : istioRoutingRules)
    (c1 : Client) (inst : Experiment) (baseline : RuntimeObject) :
    (r.baselineDestinationRuleStep rules1 c1 inst baseline).router.rules.bind
        (fun rules => rules.virtualService) = rules1.virtualService := by
  unfold Router.baselineDestinationRuleStep
  split
  · split
    · simp only [Client.invoke]
      cases c1.script with
      | nil => rfl
      | cons e rest => cases e <;> rfl
    · rfl
  · rfl

theorem candidatesDestinationRuleStep_virtualService (r : Router)
    (rules1 : istioRoutingRules) (c1 : Client) (inst : Experiment)
    (candidates : List RuntimeObject) :
    (r.candidatesDestinationRuleStep rules1 c1 inst candidates).router.rules.bind
        (fun rules => rules.virtualService) = rules1.virtualService := by
  unfold Router.candidatesDestinationRuleStep
  split
  · split
    · simp only [Client.invoke]
      cases c1.script with
      | nil => rfl
      | cons e rest => cases e <;> rfl
    · rfl
  · rfl

theorem updateRouteWithBaseline_virtualService (h : destinationHandler)
    (rules : istioRoutingRules) (vs0 : VirtualService) (c : Client) (inst : Experiment)
    (baseline : RuntimeObject) (hvs : rules.virtualService = some vs0)
    (hprog : rules.isProgressing = false) (hinit : rules.isInitializing = false) :
    (Router.UpdateRouteWithBaseline { rules := some rules, handler := h } c inst
        baseline).router.rules.bind (fun rules => rules.virtualService) =
      some (baselineVirtualService h inst vs0) := by
  simp only [Router.UpdateRouteWithBaseline, hprog, hinit, hvs, Bool.or_self,
    Bool.false_eq_true, if_false, Client.invoke]
  cases c.script with
  | nil => simp [baselineDestinationRuleStep_virtualService]
  | cons e rest =>
    cases e with
    | none => simp [baselineDestinationRuleStep_virtualService]
    | some err => rfl

theorem updateRouteWithCandidates_virtualService (h : destinationHandler)
    (rules : istioRoutingRules) (vs : VirtualService) (route : HTTPRoute) (c : Client)
    (inst : Experiment) (candidates : List RuntimeObject)
    (hvs : rules.virtualService = some vs) (hroute : getExperimentRoute vs = some route) :
    (Router.UpdateRouteWithCandidates { rules := some rules, handler := h } c inst
        candidates).router.rules.bind (fun rules => rules.virtualService) = some vs ∨
    (Router.UpdateRouteWithCandidates { rules := some rules, handler := h } c inst
        candidates).router.rules.bind (fun rules => rules.virtualService) =
      some (VirtualService.WithProgressingLabel
        { vs with http := updateExperimentRoute (withCandidateDestinations h inst) vs.http }) := by
  simp only [Router.UpdateRouteWithCandidates, hvs, hroute]
  cases rules.isProgressing with
  | true => left; simp [hvs]
  | false =>
    right
    simp only [Bool.false_eq_true, if_false, Client.invoke]
    cases c.script with
    | nil => simp [candidatesDestinationRuleStep_virtualService]
    | cons e rest =>
      cases e with
      | none => simp [candidatesDestinationRuleStep_virtualService]
      | some err => rfl


theorem stabilizeRules_virtualService (r : Router) (rules : istioRoutingRules)
    (vs0 : VirtualService) (c : Client) (inst : Experiment)
    (hvs : rules.virtualService = some vs0) :
    (r.stabilizeRules rules c inst).router.rules.bind (fun rules => rules.virtualService) =
      some (stableVirtualService r.handler rules.isProgressing inst vs0) := by
  simp only [Router.stabilizeRules, hvs, Client.invoke]
  cases c.script with
  | nil =>
    simp only
    split
    · cases rules.destinationRule <;> rfl
    · rfl
  | cons e rest =>
    cases e with
    | some err => rfl
    | none =>
      simp only
      split
      · cases rules.destinationRule with
        | none => rfl
        | some dr =>
          simp only
          cases rest with
          | nil => rfl
          | cons e2 rest2 => cases e2 <;> rfl
      · rfl

theorem routeWeightSum_assessmentDestinations (h : destinationHandler) (inst : Experiment)
    (name : String) (ms : List HTTPMatchRequest) :
    routeWeightSum { name := name, Match := ms, route := assessmentDestinations h inst } =
      assessmentWeightSum inst.assessment := by
  simp [routeWeightSum, routeWeights, assessmentDestinations_weights, assessmentWeightSum]

theorem routeWeightSum_withCandidateDestinations (h : destinationHandler) (inst : Experiment)
    (route : HTTPRoute) :
    routeWeightSum (withCandidateDestinations h inst route) = routeWeightSum route := by
  rw [withCandidateDestinations_eq]
  simp [routeWeightSum, routeWeights, candidateDestinations_weights]

theorem find?_updateExperimentRoute (f : HTTPRoute → HTTPRoute) (routes : List HTTPRoute)
    (route : HTTPRoute) (hname : (f route).name = route.name)
    (hroute : routes.find? (fun x => x.name == routeNameExperiment) = some route) :
    (updateExperimentRoute f routes).find? (fun x => x.name == routeNameExperiment) =
      some (f route) := by
  obtain ⟨pre, post, _, h2, h3⟩ := updateExperimentRoute_split f routes route hroute
  rw [h2]
  refine find?_experimentRoute_split f pre post route ?_ h3
  rw [hname]
  have := List.find?_some hroute
  simpa using this

theorem updateRouteWithTrafficUpdate_virtualService (h : destinationHandler)
    (rules : istioRoutingRules) (vs : VirtualService) (c : Client) (inst : Experiment)
    (hvs : rules.virtualService = some vs) :
    (Router.UpdateRouteWithTrafficUpdate { rules := some rules, handler := h } c
        inst).router.rules.bind (fun rules => rules.virtualService) =
      some { vs with http :=
              updateExperimentRoute (fun x => updateRouteFromExperiment h x inst) vs.http } := by
  simp only [Router.UpdateRouteWithTrafficUpdate, hvs, Option.bind, Client.invoke]
  cases c.script with
  | nil => rfl
  | cons e rest => cases e <;> rfl

/-- C9: the destination weights of the experiment route sum to 100 after
`UpdateRouteWithBaseline` has built it (rule pair neither progressing nor
initializing), the sum is left as it was by `UpdateRouteWithCandidates`, and it
is 100 after `UpdateRouteWithTrafficUpdate` and, for a progressing pair without
cleanup, in the single route left by `UpdateRouteToStable`, whenever the
weights of the assessment sum to 100; whatever the client answers. -/
theorem C9_weights_sum_to_100 :
    (∀ (h : destinationHandler) (rules : istioRoutingRules) (vs0 : VirtualService)
        (c : Client) (inst : Experiment) (baseline : RuntimeObject),
      rules.virtualService = some vs0 → rules.isProgressing = false →
      rules.isInitializing = false →
      ∃ vs route,
        (Router.UpdateRouteWithBaseline { rules := some rules, handler := h } c inst
          baseline).router.rules.bind (fun rules => rules.virtualService) = some vs ∧
        getExperimentRoute vs = some route ∧ routeWeightSum route = 100) ∧
    (∀ (h : destinationHandler) (rules : istioRoutingRules) (vs : VirtualService)
        (route : HTTPRoute) (c : Client) (inst : Experiment)
        (candidates : List RuntimeObject),
      rules.virtualService = some vs → getExperimentRoute vs = some route →
      ∃ vs' route',
        (Router.UpdateRouteWithCandidates { rules := some rules, handler := h } c inst
          candidates).router.rules.bind (fun rules => rules.virtualService) = some vs' ∧
        getExperimentRoute vs' = some route' ∧
        routeWeightSum route' = routeWeightSum route) ∧
    (∀ (h : destinationHandler) (rules : istioRoutingRules) (vs : VirtualService)
        (route : HTTPRoute) (c : Client) (inst : Experiment),
      rules.virtualService = some vs → getExperimentRoute vs = some route →
      assessmentWeightSum inst.assessment = 100 →
      ∃ vs' route',
        (Router.UpdateRouteWithTrafficUpdate { rules := some rules, handler := h } c
          inst).router.rules.bind (fun rules => rules.virtualService) = some vs' ∧
        getExperimentRoute vs' = some route' ∧ routeWeightSum route' = 100) ∧
    (∀ (h : destinationHandler) (rules : istioRoutingRules) (vs : VirtualService)
        (route : HTTPRoute) (c : Client) (inst : Experiment),
      rules.virtualService = some vs → rules.isProgressing = true →
      (inst.GetCleanup && rules.isInit) = false → getExperimentRoute vs = some route →
      assessmentWeightSum inst.assessment = 100 →
      ∃ vs' route',
        (Router.UpdateRouteToStable { rules := some rules, handler := h } c
          inst).router.rules.bind (fun rules => rules.virtualService) = some vs' ∧
        vs'.http = [route'] ∧ routeWeightSum route' = 100) := by
  refine ⟨?_, ?_, ?_, ?_⟩
  · intro h rules vs0 c inst baseline hvs hprog hinit
    refine ⟨_, _, updateRouteWithBaseline_virtualService h rules vs0 c inst baseline hvs hprog
      hinit, baselineVirtualService_experimentRoute h inst vs0, ?_⟩
    simp [routeWeightSum, routeWeights, baselineDestination, buildDestination_weight]
  · intro h rules vs route c inst candidates hvs hroute
    rcases updateRouteWithCandidates_virtualService h rules vs route c inst candidates hvs
      hroute with hr | hr
    · exact ⟨vs, route, hr, hroute, rfl⟩
    · refine ⟨_, withCandidateDestinations h inst route, hr, ?_,
        routeWeightSum_withCandidateDestinations h inst route⟩
      simp only [getExperimentRoute, VirtualService.WithProgressingLabel]
      exact find?_updateExperimentRoute _ vs.http route
        (by rw [withCandidateDestinations_eq]) hroute
  · intro h rules vs route c inst hvs hroute hsum
    refine ⟨_, updateRouteFromExperiment h route inst,
      updateRouteWithTrafficUpdate_virtualService h rules vs c inst hvs, ?_, ?_⟩
    · simp only [getExperimentRoute]
      exact find?_updateExperimentRoute _ vs.http route
        (by rw [updateRouteFromExperiment_eq]) hroute
    · rw [updateRouteFromExperiment_eq, routeWeightSum_assessmentDestinations, hsum]
  · intro h rules vs route c inst hvs hprog hclean hroute hsum
    refine ⟨stableVirtualService h true inst vs, _, ?_,
      stableVirtualService_http h inst vs route hroute, ?_⟩
    · simp only [Router.UpdateRouteToStable, hprog, hclean, Bool.true_or, Bool.not_true,
        Bool.false_eq_true, if_false]
      have := stabilizeRules_virtualService { rules := some rules, handler := h } rules vs c
        inst hvs
      rw [hprog] at this
      exact this
    · rw [routeWeightSum_assessmentDestinations, hsum]

/-- Witness of C9: the assessment baseline 40, candidates [60] sums to 100, and
so does the experiment route after the traffic update. -/
theorem C9_weights_sum_to_100_witness :
    (Examples.progressingRules.virtualService = some Examples.progressingVS ∧
      getExperimentRoute Examples.progressingVS = Examples.progressingVS.http.head? ∧
      assessmentWeightSum Examples.trafficExp.assessment = 100) ∧
    ∃ vs' route',
      (Router.UpdateRouteWithTrafficUpdate
          { rules := some Examples.progressingRules, handler := .deploymentHandler }
          Client.succeeding Examples.trafficExp).router.rules.bind
            (fun rules => rules.virtualService) = some vs' ∧
      getExperimentRoute vs' = some route' ∧ routeWeightSum route' = 100 :=
  ⟨⟨by decide, rfl, by decide⟩,
    C9_weights_sum_to_100.2.2.1 .deploymentHandler Examples.progressingRules
      Examples.progressingVS _ Client.succeeding Examples.trafficExp rfl rfl (by decide)⟩

/-! ### Cleanup and no-op of the convergence -/

/-- C11 (counterexample): with cleanup requested, on a pair that carries the init
marker but no role label, and on a stable pair that still carries the init
marker, `UpdateRouteToStable` returns `nil` without any client call, so nothing
is deleted. -/
theorem C11_counterexample :
    Examples.cleanupExp.GetCleanup = true ∧
    (Examples.initMarkedRules.isInit = true ∧
      Router.UpdateRouteToStable
          { rules := some Examples.initMarkedRules, handler := .deploymentHandler }
          Client.succeeding Examples.cleanupExp =
        { out := .ok,
          router := { rules := some Examples.initMarkedRules, handler := .deploymentHandler },
          client := Client.succeeding, inst := Examples.cleanupExp }) ∧
    (Examples.stableInitMarkedRules.isInit = true ∧
      Router.UpdateRouteToStable
          { rules := some Examples.stableInitMarkedRules, handler := .deploymentHandler }
          Client.succeeding Examples.cleanupExp =
        { out := .ok,
          router :=
            { rules := some Examples.stableInitMarkedRules, handler := .deploymentHandler },
          client := Client.succeeding, inst := Examples.cleanupExp }) := by
  decide

/-- C11 (amended): when the experiment requests cleanup and the rule pair carries
the init marker and is progressing or initializing, `UpdateRouteToStable` issues
a delete call for the virtual service and after it nothing but delete calls (no
create, no update), and leaves the rule set and the experiment as they were;
when every call succeeds it returns `nil` after deleting the virtual service
and, for a handler that requires one, the destination rule. -/
theorem C11_cleanup_deletes (h : destinationHandler) (rules : istioRoutingRules)
    (vs : VirtualService) (c : Client) (inst : Experiment)
    (hclean : inst.GetCleanup = true) (hinit : rules.isInit = true)
    (hrole : (rules.isProgressing || rules.isInitializing) = true)
    (hvs : rules.virtualService = some vs) :
    (∃ calls,
      (Router.UpdateRouteToStable { rules := some rules, handler := h } c inst).client.calls =
        c.calls ++ ClientCall.deleteVirtualService vs.Namespace vs.name :: calls ∧
      ∀ call ∈ calls, call.isDelete = true) ∧
    (Router.UpdateRouteToStable { rules := some rules, handler := h } c inst).router =
      { rules := some rules, handler := h } ∧
    (Router.UpdateRouteToStable { rules := some rules, handler := h } c inst).inst = inst ∧
    (c.script = [] → ∀ dr, rules.destinationRule = some dr →
      (Router.UpdateRouteToStable { rules := some rules, handler := h } c inst).out = .ok ∧
      (Router.UpdateRouteToStable { rules := some rules, handler := h } c inst).client.calls =
        c.calls ++ ClientCall.deleteVirtualService vs.Namespace vs.name ::
          (if h.requireDestinationRule then
            [ClientCall.deleteDestinationRule dr.Namespace dr.name] else [])) := by
  have hrun : Router.UpdateRouteToStable { rules := some rules, handler := h } c inst =
      Router.deleteRules { rules := some rules, handler := h } rules c inst := by
    simp [Router.UpdateRouteToStable, hclean, hinit, hrole]
  rw [hrun]
  simp only [Router.deleteRules, hvs, Client.invoke]
  refine ⟨?_, ?_, ?_, ?_⟩
  · cases c.script with
    | nil =>
      cases h <;> cases rules.destinationRule <;>
        simp [destinationHandler.requireDestinationRule, ClientCall.isDelete]
    | cons e rest =>
      cases e with
      | some err => exact ⟨[], by simp⟩
      | none =>
        cases h <;> cases rules.destinationRule <;> cases rest with
        | nil => simp [destinationHandler.requireDestinationRule, ClientCall.isDelete]
        | cons e2 rest2 =>
          cases e2 <;> simp [destinationHandler.requireDestinationRule, ClientCall.isDelete]
  · cases c.script with
    | nil => cases h <;> cases rules.destinationRule <;> rfl
    | cons e rest =>
      cases e with
      | some err => rfl
      | none =>
        cases h <;> cases rules.destinationRule <;> cases rest with
        | nil => rfl
        | cons e2 rest2 => cases e2 <;> rfl
  · cases c.script with
    | nil => cases h <;> cases rules.destinationRule <;> rfl
    | cons e rest =>
      cases e with
      | some err => rfl
      | none =>
        cases h <;> cases rules.destinationRule <;> cases rest with
        | nil => rfl
        | cons e2 rest2 => cases e2 <;> rfl
  · intro hs dr hdr
    simp only [hs, hdr]
    cases h <;> simp [destinationHandler.requireDestinationRule]

/-- C12: when the rule set is absent, or is neither progressing nor initializing,
`UpdateRouteToStable` returns `nil`, issues no client call and leaves the rule
set and the experiment unchanged, whatever the cleanup flag says. -/
theorem C12_to_stable_noop (r : Router) (c : Client) (inst : Experiment)
    (hnone : r.rules = none ∨
      ∃ rules, r.rules = some rules ∧ rules.isProgressing = false ∧
        rules.isInitializing = false) :
    r.UpdateRouteToStable c inst = { out := .ok, router := r, client := c, inst := inst } := by
  rcases hnone with h | ⟨rules, h, hp, hi⟩
  · simp [Router.UpdateRouteToStable, h]
  · simp [Router.UpdateRouteToStable, h, hp, hi]

/-- Witness of C12: a stable pair and an experiment with cleanup requested. -/
theorem C12_to_stable_noop_witness :
    (∃ rules, (Router.mk (some Examples.stableRules) .deploymentHandler).rules = some rules ∧
      rules.isProgressing = false ∧ rules.isInitializing = false) ∧
    Examples.cleanupExp.GetCleanup = true ∧
    (Router.mk (some Examples.stableRules) .deploymentHandler).UpdateRouteToStable
        Client.succeeding Examples.cleanupExp =
      { out := .ok, router := Router.mk (some Examples.stableRules) .deploymentHandler,
        client := Client.succeeding, inst := Examples.cleanupExp } :=
  ⟨⟨Examples.stableRules, rfl, by decide, by decide⟩, by decide,
    C12_to_stable_noop _ Client.succeeding Examples.cleanupExp
      (Or.inr ⟨Examples.stableRules, rfl, by decide, by decide⟩)⟩

/-- Witness of C11 (amended): an initializing pair created by the experiment is
deleted, virtual service first. -/
theorem C11_cleanup_deletes_witness :
    (Examples.cleanupExp.GetCleanup = true ∧ Examples.initializingRules.isInit = true ∧
      (Examples.initializingRules.isProgressing ||
        Examples.initializingRules.isInitializing) = true ∧
      Examples.initializingRules.virtualService = some Examples.initializingVS) ∧
    (Router.UpdateRouteToStable
        { rules := some Examples.initializingRules, handler := .deploymentHandler }
        Client.succeeding Examples.cleanupExp).out = .ok ∧
    (Router.UpdateRouteToStable
        { rules := some Examples.initializingRules, handler := .deploymentHandler }
        Client.succeeding Examples.cleanupExp).client.calls =
      [ClientCall.deleteVirtualService "test-namespace" "reviews.iter8router",
        ClientCall.deleteDestinationRule "test-namespace" "reviews.iter8router"] :=
  ⟨⟨by decide, by decide, by decide, rfl⟩,
    (C11_cleanup_deletes .deploymentHandler Examples.initializingRules
      Examples.initializingVS Client.succeeding Examples.cleanupExp (by decide) (by decide)
      (by decide) rfl).2.2.2 rfl Examples.initializingDR rfl⟩

/-! ### Round trip through the validation -/

theorem stabilizeRules_ok (h : destinationHandler) (rules : istioRoutingRules)
    (vs0 : VirtualService) (dr0 : DestinationRule) (c : Client) (inst : Experiment)
    (hvs : rules.virtualService = some vs0) (hdr : rules.destinationRule = some dr0)
    (hreq : h.requireDestinationRule = true)
    (hok : (Router.stabilizeRules { rules := some rules, handler := h } rules c inst).out =
      .ok) :
    (Router.stabilizeRules { rules := some rules, handler := h } rules c inst).client.calls =
      c.calls ++
        [ClientCall.updateVirtualService vs0.Namespace
            (stableVirtualService h rules.isProgressing inst vs0),
          ClientCall.updateDestinationRule dr0.Namespace (stableDestinationRule dr0)] ∧
    (Router.stabilizeRules { rules := some rules, handler := h } rules c inst).router.rules =
      some { destinationRule := some (stableDestinationRule dr0),
             virtualService := some (stableVirtualService h rules.isProgressing inst vs0) } := by
  simp only [Router.stabilizeRules, hvs, hdr, hreq, Client.invoke, if_true] at hok ⊢
  cases hs : c.script with
  | nil =>
    simp [stableVirtualService_namespace, stableDestinationRule,
      DestinationRule.RemoveExperimentLabel, DestinationRule.WithKialiLabel,
      DestinationRule.WithStableLabel]
  | cons e rest =>
    rw [hs] at hok
    cases e with
    | some err => simp at hok
    | none =>
      cases rest with
      | nil =>
        simp [stableVirtualService_namespace, stableDestinationRule,
          DestinationRule.RemoveExperimentLabel, DestinationRule.WithKialiLabel,
          DestinationRule.WithStableLabel]
      | cons e2 rest2 =>
        cases e2 with
        | some err => simp at hok
        | none =>
          simp [stableVirtualService_namespace, stableDestinationRule,
            DestinationRule.RemoveExperimentLabel, DestinationRule.WithKialiLabel,
            DestinationRule.WithStableLabel]

/-- C13: when `UpdateRouteToStable` converges a rule pair without deleting it (the
pair is progressing or initializing, cleanup does not apply, the handler
requires the destination rule and the call returns `nil`), the virtual service
and the destination rule it persisted both have the role `stable`, and handing
them as the single items of the two lists to `ValidateAndInit` of any later
experiment, from any processor state, returns no error and adopts exactly
these two objects. -/
theorem C13_stable_round_trip (h : destinationHandler) (rules : istioRoutingRules)
    (vs0 : VirtualService) (dr0 : DestinationRule) (c : Client) (inst : Experiment)
    (p : Processor.Deployment) (later : Experiment)
    (hvs : rules.virtualService = some vs0) (hdr : rules.destinationRule = some dr0)
    (hreq : h.requireDestinationRule = true)
    (hrole : (rules.isProgressing || rules.isInitializing) = true)
    (hclean : (inst.GetCleanup && rules.isInit) = false)
    (hok : (Router.UpdateRouteToStable { rules := some rules, handler := h } c inst).out =
      .ok) :
    ∃ vs dr,
      (Router.UpdateRouteToStable { rules := some rules, handler := h } c inst).client.calls =
        c.calls ++ [ClientCall.updateVirtualService vs.Namespace vs,
          ClientCall.updateDestinationRule dr.Namespace dr] ∧
      (Router.UpdateRouteToStable { rules := some rules, handler := h } c
          inst).router.rules =
        some { destinationRule := some dr, virtualService := some vs } ∧
      (vs.labels.get? experimentRole = some roleStable ∧
        dr.labels.get? experimentRole = some roleStable) ∧
      p.ValidateAndInit [dr] [vs] later =
        (none, { destinationRule := some dr, virtualService := some vs }) := by
  have hrun : Router.UpdateRouteToStable { rules := some rules, handler := h } c inst =
      Router.stabilizeRules { rules := some rules, handler := h } rules c inst := by
    simp [Router.UpdateRouteToStable, hrole, hclean]
  rw [hrun] at hok ⊢
  obtain ⟨h1, h2⟩ := stabilizeRules_ok h rules vs0 dr0 c inst hvs hdr hreq hok
  refine ⟨stableVirtualService h rules.isProgressing inst vs0, stableDestinationRule dr0, ?_,
    h2, ⟨(stableVirtualService_role h _ inst vs0).1, (stableDestinationRule_role dr0).1⟩, ?_⟩
  · rw [h1, stableVirtualService_namespace]
    simp [stableDestinationRule, DestinationRule.RemoveExperimentLabel,
      DestinationRule.WithKialiLabel, DestinationRule.WithStableLabel]
  · exact Processor.validateAndInit_stable_pair p _ _ later (stableDestinationRule_role dr0).1
      (stableVirtualService_role h _ inst vs0).1

/-- Witness of C13: the progressing pair of `test-name` is converged and then
adopted by the experiment `next-name`. -/
theorem C13_stable_round_trip_witness :
    (Examples.progressingRules.virtualService = some Examples.progressingVS ∧
      Examples.progressingRules.destinationRule = some Examples.progressingDR ∧
      destinationHandler.deploymentHandler.requireDestinationRule = true ∧
      (Examples.progressingRules.isProgressing ||
        Examples.progressingRules.isInitializing) = true ∧
      (Examples.stableExp.GetCleanup && Examples.progressingRules.isInit) = false ∧
      (Router.UpdateRouteToStable
        { rules := some Examples.progressingRules, handler := .deploymentHandler }
        Client.succeeding Examples.stableExp).out = .ok) ∧
    ∃ vs dr,
      (Router.UpdateRouteToStable
        { rules := some Examples.progressingRules, handler := .deploymentHandler }
        Client.succeeding Examples.stableExp).client.calls =
        [ClientCall.updateVirtualService vs.Namespace vs,
          ClientCall.updateDestinationRule dr.Namespace dr] ∧
      Examples.emptyProcessor.ValidateAndInit [dr] [vs] Examples.laterExp =
        (none, { destinationRule := some dr, virtualService := some vs }) := by
  obtain ⟨vs, dr, h1, _, _, h4⟩ :=
    C13_stable_round_trip .deploymentHandler Examples.progressingRules
      Examples.progressingVS Examples.progressingDR Client.succeeding Examples.stableExp
      Examples.emptyProcessor Examples.laterExp rfl rfl rfl (by decide) (by decide)
      (by decide)
  exact ⟨⟨rfl, rfl, rfl, by decide, by decide, by decide⟩, vs, dr, h1, h4⟩

/-! ### Baseline: no-op and persistence -/

theorem baselineVirtualService_init (h : destinationHandler) (inst : Experiment)
    (vs0 : VirtualService) :
    (baselineVirtualService h inst vs0).labels.get? experimentInit =
      vs0.labels.get? experimentInit := by
  rw [baselineVirtualService_labels, Labels.get?_erase_ne _ _ _ (by decide),
    Labels.get?_set_ne _ _ _ _ (by decide), Labels.get?_set_ne _ _ _ _ (by decide),
    Labels.get?_set_ne _ _ _ _ (by decide)]

theorem baselineVirtualService_namespace (h : destinationHandler) (inst : Experiment)
    (vs0 : VirtualService) :
    (baselineVirtualService h inst vs0).Namespace = vs0.Namespace := by
  unfold baselineVirtualService
  cases inst.networking <;>
    by_cases hn : inst.service.name = "" <;>
    by_cases hm : inst.trafficMatch.length > 0 <;>
    simp [hn, hm, VirtualService.WithHTTPRoute, VirtualService.WithGateways,
      VirtualService.WithHosts, VirtualService.WithMeshGateway,
      VirtualService.InitHTTPRoutes, VirtualService.InitHosts, VirtualService.InitGateways,
      VirtualService.RemoveKialiLabel, VirtualService.WithInitializingLabel,
      VirtualService.WithRouterRegistered, VirtualService.WithExperimentRegistered]

theorem baselineDestinationRule_init (inst : Experiment) (dr0 : DestinationRule)
    (templateLabels : Labels) :
    (baselineDestinationRule inst dr0 templateLabels).labels.get? experimentInit =
      dr0.labels.get? experimentInit := by
  simp only [baselineDestinationRule, DestinationRule.WithExperimentRegistered,
    DestinationRule.WithRouterRegistered, DestinationRule.RemoveKialiLabel,
    DestinationRule.WithInitializingLabel, DestinationRule.WithSubset,
    DestinationRule.InitSubsets]
  rw [Labels.get?_set_ne _ _ _ _ (by decide), Labels.get?_set_ne _ _ _ _ (by decide),
    Labels.get?_erase_ne _ _ _ (by decide), Labels.get?_set_ne _ _ _ _ (by decide)]

theorem updateRouteWithBaseline_noop (r : Router) (rules : istioRoutingRules) (c : Client)
    (inst : Experiment) (baseline : RuntimeObject) (hr : r.rules = some rules)
    (hrole : (rules.isProgressing || rules.isInitializing) = true) :
    r.UpdateRouteWithBaseline c inst baseline =
      { out := .ok, router := r, client := c, inst := inst } := by
  simp [Router.UpdateRouteWithBaseline, hr, hrole]

theorem updateRouteWithBaseline_ok (h : destinationHandler) (rules : istioRoutingRules)
    (c : Client) (inst : Experiment) (baseline : RuntimeObject)
    (hrole : (rules.isProgressing || rules.isInitializing) = false)
    (hok : (Router.UpdateRouteWithBaseline { rules := some rules, handler := h } c inst
      baseline).out = .ok) :
    (Router.UpdateRouteWithBaseline { rules := some rules, handler := h } c inst
      baseline).inst = setBaselineWeight inst 100 ∧
    ∃ vs0, rules.virtualService = some vs0 ∧
      (h.requireDestinationRule = false →
        (Router.UpdateRouteWithBaseline { rules := some rules, handler := h } c inst
          baseline).client.calls =
          c.calls ++ [persistVirtualService (baselineVirtualService h inst vs0)]) ∧
      (h.requireDestinationRule = true →
        ∃ dr0 name templateLabels, rules.destinationRule = some dr0 ∧
          baseline = .Deployment name templateLabels ∧
          (Router.UpdateRouteWithBaseline { rules := some rules, handler := h } c inst
            baseline).client.calls =
            c.calls ++ [persistVirtualService (baselineVirtualService h inst vs0),
              persistDestinationRule (baselineDestinationRule inst dr0 templateLabels)]) := by
  cases hvs : rules.virtualService with
  | none => simp [Router.UpdateRouteWithBaseline, hrole, hvs] at hok
  | some vs0 =>
    simp only [Router.UpdateRouteWithBaseline, hrole, hvs, Client.invoke, Bool.false_eq_true,
      if_false, Router.baselineDestinationRuleStep] at hok ⊢
    cases h with
    | serviceHandler =>
      simp only [destinationHandler.requireDestinationRule, Bool.false_eq_true, if_false]
        at hok ⊢
      cases hs : c.script with
      | nil => simp
      | cons e rest =>
        rw [hs] at hok
        cases e with
        | some err => simp at hok
        | none => simp
    | deploymentHandler =>
      simp only [destinationHandler.requireDestinationRule, if_true] at hok ⊢
      cases hs : c.script with
      | nil =>
        rw [hs] at hok
        cases hdr : rules.destinationRule with
        | none => simp [hdr] at hok
        | some dr0 =>
          cases baseline with
          | Service n => simp [hdr] at hok
          | Deployment n tl =>
            simp [hdr]
            exact ⟨_, _, ⟨rfl, rfl⟩, rfl⟩
      | cons e rest =>
        rw [hs] at hok
        cases e with
        | some err => simp at hok
        | none =>
          cases hdr : rules.destinationRule with
          | none => simp [hdr] at hok
          | some dr0 =>
            cases baseline with
            | Service n => simp [hdr] at hok
            | Deployment n tl =>
              cases rest with
              | nil =>
                simp [hdr]
                exact ⟨_, _, ⟨rfl, rfl⟩, rfl⟩
              | cons e2 rest2 =>
                cases e2 with
                | some err => simp [hdr] at hok
                | none =>
                  simp [hdr]
                  exact ⟨_, _, ⟨rfl, rfl⟩, rfl⟩

/-- C18: on a rule pair that is progressing or initializing
`UpdateRouteWithBaseline` returns `nil`, issues no client call and leaves the
router, and the experiment with its baseline weight, unchanged. On every other
pair a call that returns `nil` has set the baseline weight of the assessment to
100 and has issued one persistence call for the virtual service and, for a
handler that requires it, one for the destination rule; each of these is a
create call when the object carried the init marker label and an update call
otherwise. -/
theorem C18_baseline_noop_or_persist :
    (∀ (r : Router) (rules : istioRoutingRules) (c : Client) (inst : Experiment)
        (baseline : RuntimeObject),
      r.rules = some rules → (rules.isProgressing || rules.isInitializing) = true →
      r.UpdateRouteWithBaseline c inst baseline =
        { out := .ok, router := r, client := c, inst := inst }) ∧
    (∀ (h : destinationHandler) (rules : istioRoutingRules) (c : Client) (inst : Experiment)
        (baseline : RuntimeObject),
      (rules.isProgressing || rules.isInitializing) = false →
      (Router.UpdateRouteWithBaseline { rules := some rules, handler := h } c inst
        baseline).out = .ok →
      (Router.UpdateRouteWithBaseline { rules := some rules, handler := h } c inst
        baseline).inst.assessment.baseline.weight = 100 ∧
      ∃ vs0, rules.virtualService = some vs0 ∧
        (h.requireDestinationRule = false →
          (Router.UpdateRouteWithBaseline { rules := some rules, handler := h } c inst
            baseline).client.calls =
            c.calls ++ [persistVirtualService (baselineVirtualService h inst vs0)]) ∧
        (h.requireDestinationRule = true →
          ∃ dr0 name templateLabels, rules.destinationRule = some dr0 ∧
            baseline = .Deployment name templateLabels ∧
            (Router.UpdateRouteWithBaseline { rules := some rules, handler := h } c inst
              baseline).client.calls =
              c.calls ++ [persistVirtualService (baselineVirtualService h inst vs0),
                persistDestinationRule (baselineDestinationRule inst dr0 templateLabels)])) ∧
    (∀ (h : destinationHandler) (inst : Experiment) (vs0 : VirtualService),
      persistVirtualService (baselineVirtualService h inst vs0) =
        if (vs0.labels.get? experimentInit).isSome then
          ClientCall.createVirtualService vs0.Namespace (baselineVirtualService h inst vs0)
        else
          ClientCall.updateVirtualService vs0.Namespace (baselineVirtualService h inst vs0)) ∧
    (∀ (inst : Experiment) (dr0 : DestinationRule) (templateLabels : Labels),
      persistDestinationRule (baselineDestinationRule inst dr0 templateLabels) =
        if (dr0.labels.get? experimentInit).isSome then
          ClientCall.createDestinationRule dr0.Namespace
            (baselineDestinationRule inst dr0 templateLabels)
        else
          ClientCall.updateDestinationRule dr0.Namespace
            (baselineDestinationRule inst dr0 templateLabels)) := by
  refine ⟨updateRouteWithBaseline_noop, ?_, ?_, ?_⟩
  · intro h rules c inst baseline hrole hok
    obtain ⟨h1, h2⟩ := updateRouteWithBaseline_ok h rules c inst baseline hrole hok
    exact ⟨by rw [h1]; rfl, h2⟩
  · intro h inst vs0
    simp only [persistVirtualService, baselineVirtualService_init,
      baselineVirtualService_namespace]
  · intro inst dr0 tl
    simp only [persistDestinationRule, baselineDestinationRule_init]
    rfl

/-- Witness of C18: the pair built for two empty lists is persisted by two create
calls and the baseline weight becomes 100; on the progressing pair the call
changes nothing. -/
theorem C18_baseline_noop_or_persist_witness :
    ((Examples.freshRules.isProgressing || Examples.freshRules.isInitializing) = false ∧
      (Examples.progressingRules.isProgressing ||
        Examples.progressingRules.isInitializing) = true ∧
      Examples.exp.assessment.baseline.weight = 0) ∧
    (Router.UpdateRouteWithBaseline
        { rules := some Examples.freshRules, handler := .deploymentHandler }
        Client.succeeding Examples.exp Examples.v1).inst.assessment.baseline.weight = 100 ∧
    (Router.UpdateRouteWithBaseline
        { rules := some Examples.freshRules, handler := .deploymentHandler }
        Client.succeeding Examples.exp Examples.v1).client.calls.map
          (fun call => call.isDelete) = [false, false] ∧
    Router.UpdateRouteWithBaseline
        { rules := some Examples.progressingRules, handler := .deploymentHandler }
        Client.succeeding Examples.exp Examples.v1 =
      { out := .ok,
        router := { rules := some Examples.progressingRules, handler := .deploymentHandler },
        client := Client.succeeding, inst := Examples.exp } :=
  ⟨⟨by decide, by decide, by decide⟩,
    (C18_baseline_noop_or_persist.2.1 .deploymentHandler Examples.freshRules
      Client.succeeding Examples.exp Examples.v1 (by decide) (by decide)).1,
    by decide,
    C18_baseline_noop_or_persist.1 _ Examples.progressingRules Client.succeeding Examples.exp
      Examples.v1 rfl (by decide)⟩

/-! ### Re-driving the candidates -/

theorem isProgressing_withProgressingLabel (dr : Option DestinationRule)
    (vs : VirtualService) :
    istioRoutingRules.isProgressing
      { destinationRule := dr.map DestinationRule.WithProgressingLabel,
        virtualService := some vs.WithProgressingLabel } = true := by
  cases dr <;>
    simp [istioRoutingRules.isProgressing, istioRoutingRules.haveLabels,
      VirtualService.WithProgressingLabel, DestinationRule.WithProgressingLabel,
      Labels.get?_set_self]

theorem updateRouteWithCandidates_ok_progressing (h : destinationHandler)
    (rules : istioRoutingRules) (c : Client) (inst : Experiment)
    (candidates : List RuntimeObject)
    (hshape : h.requireDestinationRule = false → rules.destinationRule = none)
    (hok : (Router.UpdateRouteWithCandidates { rules := some rules, handler := h } c inst
      candidates).out = .ok) :
    ∃ rules', (Router.UpdateRouteWithCandidates { rules := some rules, handler := h } c inst
        candidates).router = { rules := some rules', handler := h } ∧
      rules'.isProgressing = true := by
  cases hp : rules.isProgressing with
  | true => exact ⟨rules, by simp [Router.UpdateRouteWithCandidates, hp], hp⟩
  | false =>
    cases hvs : rules.virtualService with
    | none => simp [Router.UpdateRouteWithCandidates, hp, hvs] at hok
    | some vs =>
      cases hroute : getExperimentRoute vs with
      | none => simp [Router.UpdateRouteWithCandidates, hp, hvs, hroute] at hok
      | some route =>
        simp only [Router.UpdateRouteWithCandidates, hp, hvs, hroute, Client.invoke,
          Bool.false_eq_true, if_false, Router.candidatesDestinationRuleStep] at hok ⊢
        cases h with
        | serviceHandler =>
          have hdr := hshape rfl
          simp only [destinationHandler.requireDestinationRule, Bool.false_eq_true, if_false,
            hdr] at hok ⊢
          cases hs : c.script with
          | nil => exact ⟨_, rfl, isProgressing_withProgressingLabel none _⟩
          | cons e rest =>
            rw [hs] at hok
            cases e with
            | some err => simp at hok
            | none => exact ⟨_, rfl, isProgressing_withProgressingLabel none _⟩
        | deploymentHandler =>
          simp only [destinationHandler.requireDestinationRule, if_true] at hok ⊢
          cases hb : rules.destinationRule.bind
              (fun dr0 => withCandidateSubsets dr0 0 candidates) with
          | none =>
            rw [hb] at hok
            cases hs : c.script with
            | nil => rw [hs] at hok; simp at hok
            | cons e rest =>
              rw [hs] at hok
              cases e <;> simp at hok
          | some drb =>
            rw [hb] at hok
            cases hs : c.script with
            | nil => exact ⟨_, rfl, isProgressing_withProgressingLabel (some drb) _⟩
            | cons e rest =>
              rw [hs] at hok
              cases e with
              | some err => simp at hok
              | none =>
                cases rest with
                | nil => exact ⟨_, rfl, isProgressing_withProgressingLabel (some drb) _⟩
                | cons e2 rest2 =>
                  cases e2 with
                  | some err => simp at hok
                  | none => exact ⟨_, rfl, isProgressing_withProgressingLabel (some drb) _⟩

/-- C19: when `UpdateRouteWithCandidates` has returned `nil` on a rule pair (whose
destination rule is absent if the handler does not require one), applying it
again to the router, client and experiment it left, with any candidate
objects, returns `nil` and changes nothing: no client call is issued and the
rule pair, with the experiment route and the subsets, stays as the first
application left it. -/
theorem C19_candidates_redrive_noop (h : destinationHandler) (rules : istioRoutingRules)
    (c : Client) (inst : Experiment) (candidates again : List RuntimeObject)
    (hshape : h.requireDestinationRule = false → rules.destinationRule = none)
    (hok : (Router.UpdateRouteWithCandidates { rules := some rules, handler := h } c inst
      candidates).out = .ok) :
    (Router.UpdateRouteWithCandidates { rules := some rules, handler := h } c inst
        candidates).router.UpdateRouteWithCandidates
      (Router.UpdateRouteWithCandidates { rules := some rules, handler := h } c inst
        candidates).client
      (Router.UpdateRouteWithCandidates { rules := some rules, handler := h } c inst
        candidates).inst again =
    Router.UpdateRouteWithCandidates { rules := some rules, handler := h } c inst
      candidates := by
  obtain ⟨rules', h1, h2⟩ :=
    updateRouteWithCandidates_ok_progressing h rules c inst candidates hshape hok
  generalize Router.UpdateRouteWithCandidates { rules := some rules, handler := h } c inst
    candidates = first at h1 hok ⊢
  obtain ⟨out, router, client, inst'⟩ := first
  simp only at h1 hok
  subst h1 hok
  simp [Router.UpdateRouteWithCandidates, h2]

/-- Witness of C19: candidates `v2`, `v3` applied twice to the initializing pair. -/
theorem C19_candidates_redrive_noop_witness :
    ((destinationHandler.deploymentHandler.requireDestinationRule = false →
        Examples.initializingRules.destinationRule = none) ∧
      (Router.UpdateRouteWithCandidates
        { rules := some Examples.initializingRules, handler := .deploymentHandler }
        Client.succeeding Examples.exp [Examples.v2, Examples.v3]).out = .ok) ∧
    (Router.UpdateRouteWithCandidates
        { rules := some Examples.initializingRules, handler := .deploymentHandler }
        Client.succeeding Examples.exp [Examples.v2, Examples.v3]).router.UpdateRouteWithCandidates
      (Router.UpdateRouteWithCandidates
        { rules := some Examples.initializingRules, handler := .deploymentHandler }
        Client.succeeding Examples.exp [Examples.v2, Examples.v3]).client
      (Router.UpdateRouteWithCandidates
        { rules := some Examples.initializingRules, handler := .deploymentHandler }
        Client.succeeding Examples.exp [Examples.v2, Examples.v3]).inst
      [Examples.v2, Examples.v3] =
    Router.UpdateRouteWithCandidates
      { rules := some Examples.initializingRules, handler := .deploymentHandler }
      Client.succeeding Examples.exp [Examples.v2, Examples.v3] :=
  ⟨⟨by decide, by decide⟩,
    C19_candidates_redrive_noop .deploymentHandler Examples.initializingRules
      Client.succeeding Examples.exp [Examples.v2, Examples.v3] [Examples.v2, Examples.v3]
      (by decide) (by decide)⟩

/-! ### Failing client calls -/

theorem apply_first_call_fails (op : RoutingOp) (r : Router) (c : Client) (inst : Experiment)
    (e : String) (rest : List (Option String)) (hs : c.script = some e :: rest) :
    (op.apply r c inst).client = c ∨
    ((op.apply r c inst).out = .error e ∧
      (∃ call, (op.apply r c inst).client.calls = c.calls ++ [call]) ∧
      (op.apply r c inst).client.script = rest ∧ (op.apply r c inst).inst = inst ∧
      (op.apply r c inst).router.rules.bind (fun rules => rules.destinationRule) =
        r.rules.bind (fun rules => rules.destinationRule)) := by
  cases op with
  | baseline b =>
    simp only [RoutingOp.apply, Router.UpdateRouteWithBaseline, Client.invoke, hs]
    repeat' split
    all_goals simp_all
  | candidates cs =>
    simp only [RoutingOp.apply, Router.UpdateRouteWithCandidates, Client.invoke, hs]
    repeat' split
    all_goals simp_all
  | trafficUpdate =>
    simp only [RoutingOp.apply, Router.UpdateRouteWithTrafficUpdate, Client.invoke, hs]
    repeat' split
    all_goals simp_all
  | toStable =>
    simp only [RoutingOp.apply, Router.UpdateRouteToStable, Router.deleteRules,
      Router.stabilizeRules, Client.invoke, hs]
    repeat' split
    all_goals simp_all

theorem apply_second_call_fails (op : RoutingOp) (r : Router) (c : Client)
    (inst : Experiment) (e : String) (rest : List (Option String))
    (hs : c.script = none :: some e :: rest) :
    (op.apply r c inst).client = c ∨
    (∃ call, (op.apply r c inst).client =
      { calls := c.calls ++ [call], script := some e :: rest }) ∨
    ((op.apply r c inst).out = .error e ∧
      (∃ call1 call2, (op.apply r c inst).client.calls = c.calls ++ [call1, call2]) ∧
      (op.apply r c inst).client.script = rest ∧ (op.apply r c inst).inst = inst) := by
  cases op with
  | baseline b =>
    simp only [RoutingOp.apply, Router.UpdateRouteWithBaseline, Client.invoke, hs,
      Router.baselineDestinationRuleStep]
    repeat' split
    all_goals simp_all
  | candidates cs =>
    simp only [RoutingOp.apply, Router.UpdateRouteWithCandidates, Client.invoke, hs,
      Router.candidatesDestinationRuleStep]
    repeat' split
    all_goals simp_all
  | trafficUpdate =>
    simp only [RoutingOp.apply, Router.UpdateRouteWithTrafficUpdate, Client.invoke, hs]
    repeat' split
    all_goals simp_all
  | toStable =>
    simp only [RoutingOp.apply, Router.UpdateRouteToStable, Router.deleteRules,
      Router.stabilizeRules, Client.invoke, hs]
    repeat' split
    all_goals simp_all

/-- C17: for `UpdateRouteWithBaseline`, `UpdateRouteWithCandidates`,
`UpdateRouteWithTrafficUpdate` and `UpdateRouteToStable`, when the first call the
operation issues on the mesh client fails with error `e`, the operation
returns exactly `e`, that call is the only one it issued and the experiment
(with the baseline weight of the assessment) and the destination rule of the
rule set are unchanged; when the first call
succeeds and the second fails with `e`, the operation returns exactly `e` after
exactly these two calls, again with the experiment unchanged. `Fetch` returns
the error of a failing list call at once, without the second list call and
without validation. -/
theorem C17_client_error_surfaces :
    (∀ (op : RoutingOp) (r : Router) (c : Client) (inst : Experiment) (e : String)
        (rest : List (Option String)),
      c.script = some e :: rest →
      (op.apply r c inst).client = c ∨
      ((op.apply r c inst).out = .error e ∧
        (∃ call, (op.apply r c inst).client.calls = c.calls ++ [call]) ∧
        (op.apply r c inst).client.script = rest ∧ (op.apply r c inst).inst = inst ∧
        (op.apply r c inst).router.rules.bind (fun rules => rules.destinationRule) =
          r.rules.bind (fun rules => rules.destinationRule))) ∧
    (∀ (op : RoutingOp) (r : Router) (c : Client) (inst : Experiment) (e : String)
        (rest : List (Option String)),
      c.script = none :: some e :: rest →
      (op.apply r c inst).client = c ∨
      (∃ call, (op.apply r c inst).client =
        { calls := c.calls ++ [call], script := some e :: rest }) ∨
      ((op.apply r c inst).out = .error e ∧
        (∃ call1 call2, (op.apply r c inst).client.calls = c.calls ++ [call1, call2]) ∧
        (op.apply r c inst).client.script = rest ∧ (op.apply r c inst).inst = inst)) ∧
    (∀ (r : Router)
        (validate : List DestinationRule → List VirtualService → Experiment →
          Option String × Option istioRoutingRules)
        (drl : List DestinationRule) (vsl : List VirtualService) (c : Client)
        (inst : Experiment) (e : String) (rest : List (Option String)),
      (c.script = some e :: rest →
        r.Fetch validate drl vsl c inst =
          { out := .error e, router := r,
            client :=
              { calls := c.calls ++
                  [ClientCall.listDestinationRules inst.ServiceNamespace (fetchSelector inst)],
                script := rest },
            inst := inst }) ∧
      (c.script = none :: some e :: rest →
        r.Fetch validate drl vsl c inst =
          { out := .error e, router := r,
            client :=
              { calls := c.calls ++
                  [ClientCall.listDestinationRules inst.ServiceNamespace (fetchSelector inst),
                    ClientCall.listVirtualServices inst.ServiceNamespace
                      (fetchSelector inst)],
                script := rest },
            inst := inst })) := by
  refine ⟨apply_first_call_fails, apply_second_call_fails, ?_⟩
  intro r validate drl vsl c inst e rest
  constructor
  · intro hs
    simp [Router.Fetch, Client.invoke, hs]
  · intro hs
    simp [Router.Fetch, Client.invoke, hs]

/-- Witness of C17: the create call for the virtual service fails with `boom`. -/
theorem C17_client_error_surfaces_witness :
    (RoutingOp.apply (.baseline Examples.v1)
        { rules := some Examples.freshRules, handler := .deploymentHandler }
        { calls := [], script := [some "boom"] } Examples.exp).out = .error "boom" ∧
    (RoutingOp.apply (.baseline Examples.v1)
        { rules := some Examples.freshRules, handler := .deploymentHandler }
        { calls := [], script := [some "boom"] } Examples.exp).client.calls.length = 1 ∧
    (RoutingOp.apply (.baseline Examples.v1)
        { rules := some Examples.freshRules, handler := .deploymentHandler }
        { calls := [], script := [some "boom"] } Examples.exp).inst = Examples.exp := by
  rcases C17_client_error_surfaces.1 (.baseline Examples.v1)
      { rules := some Examples.freshRules, handler := .deploymentHandler }
      { calls := [], script := [some "boom"] } Examples.exp "boom" [] rfl with h | h
  · exact absurd h (by decide)
  · obtain ⟨h1, ⟨call, h2⟩, _, h4, _⟩ := h
    exact ⟨h1, by rw [h2]; rfl, h4⟩

/-! ### Order of the roles -/

theorem roleRank_initializing : roleRank (some roleInitializing) = 1 := by decide

theorem roleRank_progressing : roleRank (some roleProgressing) = 2 := by decide

theorem roleRank_stable : roleRank (some roleStable) = 3 := by decide

theorem roleRank_le_three (role : Option String) : roleRank role ≤ 3 := by
  cases role with
  | none => simp [roleRank]
  | some s =>
    simp only [roleRank]
    split_ifs <;> omega

theorem rolesNotBackwards_refl (r : Router) : rolesNotBackwards r r :=
  ⟨le_refl _, le_refl _⟩

theorem baseline_keeps_order (b : RuntimeObject) (r : Router) (c : Client)
    (inst : Experiment) (hk : (RoutingOp.baseline b).keepsOrder r = true) :
    rolesNotBackwards r (r.UpdateRouteWithBaseline c inst b).router := by
  obtain ⟨rules, h⟩ := r
  cases rules with
  | none => exact rolesNotBackwards_refl _
  | some rules =>
    cases hrole : (rules.isProgressing || rules.isInitializing) with
    | true =>
      rw [updateRouteWithBaseline_noop _ rules c inst b rfl hrole]
      exact rolesNotBackwards_refl _
    | false =>
      simp only [RoutingOp.keepsOrder, hrole, Bool.false_or, Bool.and_eq_true,
        decide_eq_true_eq] at hk
      obtain ⟨hv, hd⟩ := hk
      cases hvs : rules.virtualService with
      | none =>
        simp only [Router.UpdateRouteWithBaseline, hrole, hvs]
        exact rolesNotBackwards_refl _
      | some vs0 =>
        simp only [Router.UpdateRouteWithBaseline, hrole, hvs, Client.invoke,
          Router.baselineDestinationRuleStep, Bool.false_eq_true, if_false]
        repeat' split
        all_goals
          simp_all [rolesNotBackwards, vsRole, drRole, baselineVirtualService_role,
            baselineDestinationRule_role, roleRank_initializing]

theorem candidateSubsetsAppended_labels (candidates : List RuntimeObject) (i : Nat)
    (drb : DestinationRule) : (candidateSubsetsAppended drb i candidates).labels = drb.labels := by
  induction candidates generalizing i drb with
  | nil => rfl
  | cons cand rest ih =>
    cases cand with
    | Deployment name templateLabels =>
      simp only [candidateSubsetsAppended]
      rw [ih]
      rfl
    | Service name => rfl

theorem candidateSubsetsAppended_role (o : Option DestinationRule)
    (candidates : List RuntimeObject) :
    ((o.map fun dr0 => candidateSubsetsAppended dr0 0 candidates).bind fun dr =>
      dr.labels.get? experimentRole) = o.bind fun dr => dr.labels.get? experimentRole := by
  cases o <;> simp [candidateSubsetsAppended_labels]

theorem candidates_keeps_order (cs : List RuntimeObject) (r : Router) (c : Client)
    (inst : Experiment) (hk : (RoutingOp.candidates cs).keepsOrder r = true) :
    rolesNotBackwards r (r.UpdateRouteWithCandidates c inst cs).router := by
  obtain ⟨rules, h⟩ := r
  cases rules with
  | none => exact rolesNotBackwards_refl _
  | some rules =>
    cases hrole : rules.isProgressing with
    | true =>
      simp only [Router.UpdateRouteWithCandidates, hrole, if_true]
      exact rolesNotBackwards_refl _
    | false =>
      simp only [RoutingOp.keepsOrder, hrole, Bool.false_or, Bool.and_eq_true,
        decide_eq_true_eq] at hk
      obtain ⟨hv, hd⟩ := hk
      cases hvs : rules.virtualService with
      | none =>
        simp only [Router.UpdateRouteWithCandidates, hrole, hvs]
        exact rolesNotBackwards_refl _
      | some vs0 =>
        simp only [Router.UpdateRouteWithCandidates, hrole, hvs, Client.invoke,
          Router.candidatesDestinationRuleStep, Bool.false_eq_true, if_false]
        repeat' split
        all_goals
          simp_all [rolesNotBackwards, vsRole, drRole, VirtualService.WithProgressingLabel,
            DestinationRule.WithProgressingLabel, Labels.get?_set_self, roleRank_progressing,
            candidateSubsetsAppended_role]

theorem trafficUpdate_keeps_order (r : Router) (c : Client) (inst : Experiment) :
    rolesNotBackwards r (r.UpdateRouteWithTrafficUpdate c inst).router := by
  obtain ⟨rules, h⟩ := r
  simp only [Router.UpdateRouteWithTrafficUpdate, Client.invoke]
  repeat' split
  all_goals simp_all [rolesNotBackwards, vsRole, drRole]

theorem toStable_keeps_order (r : Router) (c : Client) (inst : Experiment)
    (hclean : inst.GetCleanup = false) :
    rolesNotBackwards r (r.UpdateRouteToStable c inst).router := by
  obtain ⟨rules, h⟩ := r
  have h3 := roleRank_le_three
  simp only [Router.UpdateRouteToStable, hclean, Bool.false_and, Bool.false_eq_true, if_false,
    Router.stabilizeRules, Client.invoke]
  repeat' split
  all_goals
    simp_all [rolesNotBackwards, vsRole, drRole, stableVirtualService_role,
      stableDestinationRule_role, roleRank_stable]

theorem apply_getCleanup (op : RoutingOp) (r : Router) (c : Client) (inst : Experiment) :
    (op.apply r c inst).inst.GetCleanup = inst.GetCleanup := by
  cases op with
  | baseline b =>
    simp only [RoutingOp.apply, Router.UpdateRouteWithBaseline, Client.invoke,
      Router.baselineDestinationRuleStep]
    repeat' split
    all_goals simp_all [setBaselineWeight, Experiment.GetCleanup]
  | candidates cs =>
    simp only [RoutingOp.apply, Router.UpdateRouteWithCandidates, Client.invoke,
      Router.candidatesDestinationRuleStep]
    repeat' split
    all_goals simp_all
  | trafficUpdate =>
    simp only [RoutingOp.apply, Router.UpdateRouteWithTrafficUpdate, Client.invoke]
    repeat' split
    all_goals simp_all
  | toStable =>
    simp only [RoutingOp.apply, Router.UpdateRouteToStable, Router.deleteRules,
      Router.stabilizeRules, Client.invoke]
    repeat' split
    all_goals simp_all

theorem apply_keeps_order (op : RoutingOp) (r : Router) (c : Client) (inst : Experiment)
    (hclean : inst.GetCleanup = false) (hk : op.keepsOrder r = true) :
    rolesNotBackwards r (op.apply r c inst).router := by
  cases op with
  | baseline b => exact baseline_keeps_order b r c inst hk
  | candidates cs => exact candidates_keeps_order cs r c inst hk
  | trafficUpdate => exact trafficUpdate_keeps_order r c inst
  | toStable => exact toStable_keeps_order r c inst hclean

theorem routersAlong_head (ops : List RoutingOp) (r : Router) (c : Client)
    (inst : Experiment) : (routersAlong ops r c inst).head? = some r := by
  cases ops <;> rfl

theorem routersAlong_chain (ops : List RoutingOp) (r : Router) (c : Client)
    (inst : Experiment) (hclean : inst.GetCleanup = false)
    (hk : keepOrderAlong ops r c inst = true) :
    List.Chain' rolesNotBackwards (routersAlong ops r c inst) := by
  induction ops generalizing r c inst with
  | nil => simp [routersAlong]
  | cons op ops ih =>
    simp only [keepOrderAlong, Bool.and_eq_true] at hk
    simp only [routersAlong]
    rw [List.chain'_cons']
    refine ⟨?_, ih _ _ _ (by rw [apply_getCleanup, hclean]) hk.2⟩
    intro x hx
    rw [routersAlong_head] at hx
    cases hx
    exact apply_keeps_order op r c inst hclean hk.1

/-- C14 (counterexample): on a progressing pair, `UpdateRouteToStable` (without
cleanup) followed by `UpdateRouteWithBaseline` takes the role of the virtual
service from progressing to stable and then back to initializing. -/
theorem C14_counterexample :
    Examples.stableExp.GetCleanup = false ∧
    (routersAlong [.toStable, .baseline Examples.v1]
        { rules := some Examples.progressingRules, handler := .deploymentHandler }
        Client.succeeding Examples.stableExp).map vsRole =
      [some roleProgressing, some roleStable, some roleInitializing] ∧
    (routersAlong [.toStable, .baseline Examples.v1]
        { rules := some Examples.progressingRules, handler := .deploymentHandler }
        Client.succeeding Examples.stableExp).map (fun x => roleRank (vsRole x)) =
      [2, 3, 1] := by
  decide

/-- C14 (amended): in every sequence of routing operations
(`UpdateRouteWithBaseline`, `UpdateRouteWithCandidates`,
`UpdateRouteWithTrafficUpdate`, `UpdateRouteToStable` without cleanup) in which
`UpdateRouteWithBaseline` only meets a pair that it leaves alone or whose
objects are not beyond initializing, and `UpdateRouteWithCandidates` only a
pair that it leaves alone or whose objects are not stable, the role labels of
the virtual service and of the destination rule never move backwards in the
order initializing < progressing < stable, whatever the client answers. -/
theorem C14_roles_never_backwards (ops : List RoutingOp) (r : Router) (c : Client)
    (inst : Experiment) (hclean : inst.GetCleanup = false)
    (hk : keepOrderAlong ops r c inst = true) :
    List.Chain' rolesNotBackwards (routersAlong ops r c inst) ∧
    ((routersAlong ops r c inst).map (fun x => roleRank (vsRole x))).Pairwise (· ≤ ·) ∧
    ((routersAlong ops r c inst).map (fun x => roleRank (drRole x))).Pairwise (· ≤ ·) := by
  have hchain := routersAlong_chain ops r c inst hclean hk
  refine ⟨hchain, ?_, ?_⟩
  · rw [← List.chain'_iff_pairwise, List.chain'_map]
    exact hchain.imp (fun _ _ h => h.1)
  · rw [← List.chain'_iff_pairwise, List.chain'_map]
    exact hchain.imp (fun _ _ h => h.2)

/-- Witness of C14 (amended): baseline, candidates, traffic update and convergence
on the pair built for two empty lists give the roles none, initializing,
progressing, progressing, stable. -/
theorem C14_roles_never_backwards_witness :
    (Examples.exp.GetCleanup = false ∧
      keepOrderAlong
        [.baseline Examples.v1, .candidates [Examples.v2, Examples.v3], .trafficUpdate,
          .toStable]
        { rules := some Examples.freshRules, handler := .deploymentHandler }
        Client.succeeding Examples.exp = true) ∧
    (routersAlong
        [.baseline Examples.v1, .candidates [Examples.v2, Examples.v3], .trafficUpdate,
          .toStable]
        { rules := some Examples.freshRules, handler := .deploymentHandler }
        Client.succeeding Examples.exp).map (fun x => roleRank (vsRole x)) = [0, 1, 2, 2, 3] ∧
    ((routersAlong
        [.baseline Examples.v1, .candidates [Examples.v2, Examples.v3], .trafficUpdate,
          .toStable]
        { rules := some Examples.freshRules, handler := .deploymentHandler }
        Client.succeeding Examples.exp).map
          (fun x => roleRank (vsRole x))).Pairwise (· ≤ ·) :=
  ⟨⟨by decide, by decide⟩, by decide,
    (C14_roles_never_backwards _ _ Client.succeeding Examples.exp (by decide)
      (by decide)).2.1⟩

/-! ### Subset names -/

theorem digitChar_value (k : Nat) (hk : k < 10) : (Nat.digitChar k).toNat - 48 = k := by
  interval_cases k <;> rfl

theorem toDigitsCore_append (fuel n : Nat) (ds : List Char) :
    Nat.toDigitsCore 10 fuel n ds = Nat.toDigitsCore 10 fuel n [] ++ ds := by
  induction fuel generalizing n ds with
  | zero => simp [Nat.toDigitsCore]
  | succ fuel ih =>
    simp only [Nat.toDigitsCore]
    split
    · simp
    · rw [ih (n / 10) (Nat.digitChar (n % 10) :: ds), ih (n / 10) [Nat.digitChar (n % 10)]]
      simp

theorem digitsValue_toDigitsCore (fuel n : Nat) (h : n < fuel) :
    digitsValue (Nat.toDigitsCore 10 fuel n []) = n := by
  induction fuel generalizing n with
  | zero => omega
  | succ fuel ih =>
    simp only [Nat.toDigitsCore]
    split
    · rename_i h0
      have hlt : n < 10 := by
        by_contra hc
        have : 1 ≤ n / 10 := Nat.div_pos (by omega) (by omega)
        omega
      rw [Nat.mod_eq_of_lt hlt]
      simp [digitsValue, digitChar_value n hlt]
    · rename_i h0
      rw [toDigitsCore_append]
      have hrec := ih (n / 10) (by omega)
      simp only [digitsValue, List.foldl_append, List.foldl_cons, List.foldl_nil] at hrec ⊢
      rw [hrec, digitChar_value (n % 10) (Nat.mod_lt _ (by omega))]
      omega

theorem natRepr_injective (i j : Nat) (h : Nat.repr i = Nat.repr j) : i = j := by
  have hd : Nat.toDigits 10 i = Nat.toDigits 10 j := by
    have := congrArg String.data h
    simpa [Nat.repr, List.asString] using this
  have hi := digitsValue_toDigitsCore (i + 1) i (by omega)
  have hj := digitsValue_toDigitsCore (j + 1) j (by omega)
  simp only [Nat.toDigits] at hd
  rw [hd] at hi
  omega

theorem candidateSubsetName_eq (i : Nat) :
    CandidateSubsetName i = "iter8-candidate-" ++ Nat.repr i := by
  show ("iter8-candidate" ++ "-") ++ Nat.repr i = "iter8-candidate-" ++ Nat.repr i
  rw [show "iter8-candidate" ++ "-" = "iter8-candidate-" from by decide]

theorem candidateSubsetName_injective (i j : Nat)
    (h : CandidateSubsetName i = CandidateSubsetName j) : i = j := by
  rw [candidateSubsetName_eq, candidateSubsetName_eq] at h
  have hd := congrArg String.data h
  simp only [String.data_append] at hd
  have hr := List.append_cancel_left hd
  exact natRepr_injective i j (String.ext hr)

theorem candidateSubsetName_ne_baseline (i : Nat) : CandidateSubsetName i ≠ SubsetBaseline := by
  intro h
  rw [candidateSubsetName_eq] at h
  have hd := congrArg (fun x => x.data.take 7) h
  simp only [String.data_append] at hd
  rw [List.take_append_of_le_length (by decide)] at hd
  exact absurd hd (by decide)

theorem candidateOptions_subsets (port : Option Nat) (i : Nat) (cs : List String) :
    (candidateOptions port i cs).map (fun o => o.subset) =
      (List.range' i cs.length).map CandidateSubsetName := by
  induction cs generalizing i with
  | nil => rfl
  | cons cand rest ih => simp [candidateOptions, ih, List.range']

theorem candidateDestinations_subsets_deployment (inst : Experiment) :
    (candidateDestinations .deploymentHandler inst).map (fun d => d.subset) =
      (List.range' 0 inst.service.candidates.length).map CandidateSubsetName := by
  simp only [candidateDestinations, List.map_map]
  have := candidateOptions_subsets inst.service.port 0 inst.service.candidates
  simpa [Function.comp_def, destinationHandler.buildDestination] using this

theorem withCandidateSubsets_subsets (candidates : List RuntimeObject) (i : Nat)
    (drb dr : DestinationRule) (h : withCandidateSubsets drb i candidates = some dr) :
    ∃ added, dr.subsets = drb.subsets ++ added ∧
      added.map (fun s => s.name) =
        (List.range' i candidates.length).map CandidateSubsetName := by
  induction candidates generalizing i drb with
  | nil =>
    simp only [withCandidateSubsets, Option.some.injEq] at h
    subst h
    exact ⟨[], by simp, rfl⟩
  | cons o rest ih =>
    cases o with
    | Service n => simp [withCandidateSubsets] at h
    | Deployment n tl =>
      simp only [withCandidateSubsets] at h
      obtain ⟨added, h1, h2⟩ := ih (i + 1) _ h
      refine ⟨{ name := CandidateSubsetName i, labels := tl } :: added, ?_, ?_⟩
      · rw [h1]
        simp [DestinationRule.WithSubset]
      · simp [h2, List.range']

theorem updateRouteWithCandidates_ok_deployment (rules : istioRoutingRules)
    (vs : VirtualService) (dr0 : DestinationRule) (c : Client) (inst : Experiment)
    (candidates : List RuntimeObject)
    (hp : rules.isProgressing = false) (hvs : rules.virtualService = some vs)
    (hdr : rules.destinationRule = some dr0)
    (hok : (Router.UpdateRouteWithCandidates
      { rules := some rules, handler := .deploymentHandler } c inst candidates).out = .ok) :
    ∃ drc vs', withCandidateSubsets dr0 0 candidates = some drc ∧
      vs'.http =
        updateExperimentRoute (withCandidateDestinations .deploymentHandler inst) vs.http ∧
      (Router.UpdateRouteWithCandidates
        { rules := some rules, handler := .deploymentHandler } c inst candidates).router.rules =
        some { destinationRule := some drc.WithProgressingLabel, virtualService := some vs' } := by
  cases hroute : getExperimentRoute vs with
  | none => simp [Router.UpdateRouteWithCandidates, hp, hvs, hroute] at hok
  | some route =>
    simp only [Router.UpdateRouteWithCandidates, hp, hvs, hroute, hdr, Client.invoke,
      Bool.false_eq_true, if_false, Router.candidatesDestinationRuleStep,
      destinationHandler.requireDestinationRule, if_true, Option.bind] at hok ⊢
    cases hb : withCandidateSubsets dr0 0 candidates with
    | none =>
      rw [hb] at hok
      cases hs : c.script with
      | nil => rw [hs] at hok; simp at hok
      | cons e rest =>
        rw [hs] at hok
        cases e <;> simp at hok
    | some drc =>
      rw [hb] at hok
      refine ⟨drc, VirtualService.WithProgressingLabel ⟨vs.name, vs.Namespace, vs.labels,
        vs.hosts, vs.gateways,
        updateExperimentRoute (withCandidateDestinations .deploymentHandler inst) vs.http⟩,
        rfl, rfl, ?_⟩
      cases hs : c.script with
      | nil => rfl
      | cons e rest =>
        rw [hs] at hok
        cases e with
        | some err => simp at hok
        | none =>
          cases rest with
          | nil => rfl
          | cons e2 rest2 =>
            cases e2 with
            | some err => simp at hok
            | none => rfl

theorem positional_names_agree (n m i : Nat) (destinations : List HTTPRouteDestination)
    (subsets : List Subset) (d : HTTPRouteDestination) (s : Subset)
    (hd : destinations.map (fun x => x.subset) = (List.range' 0 n).map CandidateSubsetName)
    (hs : subsets.map (fun x => x.name) = (List.range' 0 m).map CandidateSubsetName)
    (hdi : destinations[i]? = some d) (hsi : subsets[i]? = some s) :
    d.subset = CandidateSubsetName i ∧ s.name = CandidateSubsetName i := by
  have h1 : (destinations.map (fun x => x.subset))[i]? = some d.subset := by
    simp [List.getElem?_map, hdi]
  have h2 : (subsets.map (fun x => x.name))[i]? = some s.name := by
    simp [List.getElem?_map, hsi]
  rw [hd] at h1
  rw [hs] at h2
  simp only [List.getElem?_map, Option.map_eq_some'] at h1 h2
  obtain ⟨a, ha, ha'⟩ := h1
  obtain ⟨b, hb, hb'⟩ := h2
  have ha2 : a = i := by
    have := List.getElem?_range' 0 1 (m := i) (n := n)
    by_cases hin : i < n
    · rw [this hin] at ha
      simpa using ha.symm
    · have hlen : (List.range' 0 n).length ≤ i := by simpa using Nat.le_of_not_lt hin
      rw [List.getElem?_eq_none hlen] at ha
      cases ha
  have hb2 : b = i := by
    have := List.getElem?_range' 0 1 (m := i) (n := m)
    by_cases hin : i < m
    · rw [this hin] at hb
      simpa using hb.symm
    · have hlen : (List.range' 0 m).length ≤ i := by simpa using Nat.le_of_not_lt hin
      rw [List.getElem?_eq_none hlen] at hb
      cases hb
  subst ha2 hb2
  exact ⟨ha'.symm, hb'.symm⟩

/-- C16: `CandidateSubsetName i` is `iter8-candidate-` followed by the decimal
rendering of `i` (whose digits denote `i`); distinct indices give distinct
names; no candidate subset name equals the baseline subset name
`iter8-baseline`; and after a successful `UpdateRouteWithCandidates` for a
deployment target the destinations appended to the experiment route carry the
subset names of the indices 0, 1, ... of the candidate list, the subsets
appended to the destination rule carry the names of the indices 0, 1, ... of
the candidate objects, so the `i`-th of each carry the same name. -/
theorem C16_candidate_subset_names :
    (∀ i : Nat, CandidateSubsetName i = "iter8-candidate-" ++ Nat.repr i ∧
      digitsValue (Nat.repr i).data = i) ∧
    (∀ i j : Nat, CandidateSubsetName i = CandidateSubsetName j → i = j) ∧
    (∀ i : Nat, CandidateSubsetName i ≠ SubsetBaseline) ∧
    (∀ (rules : istioRoutingRules) (vs : VirtualService) (route : HTTPRoute)
        (dr0 : DestinationRule) (c : Client) (inst : Experiment)
        (candidates : List RuntimeObject),
      rules.isProgressing = false → rules.virtualService = some vs →
      getExperimentRoute vs = some route → rules.destinationRule = some dr0 →
      (Router.UpdateRouteWithCandidates
        { rules := some rules, handler := .deploymentHandler } c inst candidates).out = .ok →
      ∃ vs' route' dr' destinations subsets,
        (Router.UpdateRouteWithCandidates
          { rules := some rules, handler := .deploymentHandler } c inst
          candidates).router.rules =
          some { destinationRule := some dr', virtualService := some vs' } ∧
        getExperimentRoute vs' = some route' ∧
        route'.route = route.route ++ destinations ∧
        dr'.subsets = dr0.subsets ++ subsets ∧
        destinations.map (fun d => d.subset) =
          (List.range' 0 inst.service.candidates.length).map CandidateSubsetName ∧
        subsets.map (fun s => s.name) =
          (List.range' 0 candidates.length).map CandidateSubsetName ∧
        ∀ (i : Nat) (d : HTTPRouteDestination) (s : Subset),
          destinations[i]? = some d → subsets[i]? = some s →
          d.subset = CandidateSubsetName i ∧ s.name = CandidateSubsetName i) := by
  refine ⟨fun i => ⟨candidateSubsetName_eq i, ?_⟩, candidateSubsetName_injective,
    candidateSubsetName_ne_baseline, ?_⟩
  · have := digitsValue_toDigitsCore (i + 1) i (by omega)
    simpa [Nat.repr, Nat.toDigits, List.asString] using this
  · intro rules vs route dr0 c inst candidates hp hvs hroute hdr hok
    obtain ⟨drc, vs', h1, h2, h3⟩ :=
      updateRouteWithCandidates_ok_deployment rules vs dr0 c inst candidates hp hvs hdr hok
    obtain ⟨added, h4, h5⟩ := withCandidateSubsets_subsets candidates 0 dr0 drc h1
    have h6 := candidateDestinations_subsets_deployment inst
    refine ⟨vs', withCandidateDestinations .deploymentHandler inst route,
      drc.WithProgressingLabel, candidateDestinations .deploymentHandler inst, added, h3, ?_,
      ?_, h4, h6, h5, ?_⟩
    · simp only [getExperimentRoute, h2]
      exact find?_updateExperimentRoute _ vs.http route
        (by rw [withCandidateDestinations_eq]) hroute
    · rw [withCandidateDestinations_eq]
    · intro i d s hd hs
      exact positional_names_agree _ _ i _ added d s h6 h5 hd hs

/-- Witness of C16: the first three candidate subset names. -/
theorem C16_candidate_subset_names_witness :
    CandidateSubsetName 0 = "iter8-candidate-0" ∧
    CandidateSubsetName 1 = "iter8-candidate-1" ∧
    CandidateSubsetName 10 = "iter8-candidate-10" ∧
    CandidateSubsetName 0 ≠ CandidateSubsetName 1 ∧
    CandidateSubsetName 0 ≠ SubsetBaseline :=
  ⟨by decide, by decide, by decide,
    fun h => absurd (C16_candidate_subset_names.2.1 0 1 h) (by decide),
    C16_candidate_subset_names.2.2.1 0⟩

/-! ### Router identifier -/

/-- C15: `getRouterID` returns the explicit networking id whenever one is
configured, whatever the hosts are; otherwise it returns the default host of
the experiment, with the wildcard host `*` replaced by `iter8-wildcard-host`.
The default host is the full cluster-local host name of the target service
when a service name is set, also when networking hosts are declared, and the
name of the first declared networking host otherwise. -/
theorem C15_router_id :
    (∀ (inst : Experiment) (nwk : Networking) (id : String),
      inst.networking = some nwk → nwk.id = some id → getRouterID inst = id) ∧
    (∀ inst : Experiment, inst.networking.bind (fun nwk => nwk.id) = none →
      getRouterID inst =
        if Util.GetDefaultHost inst = "*" then "iter8-wildcard-host"
        else Util.GetDefaultHost inst) ∧
    (∀ inst : Experiment, inst.service.name ≠ "" →
      Util.GetDefaultHost inst =
        inst.service.name ++ "." ++ inst.ServiceNamespace ++ ".svc.cluster.local") ∧
    (∀ (inst : Experiment) (nwk : Networking) (host : Host) (rest : List Host),
      inst.service.name = "" → inst.networking = some nwk → nwk.hosts = host :: rest →
      Util.GetDefaultHost inst = host.name) := by
  refine ⟨?_, ?_, ?_, ?_⟩
  · intro inst nwk id h1 h2
    simp [getRouterID, h1, h2]
  · intro inst h
    simp only [getRouterID, h, wildcard]
    by_cases hw : Util.GetDefaultHost inst = "*" <;> simp [hw]
  · intro inst h
    simp [Util.GetDefaultHost, h, Util.ServiceToFullHostName]
  · intro inst nwk host rest h1 h2 h3
    simp [Util.GetDefaultHost, h1, h2, h3]

/-- Witness of C15: the three experiments of `TestGetDefaultHost`, a wildcard
host and an explicit id. -/
theorem C15_router_id_witness :
    Util.GetDefaultHost Examples.serviceOnlyExp =
      "test-service.test-service-namespace.svc.cluster.local" ∧
    Util.GetDefaultHost Examples.hostOnlyExp = "test-host" ∧
    Util.GetDefaultHost Examples.serviceAndHostExp =
      "test-service.test-service-namespace.svc.cluster.local" ∧
    getRouterID Examples.wildcardExp = "iter8-wildcard-host" ∧
    getRouterID Examples.explicitIdExp = "my-router" :=
  ⟨by decide, by decide, by decide, by decide,
    C15_router_id.1 Examples.explicitIdExp _ "my-router" rfl rfl⟩

end Istio

namespace Controller

/-! ### Workload watches -/

theorem toExperiment_eq (resolve : String × String × Bool) :
    (match resolve with
      | (experimentName, experimentNamespace, ok) =>
        if !ok then ([] : List Request)
        else [{ Name := experimentName, Namespace := experimentNamespace }]) =
      if resolve.2.2 then [{ Name := resolve.1, Namespace := resolve.2.1 }] else [] := by
  obtain ⟨n, ns, ok⟩ := resolve
  cases ok <;> rfl

/-- C20: for deployments and for services, every update event is rejected; a create
event is passed on exactly when the cache's mark-found call for the name and
namespace of the object answers true, a delete event exactly when the
mark-missing call answers true (and the cache is left as that call left it);
the object of a passed event is mapped to one reconciliation request with the
name and namespace of the owning experiment when the cache resolves an owner
and to no request otherwise; so the watch enqueues exactly these requests. -/
theorem C20_watch_filtering {σ : Type} (cache : CacheInterface σ) (st : σ) :
    (∀ old new : ObjectMeta,
      deploymentUpdateFunc old new = false ∧ serviceUpdateFunc old new = false ∧
      watchDeployment cache st (.update old new) = ([], st) ∧
      watchService cache st (.update old new) = ([], st)) ∧
    (∀ e : ObjectMeta,
      deploymentCreateFunc cache st e = cache.MarkTargetDeploymentFound st e.name e.Namespace ∧
      deploymentDeleteFunc cache st e =
        cache.MarkTargetDeploymentMissing st e.name e.Namespace ∧
      serviceCreateFunc cache st e = cache.MarkTargetServiceFound st e.name e.Namespace ∧
      serviceDeleteFunc cache st e = cache.MarkTargetServiceMissing st e.name e.Namespace) ∧
    (∀ a : ObjectMeta,
      deploymentToExperiment cache st a =
        (if (cache.DeploymentToExperiment st a.name a.Namespace).2.2 then
          [{ Name := (cache.DeploymentToExperiment st a.name a.Namespace).1,
             Namespace := (cache.DeploymentToExperiment st a.name a.Namespace).2.1 }]
        else []) ∧
      serviceToExperiment cache st a =
        (if (cache.ServiceToExperiment st a.name a.Namespace).2.2 then
          [{ Name := (cache.ServiceToExperiment st a.name a.Namespace).1,
             Namespace := (cache.ServiceToExperiment st a.name a.Namespace).2.1 }]
        else [])) ∧
    (∀ e : ObjectMeta,
      watchDeployment cache st (.create e) =
        (if (cache.MarkTargetDeploymentFound st e.name e.Namespace).1 then
          deploymentToExperiment cache
            (cache.MarkTargetDeploymentFound st e.name e.Namespace).2 e
        else [],
        (cache.MarkTargetDeploymentFound st e.name e.Namespace).2) ∧
      watchDeployment cache st (.delete e) =
        (if (cache.MarkTargetDeploymentMissing st e.name e.Namespace).1 then
          deploymentToExperiment cache
            (cache.MarkTargetDeploymentMissing st e.name e.Namespace).2 e
        else [],
        (cache.MarkTargetDeploymentMissing st e.name e.Namespace).2) ∧
      watchService cache st (.create e) =
        (if (cache.MarkTargetServiceFound st e.name e.Namespace).1 then
          serviceToExperiment cache (cache.MarkTargetServiceFound st e.name e.Namespace).2 e
        else [],
        (cache.MarkTargetServiceFound st e.name e.Namespace).2) ∧
      watchService cache st (.delete e) =
        (if (cache.MarkTargetServiceMissing st e.name e.Namespace).1 then
          serviceToExperiment cache (cache.MarkTargetServiceMissing st e.name e.Namespace).2 e
        else [],
        (cache.MarkTargetServiceMissing st e.name e.Namespace).2)) := by
  have hpred : ∀ m : Bool × σ,
      (match m with
        | (ok, st1) => if (!ok) = true then (false, st1) else (true, st1)) = m := by
    rintro ⟨ok, st1⟩
    cases ok <;> rfl
  have hcreateD : ∀ e, deploymentCreateFunc cache st e =
      cache.MarkTargetDeploymentFound st e.name e.Namespace := fun e => hpred _
  have hdeleteD : ∀ e, deploymentDeleteFunc cache st e =
      cache.MarkTargetDeploymentMissing st e.name e.Namespace := fun e => hpred _
  have hcreateS : ∀ e, serviceCreateFunc cache st e =
      cache.MarkTargetServiceFound st e.name e.Namespace := fun e => hpred _
  have hdeleteS : ∀ e, serviceDeleteFunc cache st e =
      cache.MarkTargetServiceMissing st e.name e.Namespace := fun e => hpred _
  refine ⟨fun old new => ⟨rfl, rfl, rfl, rfl⟩,
    fun e => ⟨hcreateD e, hdeleteD e, hcreateS e, hdeleteS e⟩,
    fun a => ⟨toExperiment_eq _, toExperiment_eq _⟩, fun e => ⟨?_, ?_, ?_, ?_⟩⟩
  · simp only [watchDeployment, hcreateD]
    split <;> simp_all
  · simp only [watchDeployment, hdeleteD]
    split <;> simp_all
  · simp only [watchService, hcreateS]
    split <;> simp_all
  · simp only [watchService, hdeleteS]
    split <;> simp_all

/-- Witness of C20: the create event of the registered deployment `reviews-v2`,
not yet found, is passed and mapped to the request for `test-name`; its update
event is rejected. -/
theorem C20_watch_filtering_witness :
    watchDeployment Examples.oneTargetCache false (.create Examples.reviewsV2Meta) =
      ([{ Name := "test-name", Namespace := "test-namespace" }], true) ∧
    watchDeployment Examples.oneTargetCache true (.create Examples.reviewsV2Meta) =
      ([], true) ∧
    watchDeployment Examples.oneTargetCache true
      (.update Examples.reviewsV2Meta Examples.reviewsV2Meta) = ([], true) :=
  ⟨by decide, by decide,
    ((C20_watch_filtering Examples.oneTargetCache true).1 Examples.reviewsV2Meta
      Examples.reviewsV2Meta).2.2.1⟩

/-! ### Unregistered targets -/

/-- On a target without an entry `MarkFound` answers false and leaves the cache
as it was. -/
theorem markFound_unregistered (st : Cache.State) (kind name ns : String)
    (h : Cache.registered st kind name ns = false) :
    Cache.MarkFound st kind name ns = (false, st) := by
  induction st with
  | nil => rfl
  | cons e rest ih =>
    simp only [Cache.registered, List.any_cons, Bool.or_eq_false_iff] at h
    simp [Cache.MarkFound, h.1, ih (by simpa [Cache.registered] using h.2)]

/-- On a target without an entry `MarkMissing` answers false and leaves the
cache as it was. -/
theorem markMissing_unregistered (st : Cache.State) (kind name ns : String)
    (h : Cache.registered st kind name ns = false) :
    Cache.MarkMissing st kind name ns = (false, st) := by
  induction st with
  | nil => rfl
  | cons e rest ih =>
    simp only [Cache.registered, List.any_cons, Bool.or_eq_false_iff] at h
    simp [Cache.MarkMissing, h.1, ih (by simpa [Cache.registered] using h.2)]

/-- A sequence of mark calls on a target without an entry answers false every
time and leaves the cache as it was. -/
theorem runMarks_unregistered (st : Cache.State) (kind name ns : String)
    (h : Cache.registered st kind name ns = false) (calls : List Cache.MarkCall) :
    Cache.runMarks st kind name ns calls = (List.replicate calls.length false, st) := by
  induction calls with
  | nil => rfl
  | cons c rest ih =>
    cases c <;>
      simp [Cache.runMarks, Cache.MarkCall.apply, markFound_unregistered st kind name ns h,
        markMissing_unregistered st kind name ns h, ih, List.replicate_succ]

/-- C21: for a target that no experiment has registered, every call of a
sequence of MarkFound / MarkMissing calls answers changed = false and the cache
stays as it was; hence the create and the delete predicate of the deployment
watch and of the service watch reject the event of such a target, and the watch
enqueues no reconciliation request. -/
theorem C21_unregistered_target_never_enqueues (st : Cache.State) (kind name ns : String)
    (h : Cache.registered st kind name ns = false) :
    (∀ calls : List Cache.MarkCall,
      (Cache.runMarks st kind name ns calls).1 = List.replicate calls.length false ∧
      (∀ b ∈ (Cache.runMarks st kind name ns calls).1, b = false) ∧
      (Cache.runMarks st kind name ns calls).2 = st) ∧
    (kind = Cache.kindDeployment →
      deploymentCreateFunc Cache.interface st ⟨name, ns⟩ = (false, st) ∧
      deploymentDeleteFunc Cache.interface st ⟨name, ns⟩ = (false, st) ∧
      watchDeployment Cache.interface st (.create ⟨name, ns⟩) = ([], st) ∧
      watchDeployment Cache.interface st (.delete ⟨name, ns⟩) = ([], st)) ∧
    (kind = Cache.kindService →
      serviceCreateFunc Cache.interface st ⟨name, ns⟩ = (false, st) ∧
      serviceDeleteFunc Cache.interface st ⟨name, ns⟩ = (false, st) ∧
      watchService Cache.interface st (.create ⟨name, ns⟩) = ([], st) ∧
      watchService Cache.interface st (.delete ⟨name, ns⟩) = ([], st)) := by
  refine ⟨fun calls => ?_, fun hk => ?_, fun hk => ?_⟩
  · rw [runMarks_unregistered st kind name ns h calls]
    exact ⟨rfl, fun b hb => List.eq_of_mem_replicate hb, rfl⟩
  · subst hk
    have hf := markFound_unregistered st _ name ns h
    have hm := markMissing_unregistered st _ name ns h
    simp [deploymentCreateFunc, deploymentDeleteFunc, watchDeployment, Cache.interface, hf, hm]
  · subst hk
    have hf := markFound_unregistered st _ name ns h
    have hm := markMissing_unregistered st _ name ns h
    simp [serviceCreateFunc, serviceDeleteFunc, watchService, Cache.interface, hf, hm]

/-- C21 on the cache with the one target `reviews-v2`: the deployment
`reviews-v3` of the same namespace is not registered. -/
theorem C21_unregistered_target_never_enqueues_witness :
    Cache.registered Examples.reviewsCache Cache.kindDeployment "reviews-v3" "test-namespace" = false ∧
    (Cache.runMarks Examples.reviewsCache Cache.kindDeployment "reviews-v3" "test-namespace"
      [.found, .missing, .found]).1 = [false, false, false] ∧
    watchDeployment Cache.interface Examples.reviewsCache (.create ⟨"reviews-v3", "test-namespace"⟩) =
      ([], Examples.reviewsCache) :=
  ⟨by decide,
   ((C21_unregistered_target_never_enqueues Examples.reviewsCache Cache.kindDeployment
      "reviews-v3" "test-namespace" (by decide)).1 [.found, .missing, .found]).1,
   ((C21_unregistered_target_never_enqueues Examples.reviewsCache Cache.kindDeployment
      "reviews-v3" "test-namespace" (by decide)).2.1 rfl).2.2.1⟩

/-! ### Failure semantics of `Reconcile` -/

/-- The spec of the instance is the same after `syncExperiment`. -/
theorem syncExperiment_spec (k : Helpers) (eas : ExperimentAbstract) (inst : Instance) :
    (syncExperiment k eas inst).spec = inst.spec := by
  unfold syncExperiment
  repeat' split
  all_goals rfl

/-- With the manual override pause `proceed` returns an error. -/
theorem proceed_pause_isSome (k : Helpers) (api : Api) (inst : Instance)
    (hp : inst.Pause = true) : (proceed k api inst).1.isSome = true := by
  unfold proceed
  rw [if_pos hp]
  simp only []
  repeat' split
  all_goals rfl

/-- When `proceed` returns an error on the synced instance, the part of
`Reconcile` after the registration ends with an empty result, no error and no
stage after `proceed`. -/
theorem reconcileRegistered_not_to_proceed (k : Helpers) (eas : ExperimentAbstract) (api : Api)
    (inst : Instance) (h : (proceed k api (syncExperiment k eas inst)).1.isSome = true) :
    (reconcileRegistered k eas api inst).result = Result.empty ∧
    (reconcileRegistered k eas api inst).err = none ∧
    (reconcileRegistered k eas api inst).invoked = [.registerExperiment] ∧
    (reconcileRegistered k eas api inst).api = (proceed k api (syncExperiment k eas inst)).2.2 := by
  unfold reconcileRegistered
  simp only []
  rcases hq : proceed k api (syncExperiment k eas inst) with ⟨e, i, a⟩
  rw [hq] at h
  cases e with
  | none => simp at h
  | some e => exact ⟨rfl, rfl, rfl, rfl⟩

/-- With the manual override pause, a status update inside `proceed` that
fails with an error that `validUpdateErr` does not accept makes `proceed`
return that error, and the part of `Reconcile` around it returns the empty
result and a nil error. -/
theorem reconcileRegistered_update_failure (k : Helpers) (eas : ExperimentAbstract) (api : Api)
    (inst : Instance) (err : Error) (rest : List (Option Error))
    (hs : api.script = some err :: rest) (hp : inst.Pause = true)
    (hn : k.needStatusUpdate = true) (hv : k.validUpdateErr err = false) :
    (proceed k api (syncExperiment k eas inst)).1 = some err ∧
    (reconcileRegistered k eas api inst).result = Result.empty ∧
    (reconcileRegistered k eas api inst).err = none := by
  have hp1 : (syncExperiment k eas inst).Pause = true := by
    simpa [Instance.Pause, syncExperiment_spec] using hp
  have h1 : (proceed k api (syncExperiment k eas inst)).1 = some err := by
    simp [proceed, hp1, hn, Api.invoke, hs, hv]
  have h2 := reconcileRegistered_not_to_proceed k eas api inst (by rw [h1]; rfl)
  exact ⟨h1, h2.1, h2.2.1⟩

/-- C22: the code against the claim. When the read succeeds on an experiment
without init timestamp and the status update that follows fails with an error
that `validUpdateErr` does not accept, `Reconcile` returns the empty result and
a nil error (not the error); the calls issued are the read and the status
update, and no later stage runs. -/
theorem C22_failed_status_update_returns_nil (k : Helpers) (api : Api) (request : Request)
    (fetched : Instance) (err : Error) (rest : List (Option Error))
    (hs : api.script = none :: some err :: rest)
    (hi : fetched.status.initTimestamp = none) (hv : k.validUpdateErr err = false) :
    (Reconcile k api request fetched).result = Result.empty ∧
    (Reconcile k api request fetched).err = none ∧
    (Reconcile k api request fetched).invoked = [] ∧
    (Reconcile k api request fetched).api.calls =
      api.calls ++ [.get request.Name request.Namespace,
        .statusUpdate { fetched with status := k.InitStatus fetched }] := by
  simp [Reconcile, reconcileFetched, Api.invoke, hs, hi, hv]

/-- C22 on a new experiment: the read succeeds, the status update fails with an
internal error, and `Reconcile` returns no error. -/
theorem C22_failed_status_update_returns_nil_witness :
    Examples.helpers.validUpdateErr Examples.serverError = false ∧
    (Reconcile Examples.helpers Examples.failingSecondCall Examples.request
      Examples.newInstance).err = none :=
  ⟨by decide,
   (C22_failed_status_update_returns_nil Examples.helpers Examples.failingSecondCall
      Examples.request Examples.newInstance Examples.serverError [] rfl rfl (by decide)).2.1⟩

/-- A failed read: a not-found answer ends `Reconcile` with the empty result
and no error, every other error is returned. -/
theorem reconcile_read_failure (k : Helpers) (api : Api) (request : Request) (fetched : Instance)
    (err : Error) (rest : List (Option Error)) (hs : api.script = some err :: rest) :
    (Reconcile k api request fetched).result = Result.empty ∧
    (Reconcile k api request fetched).err = (if err.notFound then none else some err) := by
  cases hn : err.notFound <;> simp [Reconcile, Api.invoke, hs, hn]

/-- A failed update of the finalizer that `validUpdateErr` does not accept is
returned by `Reconcile`. -/
theorem reconcileInitialised_finalizer_failure (k : Helpers) (api : Api) (inst : Instance)
    (err : Error) (rest : List (Option Error)) (hs : api.script = some err :: rest)
    (hf : Finalizer ∉ inst.finalizers) (hv : k.validUpdateErr err = false) :
    (reconcileInitialised k api inst).result = Result.empty ∧
    (reconcileInitialised k api inst).err = some err := by
  simp [reconcileInitialised, addFinalizerIfAbsent, hf, Api.invoke, hs, hv]

/-! ### Pause and resume -/

/-- The function `addFinalizerIfAbsent` writes the finalizers only. -/
theorem addFinalizerIfAbsent_meta (api : Api) (inst : Instance) (fName : String) :
    (addFinalizerIfAbsent api inst fName).2.1.spec = inst.spec ∧
    (addFinalizerIfAbsent api inst fName).2.1.deletionTimestamp = inst.deletionTimestamp := by
  unfold addFinalizerIfAbsent
  split <;> exact ⟨rfl, rfl⟩

/-- The stages of a run of `Reconcile` on an experiment with the manual
override pause hold neither the metrics sync nor the routing. -/
theorem reconcileAttached_pause (k : Helpers) (api : Api) (inst : Instance)
    (hp : inst.Pause = true) (hd : inst.deletionTimestamp = none) :
    Stage.syncMetrics ∉ (reconcileAttached k api inst).invoked ∧
    Stage.syncKubernetes ∉ (reconcileAttached k api inst).invoked ∧
    Stage.finalize ∉ (reconcileAttached k api inst).invoked := by
  unfold reconcileAttached
  rw [hd]
  simp only [ne_eq, not_true_eq_false, if_false, bne_self_eq_false, Bool.false_eq_true]
  split
  · simp
  · rcases hr : k.registerExperiment inst with ⟨e, eas⟩
    cases e with
    | some e => simp
    | none =>
      have hp1 : (syncExperiment k eas inst).Pause = true := by
        simpa [Instance.Pause, syncExperiment_spec] using hp
      have h := reconcileRegistered_not_to_proceed k eas api inst
        (proceed_pause_isSome k api _ hp1)
      simp [h.2.2.1]

/-- C23: pause wins. With the manual override pause `proceed` returns an error
in every phase, whatever the helpers, the abstract experiment and the refresh
flag answer; the part of `Reconcile` around it then ends with the empty result
and a nil error and reaches neither the metrics sync nor the routing of
`syncKubernetes`, and no run of `Reconcile` on such an experiment that is not
being deleted reaches them. In phase Pause with the manual override terminate
`proceed` returns nil. -/
theorem C23_pause_wins :
    (∀ (k : Helpers) (api : Api) (inst : Instance), inst.Pause = true →
      (proceed k api inst).1 ≠ none) ∧
    (∀ (k : Helpers) (eas : ExperimentAbstract) (api : Api) (inst : Instance),
      inst.Pause = true →
      (reconcileRegistered k eas api inst).result = Result.empty ∧
      (reconcileRegistered k eas api inst).err = none ∧
      Stage.syncMetrics ∉ (reconcileRegistered k eas api inst).invoked ∧
      Stage.syncKubernetes ∉ (reconcileRegistered k eas api inst).invoked) ∧
    (∀ (k : Helpers) (api : Api) (request : Request) (fetched : Instance),
      fetched.Pause = true → fetched.deletionTimestamp = none →
      Stage.syncMetrics ∉ (Reconcile k api request fetched).invoked ∧
      Stage.syncKubernetes ∉ (Reconcile k api request fetched).invoked ∧
      Stage.finalize ∉ (Reconcile k api request fetched).invoked) ∧
    (∀ (k : Helpers) (api : Api) (inst : Instance),
      inst.status.phase = PhasePause → inst.Terminate = true →
      (proceed k api inst).1 = none) := by
  refine ⟨?_, ?_, ?_, ?_⟩
  · intro k api inst hp h
    have := proceed_pause_isSome k api inst hp
    rw [h] at this
    simp at this
  · intro k eas api inst hp
    have hp1 : (syncExperiment k eas inst).Pause = true := by
      simpa [Instance.Pause, syncExperiment_spec] using hp
    have h := reconcileRegistered_not_to_proceed k eas api inst
      (proceed_pause_isSome k api _ hp1)
    exact ⟨h.1, h.2.1, by simp [h.2.2.1], by simp [h.2.2.1]⟩
  · intro k api request fetched hp hd
    have key : ∀ (a : Api) (i : Instance), i.Pause = true → i.deletionTimestamp = none →
        Stage.syncMetrics ∉ (reconcileInitialised k a i).invoked ∧
        Stage.syncKubernetes ∉ (reconcileInitialised k a i).invoked ∧
        Stage.finalize ∉ (reconcileInitialised k a i).invoked := by
      intro a i hpi hdi
      have hm := addFinalizerIfAbsent_meta a i Finalizer
      unfold reconcileInitialised
      rcases hq : addFinalizerIfAbsent a i Finalizer with ⟨e, i1, a1⟩
      rw [hq] at hm
      have hs1 : i1.spec = i.spec := hm.1
      have hd0 : i1.deletionTimestamp = i.deletionTimestamp := hm.2
      have hp1 : i1.Pause = true := by simpa [Instance.Pause, hs1] using hpi
      have hd1 : i1.deletionTimestamp = none := by rw [hd0, hdi]
      cases e with
      | none => exact reconcileAttached_pause k _ _ hp1 hd1
      | some e =>
        simp only []
        split
        · simp
        · exact reconcileAttached_pause k _ _ hp1 hd1
    unfold Reconcile
    rcases hq : api.invoke (.get request.Name request.Namespace) with ⟨e, a1⟩
    cases e with
    | some e => simp only []; split <;> simp
    | none =>
      simp only []
      unfold reconcileFetched
      have hp2 : Instance.Pause { fetched with status := k.InitStatus fetched } = true := hp
      have hd2 : Instance.deletionTimestamp { fetched with status := k.InitStatus fetched } =
          none := hd
      split
      · simp only []
        rcases hq2 : a1.invoke (.statusUpdate { fetched with status := k.InitStatus fetched })
          with ⟨e2, a2⟩
        cases e2 with
        | none => exact key _ _ hp2 hd2
        | some e2 =>
          simp only []
          split
          · simp
          · exact key _ _ hp2 hd2
      · exact key _ _ hp hd
  · intro k api inst hph ht
    have hp : inst.Pause = false := by
      simp only [Instance.Terminate, beq_iff_eq] at ht
      simp [Instance.Pause, ht, ActionTerminate, ActionPause]
    have ht1 : Instance.Terminate { inst with status := k.markActionResume inst } = true := ht
    unfold proceed
    simp only [hp, Bool.false_eq_true, if_false, hph, beq_self_eq_true, if_true, ht1]
    split <;> rfl

/-- C23 on a progressing experiment with the manual override pause, and on an
experiment in phase Pause with the manual override terminate. -/
theorem C23_pause_wins_witness :
    Examples.pausedInstance.Pause = true ∧
    (proceed Examples.helpers Examples.succeedingApi Examples.pausedInstance).1 ≠ none ∧
    (proceed Examples.helpers Examples.succeedingApi Examples.terminatedInstance).1 = none :=
  ⟨by decide,
   C23_pause_wins.1 Examples.helpers Examples.succeedingApi Examples.pausedInstance (by decide),
   C23_pause_wins.2.2.2 Examples.helpers Examples.succeedingApi Examples.terminatedInstance
     (by decide) (by decide)⟩

/-- C24: resume on detection. When the spec does not ask for termination and
the abstract experiment reports no termination and a detected target (Resume),
`syncExperiment` sets the phase to Progressing and writes nothing else; when
moreover the spec carries no pause override, in particular when the phase was
Pause, the `proceed` that follows returns nil without a call and without a
change, so that `Reconcile` goes on to the metrics sync and, when that returns
nil, ends with what `syncKubernetes` (the routing) returns. -/
theorem C24_resume_on_detection :
    (∀ (k : Helpers) (eas : ExperimentAbstract) (inst : Instance),
      inst.Terminate = false → eas.terminate = false → eas.resume = true →
      (syncExperiment k eas inst).status.phase = PhaseProgressing ∧
      syncExperiment k eas inst =
        { inst with status := { inst.status with phase := PhaseProgressing } }) ∧
    (∀ (k : Helpers) (eas : ExperimentAbstract) (api : Api) (inst : Instance),
      inst.Terminate = false → eas.terminate = false → eas.resume = true →
      inst.Pause = false →
      proceed k api (syncExperiment k eas inst) = (none, syncExperiment k eas inst, api) ∧
      Stage.syncMetrics ∈ (reconcileRegistered k eas api inst).invoked ∧
      ((syncMetrics k api (syncExperiment k eas inst)).1 = none →
        (reconcileRegistered k eas api inst).invoked =
          [.registerExperiment, .syncMetrics, .syncKubernetes] ∧
        (reconcileRegistered k eas api inst).result =
          (k.syncKubernetes (syncMetrics k api (syncExperiment k eas inst)).2.1).1 ∧
        (reconcileRegistered k eas api inst).err =
          (k.syncKubernetes (syncMetrics k api (syncExperiment k eas inst)).2.1).2)) := by
  have hsync : ∀ (k : Helpers) (eas : ExperimentAbstract) (inst : Instance),
      inst.Terminate = false → eas.terminate = false → eas.resume = true →
      syncExperiment k eas inst =
        { inst with status := { inst.status with phase := PhaseProgressing } } := by
    intro k eas inst ht he hr
    simp [syncExperiment, ht, he, hr]
  refine ⟨fun k eas inst ht he hr => ?_, fun k eas api inst ht he hr hp => ?_⟩
  · rw [hsync k eas inst ht he hr]
    exact ⟨rfl, rfl⟩
  · have hp1 : (syncExperiment k eas inst).Pause = false := by
      simpa [Instance.Pause, syncExperiment_spec] using hp
    have hph : ((syncExperiment k eas inst).status.phase == PhasePause) = false := by
      rw [hsync k eas inst ht he hr]
      show (PhaseProgressing == PhasePause) = false
      decide
    have hpro : proceed k api (syncExperiment k eas inst) =
        (none, syncExperiment k eas inst, api) := by
      unfold proceed
      simp only [hp1, hph, Bool.false_eq_true, if_false]
      split <;> rfl
    refine ⟨hpro, ?_, ?_⟩
    · unfold reconcileRegistered
      simp only [hpro]
      split <;> simp
    · intro hm
      unfold reconcileRegistered
      simp only [hpro]
      rcases hq : syncMetrics k api (syncExperiment k eas inst) with ⟨e, i3, a2⟩
      rw [hq] at hm
      simp only at hm
      subst hm
      exact ⟨rfl, rfl, rfl⟩

/-- C24 on an experiment in phase Pause without manual override, with an
abstract experiment that reports a detected target. -/
theorem C24_resume_on_detection_witness :
    Examples.stalledInstance.status.phase = PhasePause ∧
    (syncExperiment Examples.helpers Examples.detectedAbstract
      Examples.stalledInstance).status.phase = PhaseProgressing ∧
    (proceed Examples.helpers Examples.succeedingApi
      (syncExperiment Examples.helpers Examples.detectedAbstract Examples.stalledInstance)).1 =
      none :=
  ⟨by decide,
   (C24_resume_on_detection.1 Examples.helpers Examples.detectedAbstract
      Examples.stalledInstance (by decide) (by decide) (by decide)).1,
   congrArg Prod.fst (C24_resume_on_detection.2 Examples.helpers Examples.detectedAbstract
      Examples.succeedingApi Examples.stalledInstance (by decide) (by decide) (by decide)
      (by decide)).1⟩

/-! ### The finalizer -/

/-- When the name is among the finalizers, `addFinalizerIfAbsent` returns nil,
leaves the experiment as it is and issues no call. -/
theorem addFinalizerIfAbsent_present (api : Api) (inst : Instance) (fName : String)
    (h : fName ∈ inst.finalizers) : addFinalizerIfAbsent api inst fName = (none, inst, api) := by
  simp [addFinalizerIfAbsent, h]

/-- Called with the constant `Finalizer`, as `Reconcile` does, the function
`addFinalizerIfAbsent` leaves a list that holds the finalizer, and a second
call changes nothing and issues no call. -/
theorem addFinalizerIfAbsent_Finalizer (api : Api) (inst : Instance) :
    Finalizer ∈ (addFinalizerIfAbsent api inst Finalizer).2.1.finalizers ∧
    addFinalizerIfAbsent (addFinalizerIfAbsent api inst Finalizer).2.2
      (addFinalizerIfAbsent api inst Finalizer).2.1 Finalizer =
      (none, (addFinalizerIfAbsent api inst Finalizer).2.1,
        (addFinalizerIfAbsent api inst Finalizer).2.2) := by
  have h1 : Finalizer ∈ (addFinalizerIfAbsent api inst Finalizer).2.1.finalizers := by
    unfold addFinalizerIfAbsent
    split
    · rename_i h; simpa using h
    · simp
  exact ⟨h1, addFinalizerIfAbsent_present _ _ _ h1⟩

/-- For a name that is not among the finalizers and is not the constant
`Finalizer`, a name the controller never passes, the body of
`addFinalizerIfAbsent` appends the constant and not the name. -/
theorem addFinalizerIfAbsent_other_name (api : Api) (inst : Instance) (fName : String)
    (habsent : fName ∉ inst.finalizers) (hne : fName ≠ Finalizer) :
    (addFinalizerIfAbsent api inst fName).2.1.finalizers = inst.finalizers ++ [Finalizer] ∧
    fName ∉ (addFinalizerIfAbsent api inst fName).2.1.finalizers := by
  have h1 : (addFinalizerIfAbsent api inst fName).2.1 =
      { inst with finalizers := inst.finalizers ++ [Finalizer] } := by
    simp [addFinalizerIfAbsent, habsent]
  have h2 : fName ∉ inst.finalizers ++ [Finalizer] := by
    simp [habsent, hne]
  exact ⟨by rw [h1], by rw [h1]; exact h2⟩

/-- C25: finalizer attachment is idempotent and effective. With the finalizer
name of the controller, the constant `Finalizer` that the one call of
`addFinalizerIfAbsent` (in `Reconcile`) passes, the list holds the name after
the call, for every finalizer list; a list that did not hold it gets exactly
one copy, appended, with one update call. For every name that was already
present the call returns nil, leaves the experiment unchanged and issues no
update call. Hence any number of further calls leaves the experiment and the
client as they were after the first: no second copy is added. -/
theorem C25_finalizer_attached_once (api : Api) (inst : Instance) :
    Finalizer ∈ (addFinalizerIfAbsent api inst Finalizer).2.1.finalizers ∧
    (Finalizer ∉ inst.finalizers →
      (addFinalizerIfAbsent api inst Finalizer).2.1.finalizers =
        inst.finalizers ++ [Finalizer] ∧
      (addFinalizerIfAbsent api inst Finalizer).2.2.calls =
        api.calls ++ [.update { inst with finalizers := inst.finalizers ++ [Finalizer] }]) ∧
    (∀ fName : String, fName ∈ inst.finalizers →
      addFinalizerIfAbsent api inst fName = (none, inst, api)) ∧
    (∀ n : Nat,
      (fun s : Instance × Api => (addFinalizerIfAbsent s.2 s.1 Finalizer).2)^[n + 1] (inst, api) =
        (addFinalizerIfAbsent api inst Finalizer).2) := by
  refine ⟨(addFinalizerIfAbsent_Finalizer api inst).1, fun habsent => ?_,
    fun fName h => addFinalizerIfAbsent_present api inst fName h, fun n => ?_⟩
  · constructor
    · simp [addFinalizerIfAbsent, habsent]
    · cases hs : api.script <;> simp [addFinalizerIfAbsent, habsent, Api.invoke, hs]
  · have hfix : ∀ s : Instance × Api,
        (addFinalizerIfAbsent (addFinalizerIfAbsent s.2 s.1 Finalizer).2.2
          (addFinalizerIfAbsent s.2 s.1 Finalizer).2.1 Finalizer).2 =
        (addFinalizerIfAbsent s.2 s.1 Finalizer).2 := by
      intro s
      rw [(addFinalizerIfAbsent_Finalizer s.2 s.1).2]
    have key : ∀ (m : Nat) (s : Instance × Api),
        (fun s : Instance × Api => (addFinalizerIfAbsent s.2 s.1 Finalizer).2)^[m + 1] s =
          (addFinalizerIfAbsent s.2 s.1 Finalizer).2 := by
      intro m
      induction m with
      | zero => intro s; rfl
      | succ m ih =>
        intro s
        rw [Function.iterate_succ_apply, ih]
        exact hfix s
    exact key n (inst, api)

/-- C25 on an experiment without finalizers: the first call attaches
`finalizer.iter8-tools` and two further calls add nothing. -/
theorem C25_finalizer_attached_once_witness :
    "finalizer.iter8-tools" ∈ (addFinalizerIfAbsent Examples.succeedingApi Examples.newInstance
      Finalizer).2.1.finalizers ∧
    ((fun s : Instance × Api => (addFinalizerIfAbsent s.2 s.1 Finalizer).2)^[3]
      (Examples.newInstance, Examples.succeedingApi)).1.finalizers = ["finalizer.iter8-tools"] :=
  ⟨(C25_finalizer_attached_once Examples.succeedingApi Examples.newInstance).1,
   ((congrArg (fun s : Instance × Api => s.1.finalizers)
      ((C25_finalizer_attached_once Examples.succeedingApi Examples.newInstance).2.2.2 2)).trans
      (by decide))⟩

end Controller

namespace Istio

/-! ### The ownership label -/

/-- The ownership label of the virtual service that `UpdateRouteWithBaseline`
builds is the full name of the experiment. -/
theorem baselineVirtualService_owner (h : destinationHandler) (inst : Experiment)
    (vs0 : VirtualService) :
    (baselineVirtualService h inst vs0).labels.get? experimentLabel =
      some (Util.FullExperimentName inst) := by
  rw [baselineVirtualService_labels, Labels.get?_erase_ne _ _ _ (by decide),
    Labels.get?_set_ne _ _ _ _ (by decide), Labels.get?_set_ne _ _ _ _ (by decide),
    Labels.get?_set_self]

/-- The ownership label of the destination rule that `UpdateRouteWithBaseline`
builds is the full name of the experiment. -/
theorem baselineDestinationRule_owner (inst : Experiment) (dr0 : DestinationRule)
    (templateLabels : Labels) :
    (baselineDestinationRule inst dr0 templateLabels).labels.get? experimentLabel =
      some (Util.FullExperimentName inst) := by
  simp only [baselineDestinationRule, DestinationRule.WithExperimentRegistered]
  rw [Labels.get?_set_self]

/-- C26: `FullExperimentName(exp)` is the name of the experiment, a dot, then
its namespace, for every experiment. It is the value that
`UpdateRouteWithBaseline` writes as the ownership label of the virtual service
and of the destination rule, and the value the validation compares with: a pair
with role labels that are not both stable and with ownership labels is accepted
exactly when both ownership labels equal it. -/
theorem C26_full_experiment_name :
    (∀ inst : Experiment, Util.FullExperimentName inst = inst.name ++ "." ++ inst.Namespace) ∧
    (∀ (h : destinationHandler) (inst : Experiment) (vs0 : VirtualService),
      (baselineVirtualService h inst vs0).labels.get? experimentLabel =
        some (Util.FullExperimentName inst)) ∧
    (∀ (inst : Experiment) (dr0 : DestinationRule) (templateLabels : Labels),
      (baselineDestinationRule inst dr0 templateLabels).labels.get? experimentLabel =
        some (Util.FullExperimentName inst)) ∧
    (∀ (p : Processor.Deployment) (dr : DestinationRule) (vs : VirtualService)
        (inst : Experiment) (drrole vsrole drLabel vsLabel : String),
      dr.labels.get? experimentRole = some drrole →
      vs.labels.get? experimentRole = some vsrole →
      (drrole == Processor.Stable && vsrole == Processor.Stable) = false →
      dr.labels.get? experimentLabel = some drLabel →
      vs.labels.get? experimentLabel = some vsLabel →
      ((p.ValidateAndInit [dr] [vs] inst).1 = none ↔
        drLabel = Util.FullExperimentName inst ∧ vsLabel = Util.FullExperimentName inst)) := by
  refine ⟨fun inst => rfl, baselineVirtualService_owner, baselineDestinationRule_owner, ?_⟩
  intro p dr vs inst drrole vsrole drLabel vsLabel hdr hvs hst hdl hvl
  simp only [Processor.Deployment.ValidateAndInit, hdr, hvs, hst, hdl, hvl, Bool.false_eq_true,
    if_false]
  by_cases h1 : drLabel = Util.FullExperimentName inst <;>
    by_cases h2 : vsLabel = Util.FullExperimentName inst <;> simp [h1, h2]

/-- C26 on the experiment of `TestFullExperimentName`: name `test-name`,
namespace `test-namespace`. -/
theorem C26_full_experiment_name_witness :
    Util.FullExperimentName Examples.exp = "test-name.test-namespace" :=
  (C26_full_experiment_name.1 Examples.exp).trans (by decide)

/-- C27, counterexample: for the experiment `test-name` of `test-namespace`
the ownership label that `UpdateRouteWithBaseline` writes is
`test-name.test-namespace`, which is not the namespace, a dot, then the name. -/
theorem C27_counterexample :
    (baselineVirtualService .deploymentHandler Examples.exp Examples.freshVS).labels.get?
      experimentLabel = some "test-name.test-namespace" ∧
    (baselineVirtualService .deploymentHandler Examples.exp Examples.freshVS).labels.get?
      experimentLabel ≠ some (Examples.exp.Namespace ++ "." ++ Examples.exp.name) := by
  decide

/-- C27, amended: the ownership label written on the routing objects is the
name of the experiment, a dot, then its namespace. This holds for the fresh
pair that the validation makes on empty lists, for the virtual service that the
rule set holds after `UpdateRouteWithBaseline` went past its guard, and for the
destination rule that the operation builds. -/
theorem C27_ownership_label_name_then_namespace :
    (∀ (p : Processor.Deployment) (inst : Experiment),
      ((p.ValidateAndInit [] [] inst).2.destinationRule.bind
        (fun dr => dr.labels.get? experimentLabel)) =
        some (inst.name ++ "." ++ inst.Namespace) ∧
      ((p.ValidateAndInit [] [] inst).2.virtualService.bind
        (fun vs => vs.labels.get? experimentLabel)) =
        some (inst.name ++ "." ++ inst.Namespace)) ∧
    (∀ (h : destinationHandler) (rules : istioRoutingRules) (vs0 : VirtualService)
        (c : Client) (inst : Experiment) (baseline : RuntimeObject),
      rules.virtualService = some vs0 → rules.isProgressing = false →
      rules.isInitializing = false →
      ((Router.UpdateRouteWithBaseline { rules := some rules, handler := h } c inst
        baseline).router.rules.bind (fun rules => rules.virtualService)).bind
        (fun vs => vs.labels.get? experimentLabel) =
        some (inst.name ++ "." ++ inst.Namespace)) ∧
    (∀ (inst : Experiment) (dr0 : DestinationRule) (templateLabels : Labels),
      (baselineDestinationRule inst dr0 templateLabels).labels.get? experimentLabel =
        some (inst.name ++ "." ++ inst.Namespace)) := by
  refine ⟨fun p inst => ?_, ?_, fun inst dr0 templateLabels => ?_⟩
  · simp only [Processor.Deployment.ValidateAndInit, Option.bind,
      Processor.DestinationRule.WithInitLabel, Processor.VirtualService.WithInitLabel,
      Processor.NewDestinationRule, Processor.NewVirtualService]
    rw [Labels.get?_set_ne _ _ _ _ (by decide)]
    exact ⟨rfl, rfl⟩
  · intro h rules vs0 c inst baseline hvs hprog hinit
    rw [updateRouteWithBaseline_virtualService h rules vs0 c inst baseline hvs hprog hinit]
    exact baselineVirtualService_owner h inst vs0
  · exact baselineDestinationRule_owner inst dr0 templateLabels

/-- C27 (amended) on the fresh pair of the experiment `test-name` of
`test-namespace`. -/
theorem C27_ownership_label_name_then_namespace_witness :
    Examples.freshRules.virtualService = some Examples.freshVS ∧
    ((Router.UpdateRouteWithBaseline
        { rules := some Examples.freshRules, handler := .deploymentHandler }
        Client.succeeding Examples.exp Examples.v1).router.rules.bind
        (fun rules => rules.virtualService)).bind
        (fun vs => vs.labels.get? experimentLabel) = some "test-name.test-namespace" :=
  ⟨by decide,
   (C27_ownership_label_name_then_namespace.2.1 .deploymentHandler Examples.freshRules
      Examples.freshVS Client.succeeding Examples.exp Examples.v1 (by decide) (by decide)
      (by decide)).trans (by decide)⟩

/-! ### Presence of the validated pair -/

/-- When the validation returns nil both objects of the processor are set; when
it returns an error the processor is as before. -/
theorem validateAndInit_presence (p : Processor.Deployment) (drl : List DestinationRule)
    (vsl : List VirtualService) (inst : Experiment) :
    ((p.ValidateAndInit drl vsl inst).1 = none →
      (p.ValidateAndInit drl vsl inst).2.destinationRule.isSome = true ∧
      (p.ValidateAndInit drl vsl inst).2.virtualService.isSome = true) ∧
    ((p.ValidateAndInit drl vsl inst).1 ≠ none → (p.ValidateAndInit drl vsl inst).2 = p) := by
  unfold Processor.Deployment.ValidateAndInit
  simp only []
  repeat' split
  all_goals simp

/-- The candidate loop of `UpdateRouteWithCandidates` ends when every object is
a deployment. -/
theorem withCandidateSubsets_isSome (candidates : List RuntimeObject) (i : Nat)
    (drb : DestinationRule) (h : candidates.all isDeployment = true) :
    (withCandidateSubsets drb i candidates).isSome = true := by
  induction candidates generalizing i drb with
  | nil => rfl
  | cons cand rest ih =>
    cases cand with
    | Deployment name templateLabels =>
      simp only [List.all_cons, isDeployment, Bool.true_and] at h
      simpa [withCandidateSubsets] using ih (i + 1) _ h
    | Service name => simp [isDeployment] at h

/-- On a router whose rule pair is present an operation on deployments does not
panic and leaves a router whose rule pair is present. -/
theorem apply_rulesPresent (op : RoutingOp) (r : Router) (c : Client) (inst : Experiment)
    (hp : r.rulesPresent = true) (hd : op.onDeployments = true) :
    (op.apply r c inst).out ≠ .panic ∧ (op.apply r c inst).router.rulesPresent = true := by
  rcases r with ⟨rules, h⟩
  cases rules with
  | none => simp [Router.rulesPresent] at hp
  | some rules =>
    rcases rules with ⟨dr, vs⟩
    cases dr with
    | none => simp [Router.rulesPresent] at hp
    | some dr =>
      cases vs with
      | none => simp [Router.rulesPresent] at hp
      | some vs =>
        cases op with
        | baseline b =>
          cases b with
          | Service name => simp [RoutingOp.onDeployments, isDeployment] at hd
          | Deployment name templateLabels =>
            simp only [RoutingOp.apply, Router.UpdateRouteWithBaseline,
              Router.baselineDestinationRuleStep, Client.invoke]
            repeat' split
            all_goals simp_all [Router.rulesPresent]
        | candidates cs =>
          have hs := fun drb => withCandidateSubsets_isSome cs 0 drb hd
          simp only [RoutingOp.apply, Router.UpdateRouteWithCandidates,
            Router.candidatesDestinationRuleStep, Client.invoke, Option.bind]
          repeat' split
          all_goals simp_all [Router.rulesPresent]
          all_goals
            rename_i hnone
            have := hs dr
            rw [hnone] at this
            simp at this
        | trafficUpdate =>
          simp only [RoutingOp.apply, Router.UpdateRouteWithTrafficUpdate, Client.invoke]
          repeat' split
          all_goals simp_all [Router.rulesPresent]
        | toStable =>
          simp only [RoutingOp.apply, Router.UpdateRouteToStable, Router.deleteRules,
            Router.stabilizeRules, Client.invoke]
          repeat' split
          all_goals simp_all [Router.rulesPresent]

/-- A successful `Fetch` through the validation of the processor leaves a
router whose rule pair is present. -/
theorem fetch_rulesPresent (r : Router) (drl : List DestinationRule)
    (vsl : List VirtualService) (c : Client) (inst : Experiment)
    (hok : (r.Fetch processorValidateAndInit drl vsl c inst).out = .ok) :
    (r.Fetch processorValidateAndInit drl vsl c inst).router.rulesPresent = true := by
  have hv := validateAndInit_presence (Processor.New none none) drl vsl inst
  unfold Router.Fetch processorValidateAndInit at hok ⊢
  rcases hq : (Processor.New none none).ValidateAndInit drl vsl inst with ⟨e, p⟩
  rw [hq] at hv hok
  cases e with
  | some err =>
    simp only [] at hok
    revert hok
    repeat' split
    all_goals simp
  | none =>
    have hpres := hv.1 rfl
    simp only [] at hok ⊢
    revert hok
    repeat' split
    all_goals simp_all [Router.rulesPresent, rulesOf]

/-- C28: whenever `ValidateAndInit` returns nil, the destination rule and the
virtual service of the processor are both set, and whenever it returns an error
they are as before the call. Hence the router that a successful `Fetch` leaves
holds both objects, and a routing operation on deployments that follows does not
panic on a nil pointer and leaves both objects set for the next one. -/
theorem C28_validated_pair_present :
    (∀ (p : Processor.Deployment) (drl : List DestinationRule) (vsl : List VirtualService)
        (inst : Experiment), (p.ValidateAndInit drl vsl inst).1 = none →
      (p.ValidateAndInit drl vsl inst).2.destinationRule ≠ none ∧
      (p.ValidateAndInit drl vsl inst).2.virtualService ≠ none) ∧
    (∀ (p : Processor.Deployment) (drl : List DestinationRule) (vsl : List VirtualService)
        (inst : Experiment), (p.ValidateAndInit drl vsl inst).1 ≠ none →
      (p.ValidateAndInit drl vsl inst).2 = p) ∧
    (∀ (r : Router) (drl : List DestinationRule) (vsl : List VirtualService) (c : Client)
        (inst : Experiment),
      (r.Fetch processorValidateAndInit drl vsl c inst).out = .ok →
      (r.Fetch processorValidateAndInit drl vsl c inst).router.rulesPresent = true ∧
      ∀ (op : RoutingOp) (c1 : Client) (inst1 : Experiment), op.onDeployments = true →
        (op.apply (r.Fetch processorValidateAndInit drl vsl c inst).router c1 inst1).out ≠
          .panic ∧
        (op.apply (r.Fetch processorValidateAndInit drl vsl c inst).router c1
          inst1).router.rulesPresent = true) := by
  refine ⟨fun p drl vsl inst h => ?_, fun p drl vsl inst h => ?_,
    fun r drl vsl c inst hok => ?_⟩
  · have hv := (validateAndInit_presence p drl vsl inst).1 h
    exact ⟨fun h0 => by simp [h0] at hv, fun h0 => by simp [h0] at hv⟩
  · exact (validateAndInit_presence p drl vsl inst).2 h
  · have hp := fetch_rulesPresent r drl vsl c inst hok
    exact ⟨hp, fun op c1 inst1 hd => apply_rulesPresent op _ c1 inst1 hp hd⟩

/-- C28 on the empty lists (success: a fresh pair) and on a foreign
progressing pair (error: the processor stays empty). -/
theorem C28_validated_pair_present_witness :
    (Examples.emptyProcessor.ValidateAndInit [] [] Examples.exp).1 = none ∧
    (Examples.emptyProcessor.ValidateAndInit [] [] Examples.exp).2.destinationRule ≠ none ∧
    (Examples.emptyProcessor.ValidateAndInit [Examples.foreignProgressingDR]
      [Examples.ownedProgressingVS] Examples.exp).1 ≠ none ∧
    (Examples.emptyProcessor.ValidateAndInit [Examples.foreignProgressingDR]
      [Examples.ownedProgressingVS] Examples.exp).2 = Examples.emptyProcessor :=
  ⟨by decide,
   (C28_validated_pair_present.1 Examples.emptyProcessor [] [] Examples.exp (by decide)).1,
   by decide,
   C28_validated_pair_present.2.1 Examples.emptyProcessor [Examples.foreignProgressingDR]
     [Examples.ownedProgressingVS] Examples.exp (by decide)⟩

/-! ### Labels of the rule set -/

/-- C29: `haveLabels(labels)` is true exactly when every object present in
the rule set (the destination rule, the virtual service) carries every listed
key with the listed value. Hence a rule set with at least one object present is
never progressing and initializing at once, and on a rule set with both objects
absent `haveLabels` is true for every label map, so that `isProgressing`,
`isInitializing` and `isInit` all hold. -/
theorem C29_haveLabels_characterised (r : istioRoutingRules) :
    (∀ labels : Labels, r.haveLabels labels = true ↔
      ∀ kv ∈ labels,
        (∀ dr, r.destinationRule = some dr → dr.labels.get? kv.1 = some kv.2) ∧
        (∀ vs, r.virtualService = some vs → vs.labels.get? kv.1 = some kv.2)) ∧
    (r.destinationRule.isSome = true ∨ r.virtualService.isSome = true →
      ¬ (r.isProgressing = true ∧ r.isInitializing = true)) ∧
    (r.destinationRule = none → r.virtualService = none →
      (∀ labels : Labels, r.haveLabels labels = true) ∧
      r.isProgressing = true ∧ r.isInitializing = true ∧ r.isInit = true) := by
  have hne : roleProgressing ≠ roleInitializing := by decide
  refine ⟨fun labels => ?_, fun hpres => ?_, fun hdr hvs => ?_⟩
  · rcases r with ⟨dr, vs⟩
    cases dr <;> cases vs <;>
      simp [istioRoutingRules.haveLabels, List.all_eq_true]
  · rcases r with ⟨dr, vs⟩
    rintro ⟨hp, hi⟩
    cases dr with
    | some d =>
      simp only [istioRoutingRules.isProgressing, istioRoutingRules.isInitializing,
        istioRoutingRules.haveLabels, List.all_cons, List.all_nil, Bool.and_true,
        Bool.and_eq_true, beq_iff_eq] at hp hi
      exact hne (Option.some.inj (hp.1.symm.trans hi.1))
    | none =>
      cases vs with
      | some v =>
        simp only [istioRoutingRules.isProgressing, istioRoutingRules.isInitializing,
          istioRoutingRules.haveLabels, List.all_cons, List.all_nil, Bool.and_true,
          Bool.and_eq_true, beq_iff_eq] at hp hi
        exact hne (Option.some.inj (hp.2.symm.trans hi.2))
      | none => simp at hpres
  · rcases r with ⟨dr, vs⟩
    simp only at hdr hvs
    subst hdr hvs
    refine ⟨fun labels => ?_, rfl, rfl, rfl⟩
    simp [istioRoutingRules.haveLabels]

/-- C29 on the progressing rule pair of the examples and on the rule set
without objects. -/
theorem C29_haveLabels_characterised_witness :
    Examples.progressingRules.virtualService.isSome = true ∧
    ¬ (Examples.progressingRules.isProgressing = true ∧
      Examples.progressingRules.isInitializing = true) ∧
    (istioRoutingRules.mk none none).isProgressing = true ∧
    (istioRoutingRules.mk none none).isInitializing = true ∧
    (istioRoutingRules.mk none none).isInit = true :=
  ⟨by decide,
   (C29_haveLabels_characterised Examples.progressingRules).2.1 (Or.inr (by decide)),
   ((C29_haveLabels_characterised ⟨none, none⟩).2.2 rfl rfl).2⟩

/-! ### External hosts and gateways -/

/-- The host names that the loop of `UpdateRouteWithBaseline` collects from a
state in which `mHosts` holds exactly the names collected so far. -/
theorem hostLoop_hosts (hosts : List Host) (st : HostLoop)
    (hinv : ∀ x, x ∈ st.mHosts ↔ x ∈ st.hosts) :
    (hosts.foldl HostLoop.step st).hosts =
      (hosts.map (fun host => host.name)).foldl
        (fun acc x => if acc.contains x then acc else acc ++ [x]) st.hosts := by
  induction hosts generalizing st with
  | nil => rfl
  | cons host rest ih =>
    simp only [List.foldl_cons, List.map_cons]
    have hstep : (HostLoop.step st host).hosts =
        (if st.hosts.contains host.name then st.hosts else st.hosts ++ [host.name]) ∧
        ∀ x, x ∈ (HostLoop.step st host).mHosts ↔ x ∈ (HostLoop.step st host).hosts := by
      unfold HostLoop.step
      by_cases hm : host.name ∈ st.mHosts
      · have c1 : st.mHosts.contains host.name = true := by simpa using hm
        have c2 : st.hosts.contains host.name = true := by simpa using (hinv _).1 hm
        simp only [c1, c2, if_true]
        split <;> exact ⟨rfl, hinv⟩
      · have c1 : st.mHosts.contains host.name = false := by simpa using hm
        have c2 : st.hosts.contains host.name = false := by
          simpa using fun h => hm ((hinv _).2 h)
        simp only [c1, c2, Bool.false_eq_true, if_false]
        split <;> refine ⟨rfl, fun x => ?_⟩ <;> simp [hinv x, or_comm]
    rw [ih _ hstep.2, hstep.1]

/-- The host names that `UpdateRouteWithBaseline` injects are the distinct host
names of the list, each once, in order of first occurrence. -/
theorem externalHosts_hosts (hosts : List Host) :
    (externalHosts hosts).hosts = firstOccurrences (hosts.map (fun host => host.name)) := by
  unfold externalHosts firstOccurrences
  exact hostLoop_hosts hosts _ (fun x => Iff.rfl)

/-- C30: the code against the claim. Two hosts with different names behind
the same gateway, whose name is not one of the host names, make the loop of
`UpdateRouteWithBaseline` collect the gateway twice (the membership test of the
gateway reads `mHosts`, and `mGateways` is never read), where the distinct
gateway names are the one name; the host names are collected once each. -/
theorem C30_gateway_collected_twice (n1 n2 g : String) (hn : n1 ≠ n2) (h1 : g ≠ n1)
    (h2 : g ≠ n2) :
    (externalHosts [⟨n1, g⟩, ⟨n2, g⟩]).gateways = [g, g] ∧
    firstOccurrences ([(⟨n1, g⟩ : Host), ⟨n2, g⟩].map (fun host => host.gateway)) = [g] ∧
    (externalHosts [⟨n1, g⟩, ⟨n2, g⟩]).hosts = [n1, n2] := by
  have hn' : ¬ n2 = n1 := fun h => hn h.symm
  refine ⟨?_, ?_, ?_⟩
  · simp [externalHosts, HostLoop.step, h1, h2, hn']
  · simp [firstOccurrences]
  · simp [externalHosts, HostLoop.step, h1, h2, hn']

/-- C30 on the hosts `a.example.com` and `b.example.com` behind the gateway
`test-gateway`. -/
theorem C30_gateway_collected_twice_witness :
    (externalHosts [⟨"a.example.com", "test-gateway"⟩,
      ⟨"b.example.com", "test-gateway"⟩]).gateways = ["test-gateway", "test-gateway"] :=
  (C30_gateway_collected_twice "a.example.com" "b.example.com" "test-gateway" (by decide)
    (by decide) (by decide)).1

/-! ### Convergence to stable without the experiment route -/

/-- C10 (counterexample): on a pair labeled progressing whose virtual service
holds no route named `iter8-experiment` (here the base route and one other
route, the second with a match clause), cleanup not requested and every call
succeeding, `UpdateRouteToStable` returns `nil` and hands to the update call a
virtual service with the same two named routes, not one unnamed route without
match clauses built from the assessment. -/
theorem C10_counterexample :
    Examples.routelessRules.isProgressing = true ∧
    (Examples.stableExp.GetCleanup && Examples.routelessRules.isInit) = false ∧
    getExperimentRoute Examples.routelessVS = none ∧
    (Router.UpdateRouteToStable
      { rules := some Examples.routelessRules, handler := .deploymentHandler }
      Client.succeeding Examples.stableExp).out = .ok ∧
    (lastUpdatedVirtualService (Router.UpdateRouteToStable
      { rules := some Examples.routelessRules, handler := .deploymentHandler }
      Client.succeeding Examples.stableExp).client).map (fun vs => vs.http) =
      some Examples.routelessVS.http ∧
    (lastUpdatedVirtualService (Router.UpdateRouteToStable
      { rules := some Examples.routelessRules, handler := .deploymentHandler }
      Client.succeeding Examples.stableExp).client).map
        (fun vs => vs.http.map (fun route => route.name)) = some ["iter8-base", "other"] := by
  decide

end Istio
